import Mathlib

/-!
# Multiplexed framing layer of the message proxy

A shallow embedding of the outer framing layer of `aos_core_mp_cpp`:

* `src/communication/utils.hpp` : `PrepareHeader`
* `src/communication/communicationchannel.cpp` : `CommunicationChannel`
* `src/communication/communicationmanager.cpp` : `CommunicationManager`
* `src/communication/socket.cpp` : the byte-stream transport

Bytes are `Fin 256`; the 32-bit fields of the wire header are natural numbers
reduced modulo `2 ^ 32` wherever the C++ code converts to `uint32_t`.
-/

namespace aos.mp.communication

/-- One `uint8_t`. -/
abbrev Byte := Fin 256

/-! ## SHA-256 (the OpenSSL primitive called by `PrepareHeader` and `CalculateChecksum`) -/

namespace Sha256

/-- Addition of 32-bit words. -/
def add32 (a b : Nat) : Nat := (a + b) % 4294967296

/-- Rotate a 32-bit word right by `n` bits. -/
def rotr (n x : Nat) : Nat := (x >>> n ||| x <<< (32 - n)) % 4294967296

/-- Complement of a 32-bit word. -/
def not32 (x : Nat) : Nat := 4294967295 - x % 4294967296

def ch (x y z : Nat) : Nat := (x &&& y) ^^^ (not32 x &&& z)

def maj (x y z : Nat) : Nat := (x &&& y) ^^^ (x &&& z) ^^^ (y &&& z)

def bigSigma0 (x : Nat) : Nat := rotr 2 x ^^^ rotr 13 x ^^^ rotr 22 x

def bigSigma1 (x : Nat) : Nat := rotr 6 x ^^^ rotr 11 x ^^^ rotr 25 x

def smallSigma0 (x : Nat) : Nat := rotr 7 x ^^^ rotr 18 x ^^^ (x >>> 3)

def smallSigma1 (x : Nat) : Nat := rotr 17 x ^^^ rotr 19 x ^^^ (x >>> 10)

/-- The 64 round constants. -/
def K : List Nat :=
  [1116352408, 1899447441, 3049323471, 3921009573, 961987163, 1508970993, 2453635748, 2870763221,
   3624381080, 310598401, 607225278, 1426881987, 1925078388, 2162078206, 2614888103, 3248222580,
   3835390401, 4022224774, 264347078, 604807628, 770255983, 1249150122, 1555081692, 1996064986,
   2554220882, 2821834349, 2952996808, 3210313671, 3336571891, 3584528711, 113926993, 338241895,
   666307205, 773529912, 1294757372, 1396182291, 1695183700, 1986661051, 2177026350, 2456956037,
   2730485921, 2820302411, 3259730800, 3345764771, 3516065817, 3600352804, 4094571909, 275423344,
   430227734, 506948616, 659060556, 883997877, 958139571, 1322822218, 1537002063, 1747873779,
   1955562222, 2024104815, 2227730452, 2361852424, 2428436474, 2756734187, 3204031479, 3329325298]

/-- The eight working variables / the chaining value. -/
structure State where
  a : Nat
  b : Nat
  c : Nat
  d : Nat
  e : Nat
  f : Nat
  g : Nat
  h : Nat
deriving DecidableEq, Repr

/-- The initial hash value. -/
def init : State :=
  ⟨1779033703, 3144134277, 1013904242, 2773480762, 1359893119, 2600822924, 528734635, 1541459225⟩

/-- Message padding: a `128` byte, zeros up to 56 modulo 64, then the bit length as a
64-bit big-endian integer. -/
def pad (data : List Byte) : List Nat :=
  let n := data.length
  let bits := (8 * n) % 18446744073709551616
  data.map Fin.val ++ [128] ++ List.replicate ((119 - n % 64) % 64) 0 ++
    [bits / 72057594037927936 % 256, bits / 281474976710656 % 256, bits / 1099511627776 % 256,
     bits / 4294967296 % 256, bits / 16777216 % 256, bits / 65536 % 256, bits / 256 % 256,
     bits % 256]

/-- Big-endian 32-bit words of a byte list (four bytes per word). -/
def words : List Nat → List Nat
  | b0 :: b1 :: b2 :: b3 :: rest => (b0 * 16777216 + b1 * 65536 + b2 * 256 + b3) :: words rest
  | _ => []

/-- Extends the message schedule (kept newest word first) by `n` further words. -/
def schedule : Nat → List Nat → List Nat
  | 0, w => w
  | n + 1, w =>
    schedule n
      (add32 (add32 (smallSigma1 (w.getD 1 0)) (w.getD 6 0))
        (add32 (smallSigma0 (w.getD 14 0)) (w.getD 15 0)) :: w)

/-- One round of the compression function. -/
def round (s : State) (kw : Nat × Nat) : State :=
  let t1 := add32 (add32 (add32 s.h (bigSigma1 s.e)) (add32 (ch s.e s.f s.g) kw.1)) kw.2
  let t2 := add32 (bigSigma0 s.a) (maj s.a s.b s.c)
  ⟨add32 t1 t2, s.a, s.b, s.c, add32 s.d t1, s.e, s.f, s.g⟩

/-- The compression function on one 64-byte block. -/
def compress (s : State) (block : List Nat) : State :=
  let w := (schedule 48 (words block).reverse).reverse
  let r := (K.zip w).foldl round s
  ⟨add32 s.a r.a, add32 s.b r.b, add32 s.c r.c, add32 s.d r.d,
   add32 s.e r.e, add32 s.f r.f, add32 s.g r.g, add32 s.h r.h⟩

/-- Folds the compression function over the first `n` 64-byte blocks of `bytes`. -/
def blocks : Nat → State → List Nat → State
  | 0, s, _ => s
  | n + 1, s, bytes => blocks n (compress s (bytes.take 64)) (bytes.drop 64)

/-- Big-endian bytes of a 32-bit word. -/
def wordBytes (x : Nat) : List Byte :=
  [Fin.ofNat (x / 16777216), Fin.ofNat (x / 65536), Fin.ofNat (x / 256), Fin.ofNat x]

/-- The 32-byte digest of a chaining value. -/
def digest (s : State) : List Byte :=
  wordBytes s.a ++ wordBytes s.b ++ wordBytes s.c ++ wordBytes s.d ++
    wordBytes s.e ++ wordBytes s.f ++ wordBytes s.g ++ wordBytes s.h

end Sha256

/-- `SHA256(data, size, out)`: the SHA-256 digest of `data`, 32 bytes. -/
def SHA256 (data : List Byte) : List Byte :=
  let p := Sha256.pad data
  Sha256.digest (Sha256.blocks (p.length / 64) Sha256.init p)

/-- `SHA256_DIGEST_LENGTH`. -/
def SHA256_DIGEST_LENGTH : Nat := 32

/-! ## Errors -/

/-- The values of `aos::Error` that the communication layer produces: the `ErrorEnum`
constants it returns and errors built from an `errno` code. -/
inductive Error
  | eNone
  | eFailed
  | eRuntime
  | eTimeout
  | eNotSupported
  | errno (code : Nat)
deriving DecidableEq, Repr

/-- `Error::IsNone`. -/
def Error.IsNone (e : Error) : Bool := e == Error.eNone

/-- The `errno` value `ECONNRESET`. -/
def ECONNRESET : Nat := 104

/-! ## Wire header (`utils.hpp`) -/

/-- Conversion of a C++ `int` to `uint32_t`. -/
def toUInt32 (i : Int) : Nat := (i % 4294967296).toNat

/-- Conversion of a `uint32_t` to a C++ `int` (two's complement). -/
def toInt32 (n : Nat) : Int :=
  if n % 4294967296 < 2147483648 then (n % 4294967296 : Nat) else ((n % 4294967296 : Nat) : Int) - 4294967296

/-- The four bytes of a `uint32_t` in memory (little-endian host). -/
def toLE32 (n : Nat) : List Byte :=
  [Fin.ofNat n, Fin.ofNat (n / 256), Fin.ofNat (n / 65536), Fin.ofNat (n / 16777216)]

/-- The `uint32_t` stored in the given bytes (little-endian host). -/
def fromLE32 (bytes : List Byte) : Nat :=
  bytes.foldr (fun b acc => b.val + 256 * acc) 0

/-- Modelled from the spec: the struct `AosProtocolHeader` declared in `aosprotocol.h`, which is
not part of the repository sources. The outer header is
`{ port: u32, data_size: u32, checksum: 32 bytes }`, 40 bytes, integers in host byte order
(little-endian on the reference platform). -/
structure AosProtocolHeader where
  mPort : Nat
  mDataSize : Nat
  mCheckSum : List Byte
deriving DecidableEq, Repr

/-- `cHeaderSize = sizeof(AosProtocolHeader)`. -/
def cHeaderSize : Nat := 40

/-- The object representation of a header: what `memcpy` reads from `&header`. -/
def AosProtocolHeader.bytes (header : AosProtocolHeader) : List Byte :=
  toLE32 header.mPort ++ toLE32 header.mDataSize ++
    (header.mCheckSum ++ List.replicate SHA256_DIGEST_LENGTH 0).take SHA256_DIGEST_LENGTH

/-- The header whose object representation is the first `cHeaderSize` bytes of `buffer`:
`std::memcpy(&header, buffer.data(), sizeof(AosProtocolHeader))`. -/
def AosProtocolHeader.ofBytes (buffer : List Byte) : AosProtocolHeader where
  mPort := fromLE32 (buffer.take 4)
  mDataSize := fromLE32 ((buffer.drop 4).take 4)
  mCheckSum := (buffer.drop 8).take SHA256_DIGEST_LENGTH

/-- `std::memcpy(dst, src, n)` on byte vectors: the first `n` bytes of `dst` are replaced. -/
def memcpy (dst src : List Byte) (n : Nat) : List Byte := src.take n ++ dst.drop n

/-- `std::memcmp(a, b, n)`; only whether the result is zero is used by the callers. -/
def memcmp (a b : List Byte) (n : Nat) : Int := if a.take n = b.take n then 0 else 1

/-- `PrepareHeader(port, data)` of `utils.hpp`. -/
def PrepareHeader (port : Nat) (data : List Byte) : List Byte :=
  let header : AosProtocolHeader :=
    { mPort := port % 4294967296
      mDataSize := data.length % 4294967296
      mCheckSum := SHA256 data }
  let headerVector : List Byte := List.replicate cHeaderSize 0
  memcpy headerVector header.bytes cHeaderSize

/-! ## Transport (`socket.cpp`) -/

/-- The byte-stream transport behind the Mux, as seen on one connection, after `Socket`:
`rx` holds the bytes the peer sends before it closes the connection, `tx` the messages handed
to `Write` so far (oldest first), `writeResults` the results of the coming `Write` calls
(`eNone` once the list is used up). -/
structure Transport where
  rx : List Byte
  tx : List (List Byte)
  writeResults : List Error
  mShutdown : Bool
deriving DecidableEq, Repr

/-- `Socket::Connect`: fails once the socket is shut down. -/
def Transport.Connect (t : Transport) : Error × Transport :=
  if t.mShutdown then (Error.eFailed, t) else (Error.eNone, t)

/-- `Socket::Read`: fills `message` completely, or returns `ECONNRESET` when the peer closes
the connection before `message.size()` bytes have arrived. A zero-length read succeeds
without touching the stream. -/
def Transport.Read (t : Transport) (message : List Byte) : Error × List Byte × Transport :=
  if message.length ≤ t.rx.length then
    (Error.eNone, t.rx.take message.length, { t with rx := t.rx.drop message.length })
  else
    (Error.errno ECONNRESET, t.rx ++ message.drop t.rx.length, { t with rx := [] })

/-- `Socket::Write`: the message is handed to the socket; the outcome is the next scripted
result. -/
def Transport.Write (t : Transport) (message : List Byte) : Error × Transport :=
  (t.writeResults.headD Error.eNone,
    { t with tx := t.tx ++ [message], writeResults := t.writeResults.tail })

/-- `Socket::Close`. -/
def Transport.Close (t : Transport) : Error × Transport :=
  if t.mShutdown then (Error.eNone, t) else (Error.eNone, { t with mShutdown := true })

/-! ## Channel (`communicationchannel.cpp`) -/

/-- The interface `CommChannelItf` of `types.hpp`, as operations on the state `σ` of the object
that implements it. `Read` receives the caller's buffer and returns its new contents; its
result is `none` in the states in which the call does not return (the caller is blocked). -/
structure CommChannelItf (σ : Type) where
  Connect : σ → Error × σ
  Read : σ → List Byte → Option (Error × List Byte × σ)
  Write : σ → List Byte → Error × σ
  Close : σ → Error × σ

/-- The data members of `CommunicationChannel` (the back-pointer `mCommChannel` is passed to
the operations that use it). -/
structure CommunicationChannel where
  mPort : Int
  mShutdown : Bool
  mReceivedMessage : List Byte
deriving DecidableEq, Repr

/-- The constructor `CommunicationChannel(port, commChan)`. -/
def CommunicationChannel.create (port : Int) : CommunicationChannel :=
  { mPort := port, mShutdown := false, mReceivedMessage := [] }

/-- `CommunicationChannel::Receive`. -/
def CommunicationChannel.Receive (ch : CommunicationChannel) (message : List Byte) :
    Error × CommunicationChannel :=
  (Error.eNone, { ch with mReceivedMessage := ch.mReceivedMessage ++ message })

/-- `CommunicationChannel::Read`. The result is `none` while the predicate of
`mCondVar.wait`, `!mReceivedMessage.empty() || mShutdown`, is false: the caller stays blocked
and the channel is unchanged. Otherwise the rest of the body runs under the mutex and the
result is the returned error, the contents of `message` and the channel afterwards. -/
def CommunicationChannel.Read (ch : CommunicationChannel) (message : List Byte) :
    Option (Error × List Byte × CommunicationChannel) :=
  if !(!ch.mReceivedMessage.isEmpty || ch.mShutdown) then none
  else if ch.mShutdown then some (Error.eRuntime, message, ch)
  else if ch.mReceivedMessage.length < message.length then some (Error.eRuntime, message, ch)
  else
    some (Error.eNone, ch.mReceivedMessage.take message.length,
      { ch with mReceivedMessage := ch.mReceivedMessage.drop message.length })

/-- `CommunicationChannel::Write`, over the object `mCommChannel` points to. -/
def CommunicationChannel.Write {σ : Type} (mCommChannel : CommChannelItf σ) (s : σ)
    (ch : CommunicationChannel) (message : List Byte) : Error × σ :=
  if ch.mShutdown then (Error.eRuntime, s)
  else
    let header := PrepareHeader (toUInt32 ch.mPort) message
    if header.isEmpty then (Error.eRuntime, s)
    else
      let r := mCommChannel.Write s header
      if !r.1.IsNone then r
      else mCommChannel.Write r.2 message

/-- `CommunicationChannel::Close`, over the object `mCommChannel` points to. -/
def CommunicationChannel.Close {σ : Type} (mCommChannel : CommChannelItf σ) (s : σ)
    (ch : CommunicationChannel) : Error × σ × CommunicationChannel :=
  if ch.mShutdown then (Error.eFailed, s, ch)
  else
    let r := mCommChannel.Close s
    (r.1, r.2, { ch with mShutdown := true })

/-- A `CommChannelItf` that behaves as `itf` and also records, oldest first, every message
handed to its `Write`. -/
def CommChannelItf.recording {σ : Type} (itf : CommChannelItf σ) :
    CommChannelItf (σ × List (List Byte)) where
  Connect := fun s => ((itf.Connect s.1).1, ((itf.Connect s.1).2, s.2))
  Read := fun s message => (itf.Read s.1 message).map fun r => (r.1, r.2.1, (r.2.2, s.2))
  Write := fun s message => ((itf.Write s.1 message).1, ((itf.Write s.1 message).2, s.2 ++ [message]))
  Close := fun s => ((itf.Close s.1).1, ((itf.Close s.1).2, s.2))

/-- A `CommunicationChannel` as the `CommChannelItf` that its owner holds; the state is that
of the object `mCommChannel` points to together with the channel's own members. -/
def CommunicationChannel.itf {σ : Type} (mCommChannel : CommChannelItf σ) :
    CommChannelItf (σ × CommunicationChannel) where
  Connect := fun s => ((mCommChannel.Connect s.1).1, ((mCommChannel.Connect s.1).2, s.2))
  Read := fun s message => (s.2.Read message).map fun r => (r.1, r.2.1, (s.1, r.2.2))
  Write := fun s message =>
    ((CommunicationChannel.Write mCommChannel s.1 s.2 message).1,
      ((CommunicationChannel.Write mCommChannel s.1 s.2 message).2, s.2))
  Close := fun s =>
    ((CommunicationChannel.Close mCommChannel s.1 s.2).1,
      ((CommunicationChannel.Close mCommChannel s.1 s.2).2.1,
        (CommunicationChannel.Close mCommChannel s.1 s.2).2.2))

/-! ## Mux (`communicationmanager.cpp`) -/

/-- `CommunicationManager::cMaxMessageSize`. -/
def cMaxMessageSize : Nat := 64 * 1024

/-- The data members of `CommunicationManager` that the framing layer uses. `mChannels` is the
`std::map<int, std::shared_ptr<CommunicationChannel>>`. -/
structure CommunicationManager where
  mTransport : Transport
  mChannels : Int → Option CommunicationChannel
  mShutdown : Bool
  mIsConnected : Bool

/-- A `CommunicationManager` after `Init`: no channel registered, `mShutdown` and
`mIsConnected` false (their default member initialisers). -/
def CommunicationManager.Init (transport : Transport) : CommunicationManager :=
  { mTransport := transport, mChannels := fun _ => none, mShutdown := false, mIsConnected := false }

/-- `CommunicationManager::CreateChannel` for an open channel (`certProvider == nullptr`). -/
def CommunicationManager.CreateChannel (m : CommunicationManager) (port : Int) :
    CommunicationChannel × CommunicationManager :=
  let chan := CommunicationChannel.create port
  (chan, { m with mChannels := Function.update m.mChannels port (some chan) })

/-- `CommunicationManager::Connect`. -/
def CommunicationManager.Connect (m : CommunicationManager) : Error × CommunicationManager :=
  if m.mIsConnected then (Error.eNone, m)
  else
    let r := m.mTransport.Connect
    if !r.1.IsNone then (r.1, { m with mTransport := r.2 })
    else (Error.eNone, { m with mTransport := r.2, mIsConnected := true })

/-- `CommunicationManager::Read`. -/
def CommunicationManager.Read (m : CommunicationManager) (message : List Byte) :
    Error × List Byte × CommunicationManager :=
  (Error.eNotSupported, message, m)

/-- `CommunicationManager::Write`. `m.mIsConnected` is the value of the flag when
`mCondVar.wait_for(lock, cConnectionTimeout, ...)` returns. -/
def CommunicationManager.Write (m : CommunicationManager) (message : List Byte) :
    Error × CommunicationManager :=
  if !m.mIsConnected then (Error.eTimeout, m)
  else
    let r := m.mTransport.Write message
    (r.1, { m with mTransport := r.2 })

/-- `CommunicationManager::Close`. -/
def CommunicationManager.Close (m : CommunicationManager) : Error × CommunicationManager :=
  if m.mShutdown then (Error.eNone, m)
  else
    let r := m.mTransport.Close
    (r.1, { m with mTransport := r.2, mShutdown := true, mIsConnected := false })

/-- The Mux as the `CommChannelItf` that its channels write through. -/
def CommunicationManager.itf : CommChannelItf CommunicationManager where
  Connect := CommunicationManager.Connect
  Read := fun m message => some (m.Read message)
  Write := CommunicationManager.Write
  Close := CommunicationManager.Close

/-- What one iteration of the reader loop did with the header it read; one constructor per
way of reaching the end of the loop body. -/
inductive ReadEvent
  /-- `Message size too big`: the header is dropped. -/
  | tooBig (header : AosProtocolHeader)
  /-- `Checksum mismatch`: the payload read after the header is dropped. -/
  | checksumMismatch (header : AosProtocolHeader) (message : List Byte)
  /-- `Channel not found`: the payload is dropped. -/
  | channelNotFound (header : AosProtocolHeader) (message : List Byte)
  /-- The payload was passed to `mChannels[port]->Receive`. -/
  | received (port : Int) (header : AosProtocolHeader) (message : List Byte)
deriving DecidableEq, Repr

/-- How the body of the reader loop ends: `return err`, or on to the next iteration. -/
inductive ReadStep
  | ret (err : Error) (m : CommunicationManager)
  | next (event : ReadEvent) (m : CommunicationManager)

/-- The body of the `while (!mShutdown)` loop of `CommunicationManager::ReadHandler`. -/
def CommunicationManager.ReadHandlerBody (m : CommunicationManager) : ReadStep :=
  let headerBuffer : List Byte := List.replicate cHeaderSize 0
  let r := m.mTransport.Read headerBuffer
  if !r.1.IsNone then ReadStep.ret r.1 { m with mTransport := r.2.2 }
  else
    let header := AosProtocolHeader.ofBytes r.2.1
    let port := toInt32 header.mPort
    if header.mDataSize > cMaxMessageSize then
      ReadStep.next (ReadEvent.tooBig header) { m with mTransport := r.2.2 }
    else
      let message : List Byte := List.replicate header.mDataSize 0
      let r2 := r.2.2.Read message
      if !r2.1.IsNone then ReadStep.ret r2.1 { m with mTransport := r2.2.2 }
      else
        let checksum := SHA256 r2.2.1
        if memcmp checksum header.mCheckSum SHA256_DIGEST_LENGTH ≠ 0 then
          ReadStep.next (ReadEvent.checksumMismatch header r2.2.1) { m with mTransport := r2.2.2 }
        else
          match m.mChannels port with
          | none =>
            ReadStep.next (ReadEvent.channelNotFound header r2.2.1) { m with mTransport := r2.2.2 }
          | some ch =>
            let r3 := ch.Receive r2.2.1
            let m3 : CommunicationManager :=
              { m with mTransport := r2.2.2
                       mChannels := Function.update m.mChannels port (some r3.2) }
            if !r3.1.IsNone then ReadStep.ret r3.1 m3
            else ReadStep.next (ReadEvent.received port header r2.2.1) m3

/-- The outcome of a run of `ReadHandler`: the error it returns, the state it leaves and what
its iterations did, in order. -/
structure ReadHandlerResult where
  err : Error
  manager : CommunicationManager
  events : List ReadEvent

/-- `CommunicationManager::ReadHandler`, run on the bytes the transport holds. Every
iteration that goes on to the next one has read a header, so the loop ends at the latest when
the stream does. -/
def CommunicationManager.ReadHandler (m : CommunicationManager) : ReadHandlerResult :=
  if m.mShutdown then ⟨Error.eNone, m, []⟩
  else
    match h : m.ReadHandlerBody with
    | ReadStep.ret err m1 => ⟨err, m1, []⟩
    | ReadStep.next event m1 =>
      let r := CommunicationManager.ReadHandler m1
      ⟨r.err, r.manager, event :: r.events⟩
termination_by m.mTransport.rx.length
decreasing_by
  have hle : ∀ (t : Transport) (msg : List Byte), (t.Read msg).2.2.rx.length ≤ t.rx.length := by
    intro t msg
    unfold Transport.Read
    split <;> simp
  have hlt : ∀ (t : Transport) (msg : List Byte), ¬ (!(t.Read msg).1.IsNone) = true →
      0 < msg.length → (t.Read msg).2.2.rx.length < t.rx.length := by
    intro t msg
    unfold Transport.Read
    split
    · intro _ hpos
      simp only [List.length_drop]
      omega
    · intro hn
      simp [Error.IsNone] at hn
  have h40 : 0 < (List.replicate cHeaderSize (0 : Byte)).length := by simp [cHeaderSize]
  dsimp only [CommunicationManager.ReadHandlerBody] at h
  split_ifs at h with h1 h2 h3 h4
  · cases h
    exact hlt _ _ h1 h40
  · cases h
    exact Nat.lt_of_le_of_lt (hle _ _) (hlt _ _ h1 h40)
  · split at h
    · cases h
      exact Nat.lt_of_le_of_lt (hle _ _) (hlt _ _ h1 h40)
    · split_ifs at h
      cases h
      exact Nat.lt_of_le_of_lt (hle _ _) (hlt _ _ h1 h40)

/-- The bytes that an iteration of the reader loop passed to the channel registered for
`port`: the payload of a `received` event for that port, nothing otherwise. -/
def ReadEvent.payloadFor (port : Int) : ReadEvent → List Byte
  | ReadEvent.received p _ message => if p = port then message else []
  | _ => []

/-- The bytes passed to the channel registered for `port` by a run of the reader loop, in
delivery order. -/
def deliveredTo (port : Int) (events : List ReadEvent) : List Byte :=
  events.foldr (fun event acc => event.payloadFor port ++ acc) []

/-- One call on a `CommunicationChannel`: `Receive` by the Mux, `Read` (with the caller's
buffer) or `Close` by the owner of the channel. -/
inductive ChannelCall
  | Receive (message : List Byte)
  | Read (message : List Byte)
  | Close
deriving DecidableEq, Repr

/-- The concatenation of the payloads passed to `Receive`, in call order. -/
def receivedBytes : List ChannelCall → List Byte
  | [] => []
  | ChannelCall.Receive message :: rest => message ++ receivedBytes rest
  | _ :: rest => receivedBytes rest

/-- Runs the calls on a channel in the order in which they take effect. A `Read` whose wait
predicate is false has no effect at that point (its caller stays blocked). The result is the
channel afterwards, the state of the object beneath it, and the concatenation of the bytes
returned by the `Read`s that returned `eNone`, in call order. -/
def CommunicationChannel.run {σ : Type} (mCommChannel : CommChannelItf σ) :
    σ → CommunicationChannel → List ChannelCall → σ × CommunicationChannel × List Byte
  | s, ch, [] => (s, ch, [])
  | s, ch, ChannelCall.Receive message :: rest =>
    CommunicationChannel.run mCommChannel s (ch.Receive message).2 rest
  | s, ch, ChannelCall.Read message :: rest =>
    match ch.Read message with
    | none => CommunicationChannel.run mCommChannel s ch rest
    | some (err, out, ch1) =>
      let r := CommunicationChannel.run mCommChannel s ch1 rest
      (r.1, r.2.1, if err.IsNone then out ++ r.2.2 else r.2.2)
  | s, ch, ChannelCall.Close :: rest =>
    let c := CommunicationChannel.Close mCommChannel s ch
    CommunicationChannel.run mCommChannel c.2.1 c.2.2 rest


end aos.mp.communication

/-! ## File chunker (`filechunker.cpp`) -/

namespace aos.mp.filechunker

open aos.mp.communication (Byte Error SHA256)

/-- `cChunkSize`. -/
def cChunkSize : Nat := 1024

/-- `struct ImageContent` of `filechunker.hpp`. -/
structure ImageContent where
  mRequestID : Nat
  mRelativePath : String
  mPartsCount : Nat
  mPart : Nat
  mData : List Byte
deriving DecidableEq, Repr

/-- `struct ImageFile` of `filechunker.hpp`. -/
structure ImageFile where
  mRelativePath : String
  mSha256 : List Byte
  mSize : Nat
deriving DecidableEq, Repr

/-- `struct ContentInfo` of `filechunker.hpp`. -/
structure ContentInfo where
  mRequestID : Nat
  mImageFiles : List ImageFile
  mImageContents : List ImageContent
deriving DecidableEq, Repr

/-- An open `std::ifstream`: the bytes of the file after the read position, and whether
`failbit` is set (`while (file)` tests its negation). -/
structure IfStream where
  rest : List Byte
  fail : Bool
deriving DecidableEq, Repr

/-- `file.read(buffer, n)` followed by `file.gcount()` bytes of the buffer: `n` bytes when the
file still holds that many; otherwise what is left, and the stream fails (end of file reached
before `n` bytes). A failed stream reads nothing. -/
def IfStream.read (file : IfStream) (n : Nat) : List Byte × IfStream :=
  if file.fail then ([], file)
  else if n ≤ file.rest.length then (file.rest.take n, { rest := file.rest.drop n, fail := false })
  else (file.rest, { rest := [], fail := true })

/-- The `while (file)` loop of `GetChunkedFileContent`, from the state in which `chunkNum`
is the number of the next chunk. -/
def GetChunkedFileContent.loop (requestID partCounts : Nat) (relPath : String)
    (file : IfStream) (chunkNum : Nat) : List ImageContent :=
  if hf : file.fail then []
  else
    { mRequestID := requestID, mRelativePath := relPath, mPartsCount := partCounts,
      mPart := chunkNum, mData := (file.read cChunkSize).1 } ::
      GetChunkedFileContent.loop requestID partCounts relPath (file.read cChunkSize).2
        (chunkNum + 1)
termination_by file.rest.length + (if file.fail then 0 else 1)
decreasing_by
  have hf2 : file.fail = false := by simpa using hf
  simp only [IfStream.read, hf2, cChunkSize]
  by_cases h : 1024 ≤ file.rest.length
  · simp [h]
    omega
  · simp [h]

/-- `GetChunkedFileContent(file, requestID, partCounts, relPath)`. -/
def GetChunkedFileContent (file : IfStream) (requestID partCounts : Nat) (relPath : String) :
    List ImageContent :=
  GetChunkedFileContent.loop requestID partCounts relPath file 1

/-- An entry met by `std::filesystem::recursive_directory_iterator(rootDir)`: its path
relative to `rootDir`, whether it is a directory, and the bytes of the file when it can be
opened for reading (`none` when `std::ifstream` fails to open it). -/
structure DirEntry where
  relativePath : String
  isDirectory : Bool
  content : Option (List Byte)
deriving DecidableEq, Repr

/-- `PrepareImageInfo(rootDir, path, requestID)` for the entry at `path`; `none` stands for
the `std::runtime_error` thrown when the file cannot be opened. The part count
`ceil(double(fileSize) / cChunkSize)` is exact for every size below `2 ^ 53`. -/
def PrepareImageInfo (entry : DirEntry) (requestID : Nat) :
    Option (ImageFile × List ImageContent) :=
  match entry.content with
  | none => none
  | some bytes =>
    let hash := SHA256 bytes
    let file : IfStream := { rest := bytes, fail := false }
    let fileSize := bytes.length
    let partCounts := (fileSize + (cChunkSize - 1)) / cChunkSize
    let relPath := entry.relativePath
    let imageContents := GetChunkedFileContent file requestID partCounts relPath
    some ({ mRelativePath := relPath, mSha256 := hash, mSize := fileSize }, imageContents)

/-- The `for` loop of `ChunkFiles` over the entries of the tree, in iteration order. -/
def ChunkFiles.loop (requestID : Nat) : List DirEntry → ContentInfo → ContentInfo × Error
  | [], contentInfo => (contentInfo, Error.eNone)
  | entry :: rest, contentInfo =>
    if entry.isDirectory then ChunkFiles.loop requestID rest contentInfo
    else
      match PrepareImageInfo entry requestID with
      | none => (contentInfo, Error.eRuntime)
      | some (imageFile, imageContents) =>
        ChunkFiles.loop requestID rest
          { contentInfo with
            mImageFiles := contentInfo.mImageFiles ++ [imageFile]
            mImageContents := contentInfo.mImageContents ++ imageContents }

/-- `ChunkFiles(rootDir, requestID)`, on the entries of the tree below `rootDir`. -/
def ChunkFiles (entries : List DirEntry) (requestID : Nat) : ContentInfo × Error :=
  ChunkFiles.loop requestID entries
    { mRequestID := requestID, mImageFiles := [], mImageContents := [] }

end aos.mp.filechunker

/-! ## Downloader (`downloader.cpp`) -/

namespace aos.mp.downloader

open aos.mp.communication (Error)

/-- `Downloader::cDelay`, in milliseconds. -/
def cDelay : Nat := 1000

/-- `Downloader::cMaxDelay`, in milliseconds. -/
def cMaxDelay : Nat := 5000

/-- `Downloader::cMaxRetryCount`. -/
def cMaxRetryCount : Nat := 3

/-- The `for` loop of `RetryDownload` with `remaining = cMaxRetryCount - retryCount`
iterations to go. `Download` is one call of `Download(url, outfilename)` on the state `σ` of
the network and file system; `sleeps` collects the arguments of `sleep_for`, in order. -/
def RetryDownload.loop {σ : Type} (Download : σ → Error × σ) :
    Nat → Nat → Error → σ → List Nat → Error × σ × List Nat
  | 0, _, error, s, sleeps => (error, s, sleeps)
  | remaining + 1, delay, _, s, sleeps =>
    if (Download s).1.IsNone then (Error.eNone, (Download s).2, sleeps)
    else
      RetryDownload.loop Download remaining (min (delay * 2) cMaxDelay) (Download s).1
        (Download s).2 (sleeps ++ [delay])

/-- `Downloader::RetryDownload(url, outfilename)`: the error returned, the state left and
the waits made. -/
def RetryDownload {σ : Type} (Download : σ → Error × σ) (s : σ) : Error × σ × List Nat :=
  RetryDownload.loop Download cMaxRetryCount cDelay Error.eNone s []

/-- Counts the calls of an operation next to its state. -/
def counting {σ : Type} (f : σ → Error × σ) : σ × Nat → Error × (σ × Nat) :=
  fun s => ((f s.1).1, ((f s.1).2, s.2 + 1))

/-- What `GetFileNameFromURL` reads of a parsed `Poco::URI`: `getScheme()`, `getHost()` and
`getPath()`. A `std::string` is the list of its characters. -/
structure URI where
  scheme : List Char
  host : List Char
  path : List Char
deriving DecidableEq, Repr

/-- `s.find_last_of(c)`; `none` is `std::string::npos`. -/
def find_last_of : List Char → Char → Option Nat
  | [], _ => none
  | x :: xs, c =>
    match find_last_of xs c with
    | some pos => some (pos + 1)
    | none => if x = c then some 0 else none

/-- `s.substr(pos)`. -/
def substr (s : List Char) (pos : Nat) : List Char := s.drop pos

/-- `GetFileNameFromURL(url)`, on the parsed URL. -/
def GetFileNameFromURL (uri : URI) : List Char :=
  let path :=
    if uri.scheme = "file".toList then
      if uri.path.isEmpty && !uri.host.isEmpty then '/' :: uri.host else uri.path
    else uri.path
  match find_last_of path '/' with
  | some pos => substr path (pos + 1)
  | none => path

/-- `std::filesystem::path(dir).append(name).string()`: an absolute `name` replaces `dir`; a
separator is added when `dir` ends in a file name. -/
def pathAppend (dir name : List Char) : List Char :=
  if name.head? = some '/' then name
  else if dir = [] ∨ dir.getLast? = some '/' then dir ++ name
  else dir ++ '/' :: name

/-- `Downloader::Download(url)`: the pair `{outfilename, RetryDownload(url, outfilename)}`,
with the state left by the attempts and the waits made. -/
def Download {σ : Type} (mDownloadDir : List Char) (uri : URI)
    (attempt : List Char → σ → Error × σ) (s : σ) : (List Char × Error) × σ × List Nat :=
  let outfilename := pathAppend mDownloadDir (GetFileNameFromURL uri)
  let r := RetryDownload (attempt outfilename) s
  ((outfilename, r.1), r.2.1, r.2.2)

end aos.mp.downloader

/-! ## Protocol messages -/

namespace servicemanager.v4

open aos.mp.communication (Byte Error)

/-- Modelled from the spec: the `oneof` case of the protobuf message `SMOutgoingMessages`,
whose generated code is not part of the repository sources. The cases the proxy
distinguishes are named; every other kind is `kOther` with its field number. -/
inductive SMOutgoingMessageCase
  | kNodeConfigStatus
  | kImageContentRequest
  | kClockSyncRequest
  | kOther (field : Nat)
  | SMOUTGOINGMESSAGE_NOT_SET
deriving DecidableEq, Repr

/-- Modelled from the spec: a parsed `SMOutgoingMessages`: its `oneof` case and the fields the
proxy reads (those of an `ImageContentRequest`); `content` stands for the rest. -/
structure SMOutgoingMessages where
  SMOutgoingMessage_case : SMOutgoingMessageCase
  url : String
  request_id : Nat
  content_type : String
  content : List Byte
deriving DecidableEq, Repr

/-- `has_clock_sync_request()`. -/
def SMOutgoingMessages.has_clock_sync_request (m : SMOutgoingMessages) : Bool :=
  m.SMOutgoingMessage_case == SMOutgoingMessageCase.kClockSyncRequest

/-- `has_image_content_request()`. -/
def SMOutgoingMessages.has_image_content_request (m : SMOutgoingMessages) : Bool :=
  m.SMOutgoingMessage_case == SMOutgoingMessageCase.kImageContentRequest

/-- Modelled from the spec: the `ImageFile` entry of an `image_content_info` message. -/
structure ImageFileProto where
  relative_path : String
  sha256 : List Byte
  size : Nat
deriving DecidableEq, Repr

/-- Modelled from the spec: the messages `SMIncomingMessages` that the proxy builds itself:
`image_content_info` (with its files, or with an error), `image_content` and `clock_sync`. -/
inductive SMIncomingMessages
  | image_content_info (request_id : Nat) (image_files : List ImageFileProto)
      (error : Option Error)
  | image_content (request_id : Nat) (relative_path : String) (parts_count : Nat) (part : Nat)
      (data : List Byte)
  | clock_sync (current_time : Nat)
deriving DecidableEq, Repr

/-- The protobuf library as the proxy uses it: `ParseFromArray` on an `SMOutgoingMessages`
and `SerializeToArray` on an `SMIncomingMessages` (`none` when the call returns `false`). -/
structure Codec where
  ParseFromArray : List Byte → Option SMOutgoingMessages
  SerializeToArray : SMIncomingMessages → Option (List Byte)

end servicemanager.v4

/-! ## Inner clients (`cmclient.cpp`, `publicnodeclient.cpp`) -/

namespace aos.mp

open aos.mp.communication (Byte Error)

/-- A gRPC `ClientReaderWriter` as the clients use it for writing: the messages written so
far, oldest first, and the results of the coming `Write` calls (`true` once the list is used
up). A `Write` that returns `false` writes nothing. -/
structure Stream (Msg : Type) where
  written : List Msg
  writeResults : List Bool

/-- `mStream->Write(message)`. -/
def Stream.Write {Msg : Type} (stream : Stream Msg) (message : Msg) : Bool × Stream Msg :=
  if stream.writeResults.headD true then
    (true, { written := stream.written ++ [message], writeResults := stream.writeResults.tail })
  else
    (false, { stream with writeResults := stream.writeResults.tail })

/-- How the body of a `while` loop of a task ends: on to the next iteration, or `return`. -/
inductive LoopStep
  | next
  | ret
deriving DecidableEq, Repr

end aos.mp

namespace aos.mp.cmclient

open aos.mp.communication (Byte Error)
open servicemanager.v4 (SMOutgoingMessages SMOutgoingMessageCase)

/-- The members of `CMClient` that the outgoing path uses. `mOutgoingMsgChannel` holds the
serialized messages passed to `SendMessages` and not yet taken by the pump. -/
structure CMClient where
  mStream : Stream SMOutgoingMessages
  mMessageCache : List SMOutgoingMessages
  mOutgoingMsgChannel : List (List Byte)
  mCMConnected : Bool
  mShutdown : Bool

/-- `CMClient::CacheMessage`. -/
def CMClient.CacheMessage (c : CMClient) (message : SMOutgoingMessages) : CMClient :=
  match message.SMOutgoingMessage_case with
  | SMOutgoingMessageCase.kNodeConfigStatus =>
    { c with mMessageCache := c.mMessageCache ++ [message] }
  | _ => c

/-- The part of the loop body of `CMClient::ProcessOutgoingSMMessages` that follows the wait
for the connection, for the message `msg` taken from the outgoing queue. -/
def CMClient.SendOutgoing (ParseFromArray : List Byte → Option SMOutgoingMessages)
    (c : CMClient) (msg : List Byte) : CMClient :=
  match ParseFromArray msg with
  | none => c
  | some outgoingMsg =>
    let r := c.mStream.Write outgoingMsg
    if !r.1 then ({ c with mStream := r.2 }).CacheMessage outgoingMsg
    else { c with mStream := r.2 }

/-- `CMClient::SendCachedMessages`; the `Bool` is `false` when it throws. -/
def CMClient.SendCachedMessages.loop :
    List SMOutgoingMessages → Stream SMOutgoingMessages →
      Bool × List SMOutgoingMessages × Stream SMOutgoingMessages
  | [], stream => (true, [], stream)
  | message :: rest, stream =>
    if !(stream.Write message).1 then (false, message :: rest, (stream.Write message).2)
    else CMClient.SendCachedMessages.loop rest (stream.Write message).2

/-- `CMClient::SendCachedMessages`; the `Bool` is `false` when it throws. -/
def CMClient.SendCachedMessages (c : CMClient) : Bool × CMClient :=
  let r := CMClient.SendCachedMessages.loop c.mMessageCache c.mStream
  (r.1, { c with mMessageCache := r.2.1, mStream := r.2.2 })

/-- `CMClient::RegisterSM` when the stream is created: a new stream, whose writes will have
the results `writeResults`, and `mCMConnected = true`. -/
def CMClient.RegisterSM (c : CMClient) (writeResults : List Bool) : CMClient :=
  { c with mStream := { written := [], writeResults := writeResults }, mCMConnected := true }

end aos.mp.cmclient

namespace aos.mp.iamclient

open aos.mp.communication (Byte Error)

/-- Modelled from the spec: a parsed `IAMOutgoingMessages` (generated code not part of the
repository sources): the field number of its `oneof` case and its content. -/
structure IAMOutgoingMessages where
  IAMOutgoingMessage_case : Nat
  content : List Byte
deriving DecidableEq, Repr

/-- The members of `PublicNodeClient` that the outgoing path uses. -/
structure PublicNodeClient where
  mStream : Stream IAMOutgoingMessages
  mMessageCache : List IAMOutgoingMessages
  mOutgoingMsgChannel : List (List Byte)
  mConnected : Bool
  mShutdown : Bool

/-- `PublicNodeClient::CacheMessage`. -/
def PublicNodeClient.CacheMessage (c : PublicNodeClient) (message : IAMOutgoingMessages) :
    PublicNodeClient :=
  { c with mMessageCache := c.mMessageCache ++ [message] }

/-- The part of the loop body of `PublicNodeClient::ProcessOutgoingIAMMessages` that follows
the wait for the connection, for the message `msg` taken from the outgoing queue. -/
def PublicNodeClient.SendOutgoing (ParseFromArray : List Byte → Option IAMOutgoingMessages)
    (c : PublicNodeClient) (msg : List Byte) : PublicNodeClient :=
  match ParseFromArray msg with
  | none => c
  | some outgoingMsg =>
    let r := c.mStream.Write outgoingMsg
    if !r.1 then ({ c with mStream := r.2 }).CacheMessage outgoingMsg
    else { c with mStream := r.2 }

end aos.mp.iamclient

namespace aos.mp.cmclient

open aos.mp.communication (Byte Error)
open servicemanager.v4 (SMOutgoingMessages SMOutgoingMessageCase)

/-- Where the connection task `CMClient::RunCM` stands, between two of its critical
sections. -/
inductive ConnectionPc
  | registerSM
  | sendCachedMessages
  | processIncoming
  | reconnect
  | stopped
deriving DecidableEq, Repr

/-- Where the pump `CMClient::ProcessOutgoingSMMessages` stands: about to take a message from
the outgoing queue, holding `msg` and waiting for the connection, holding `msg` after the
wait, or returned. -/
inductive PumpPc
  | receive
  | wait (msg : List Byte)
  | send (msg : List Byte)
  | stopped
deriving DecidableEq, Repr

/-- The two tasks of a CM client. -/
inductive Task
  | connection
  | pump
deriving DecidableEq, Repr

/-- The client with its two tasks. `streams` holds the write results of the streams that the
coming calls of `RegisterSM` will create. -/
structure System where
  client : CMClient
  connection : ConnectionPc
  pump : PumpPc
  streams : List (List Bool)

/-- One step of a task: what it does from one point at which it can be preempted to the
next. The sections that run under `mMutex` are single steps; `none` means the task cannot
move (it is blocked, or has returned). -/
def System.step (ParseFromArray : List Byte → Option SMOutgoingMessages) (sys : System) :
    Task → Option System
  | Task.connection =>
    match sys.connection with
    | ConnectionPc.registerSM =>
      if sys.client.mShutdown then some { sys with connection := ConnectionPc.stopped }
      else
        some { sys with
          client := sys.client.RegisterSM (sys.streams.headD [])
          streams := sys.streams.tail
          connection := ConnectionPc.sendCachedMessages }
    | ConnectionPc.sendCachedMessages =>
      let r := sys.client.SendCachedMessages
      some { sys with
        client := r.2
        connection := if r.1 then ConnectionPc.processIncoming else ConnectionPc.reconnect }
    | ConnectionPc.processIncoming => some { sys with connection := ConnectionPc.reconnect }
    | ConnectionPc.reconnect =>
      some { sys with
        client := { sys.client with mCMConnected := false }
        connection := ConnectionPc.registerSM }
    | ConnectionPc.stopped => none
  | Task.pump =>
    match sys.pump with
    | PumpPc.receive =>
      if sys.client.mShutdown then some { sys with pump := PumpPc.stopped }
      else
        match sys.client.mOutgoingMsgChannel with
        | [] => none
        | msg :: rest =>
          some { sys with
            client := { sys.client with mOutgoingMsgChannel := rest }
            pump := PumpPc.wait msg }
    | PumpPc.wait msg =>
      if !(sys.client.mCMConnected || sys.client.mShutdown) then none
      else if sys.client.mShutdown then some { sys with pump := PumpPc.stopped }
      else some { sys with pump := PumpPc.send msg }
    | PumpPc.send msg =>
      some { sys with
        client := sys.client.SendOutgoing ParseFromArray msg
        pump := PumpPc.receive }
    | PumpPc.stopped => none

/-- Runs the tasks in the order of `schedule`; `none` when the schedule asks a task that
cannot move to move. -/
def System.run (ParseFromArray : List Byte → Option SMOutgoingMessages) :
    System → List Task → Option System
  | sys, [] => some sys
  | sys, task :: rest =>
    match sys.step ParseFromArray task with
    | none => none
    | some next => System.run ParseFromArray next rest

end aos.mp.cmclient

/-! ## CM endpoint runner (`cmconnection.cpp`) -/

namespace aos.mp.communication

open servicemanager.v4 (SMOutgoingMessages SMIncomingMessages ImageFileProto Codec)
open aos.mp.filechunker (ContentInfo ImageFile ImageContent DirEntry ChunkFiles)

/-- `cProtobufHeaderSize = sizeof(AosProtobufHeader)`. -/
def cProtobufHeaderSize : Nat := 4

/-- Modelled from the spec: the struct `AosProtobufHeader` declared in `aosprotocol.h`, which
is not part of the repository sources: the inner header `{ data_size: u32 }`. -/
structure AosProtobufHeader where
  mDataSize : Nat
deriving DecidableEq, Repr

/-- `PrepareProtobufHeader(dataSize)` of `utils.hpp`; the argument is converted to
`uint32_t`. -/
def PrepareProtobufHeader (dataSize : Nat) : List Byte :=
  let header : AosProtobufHeader := { mDataSize := dataSize % 4294967296 }
  let headerVector : List Byte := List.replicate cProtobufHeaderSize 0
  memcpy headerVector (toLE32 header.mDataSize) cProtobufHeaderSize

/-- `ParseProtobufHeader(header)` of `utils.hpp`. -/
def ParseProtobufHeader (header : List Byte) : AosProtobufHeader :=
  { mDataSize := fromLE32 (header.take cProtobufHeaderSize) }

/-- The interface `HandlerItf` of `types.hpp`, as operations on the state `η` of the inner
client behind it. -/
structure HandlerItf (η : Type) where
  SendMessages : η → List Byte → Error × η
  ReceiveMessages : η → Option (List Byte × Error × η)

/-- A `HandlerItf` that behaves as `handler` and also records, oldest first, every message
passed to its `SendMessages`. -/
def HandlerItf.recording {η : Type} (handler : HandlerItf η) :
    HandlerItf (η × List (List Byte)) where
  SendMessages := fun h messages =>
    ((handler.SendMessages h.1 messages).1,
      ((handler.SendMessages h.1 messages).2, h.2 ++ [messages]))
  ReceiveMessages := fun h =>
    (handler.ReceiveMessages h.1).map fun r => (r.1, r.2.1, (r.2.2, h.2))

/-- `CMConnection::SendMessage(message, channel)`. -/
def CMConnection.SendMessage {σ : Type} (channel : CommChannelItf σ) (s : σ)
    (message : List Byte) : Error × σ :=
  let protobufHeader := PrepareProtobufHeader message.length
  channel.Write s (protobufHeader ++ message)

/-- `CMConnection::ReadMessage(channel)`: `none` when one of the two reads does not
return. -/
def CMConnection.ReadMessage {σ : Type} (channel : CommChannelItf σ) (s : σ) :
    Option (List Byte × Error × σ) :=
  match channel.Read s (List.replicate cProtobufHeaderSize 0) with
  | none => none
  | some (err, message, s1) =>
    if !err.IsNone then some ([], err, s1)
    else
      let protobufHeader := ParseProtobufHeader message
      match channel.Read s1 (List.replicate protobufHeader.mDataSize 0) with
      | none => none
      | some (err2, message2, s2) =>
        if !err2.IsNone then some ([], err2, s2)
        else some (message2, Error.eNone, s2)

/-- `CMConnection::SendSMClockSync`, with `now` the value of `GetCurrentTime()`. -/
def CMConnection.SendSMClockSync {σ : Type} (codec : Codec) (mCMCommOpenChannel : CommChannelItf σ)
    (now : Nat) (s : σ) : Error × σ :=
  match codec.SerializeToArray (SMIncomingMessages.clock_sync now) with
  | none => (Error.eFailed, s)
  | some data =>
    let r := CMConnection.SendMessage mCMCommOpenChannel s data
    if !r.1.IsNone then r else (Error.eNone, r.2)

/-- The body of the `while (!mShutdown)` loop of `CMConnection::ReadOpenMsgHandler`: how it
ends and the states of the open channel and of the handler; `none` when `ReadMessage` does
not return. -/
def CMConnection.ReadOpenMsgHandlerBody {σ η : Type} (codec : Codec)
    (mCMCommOpenChannel : CommChannelItf σ) (mHandler : HandlerItf η) (now : Nat)
    (s : σ) (h : η) : Option (LoopStep × σ × η) :=
  match CMConnection.ReadMessage mCMCommOpenChannel s with
  | none => none
  | some (message, err, s1) =>
    if !err.IsNone then some (LoopStep.ret, s1, h)
    else
      match codec.ParseFromArray message with
      | none => some (LoopStep.next, s1, h)
      | some outgoingMessages =>
        if outgoingMessages.has_clock_sync_request then
          some (LoopStep.next, (CMConnection.SendSMClockSync codec mCMCommOpenChannel now s1).2, h)
        else
          let r := mHandler.SendMessages h message
          if !r.1.IsNone then some (LoopStep.ret, s1, r.2)
          else some (LoopStep.next, s1, r.2)

/-- `CMConnection::SendFailedImageContentResponse(requestID, err)`. -/
def CMConnection.SendFailedImageContentResponse {σ : Type} (codec : Codec)
    (mCMCommSecureChannel : CommChannelItf σ) (requestID : Nat) (err : Error) (s : σ) :
    Error × σ :=
  match codec.SerializeToArray (SMIncomingMessages.image_content_info requestID [] (some err)) with
  | none => (Error.eFailed, s)
  | some data =>
    let r := CMConnection.SendMessage mCMCommSecureChannel s data
    if !r.1.IsNone then r else (Error.eNone, r.2)

/-- The message that `SendImageContentInfo` builds from the files of a `ContentInfo`. -/
def imageContentInfoMessage (contentInfo : ContentInfo) : SMIncomingMessages :=
  SMIncomingMessages.image_content_info contentInfo.mRequestID
    (contentInfo.mImageFiles.map fun imageFile =>
      { relative_path := imageFile.mRelativePath, sha256 := imageFile.mSha256,
        size := imageFile.mSize })
    none

/-- The message that `SendImageContentInfo` builds from one `ImageContent`. -/
def imageContentMessage (imageContent : ImageContent) : SMIncomingMessages :=
  SMIncomingMessages.image_content imageContent.mRequestID imageContent.mRelativePath
    imageContent.mPartsCount imageContent.mPart imageContent.mData

/-- The second `for` loop of `CMConnection::SendImageContentInfo`. -/
def CMConnection.SendImageContentInfo.loop {σ : Type} (codec : Codec)
    (mCMCommSecureChannel : CommChannelItf σ) : List ImageContent → σ → Error × σ
  | [], s => (Error.eNone, s)
  | imageContent :: rest, s =>
    match codec.SerializeToArray (imageContentMessage imageContent) with
    | none => (Error.eFailed, s)
    | some data =>
      let r := CMConnection.SendMessage mCMCommSecureChannel s data
      if !r.1.IsNone then r
      else CMConnection.SendImageContentInfo.loop codec mCMCommSecureChannel rest r.2

/-- `CMConnection::SendImageContentInfo(contentInfo)`. -/
def CMConnection.SendImageContentInfo {σ : Type} (codec : Codec)
    (mCMCommSecureChannel : CommChannelItf σ) (contentInfo : ContentInfo) (s : σ) : Error × σ :=
  match codec.SerializeToArray (imageContentInfoMessage contentInfo) with
  | none => (Error.eFailed, s)
  | some data =>
    let r := CMConnection.SendMessage mCMCommSecureChannel s data
    if !r.1.IsNone then r
    else CMConnection.SendImageContentInfo.loop codec mCMCommSecureChannel
      contentInfo.mImageContents r.2

/-- `CMConnection::GetFileContent(url, requestID, contentType)`, with `unpacked` the result of
`mImageUnpacker->Unpack`: the entries of the unpacked directory, and an error. -/
def CMConnection.GetFileContent (unpacked : List DirEntry × Error) (requestID : Nat) :
    ContentInfo × Error :=
  if !unpacked.2.IsNone then
    ({ mRequestID := 0, mImageFiles := [], mImageContents := [] }, unpacked.2)
  else ChunkFiles unpacked.1 requestID

/-- `CMConnection::Download(url, requestID, contentType)`, with `downloaded` the error
returned by `mDownloader->Download(url)` and `unpacked` the result of unpacking the
downloaded file. -/
def CMConnection.Download {σ : Type} (codec : Codec) (mCMCommSecureChannel : CommChannelItf σ)
    (downloaded : Error) (unpacked : List DirEntry × Error) (requestID : Nat) (s : σ) :
    Error × σ :=
  if !downloaded.IsNone then
    let r := CMConnection.SendFailedImageContentResponse codec mCMCommSecureChannel requestID
      downloaded s
    if !r.1.IsNone then r else (downloaded, r.2)
  else
    let c := CMConnection.GetFileContent unpacked requestID
    if !c.2.IsNone then
      let r := CMConnection.SendFailedImageContentResponse codec mCMCommSecureChannel requestID
        c.2 s
      if !r.1.IsNone then r else (c.2, r.2)
    else
      let r1 := CMConnection.SendImageContentInfo codec mCMCommSecureChannel c.1 s
      if !r1.1.IsNone then
        let r := CMConnection.SendFailedImageContentResponse codec mCMCommSecureChannel requestID
          r1.1 r1.2
        if !r.1.IsNone then r else (r1.1, r.2)
      else (Error.eNone, r1.2)

/-- The bytes that `SendMessage` hands to the channel for the message `message`: the inner
header followed by the serialized message (nothing when the serialization fails). -/
def innerFrame (codec : Codec) (message : SMIncomingMessages) : List Byte :=
  PrepareProtobufHeader ((codec.SerializeToArray message).getD []).length ++
    (codec.SerializeToArray message).getD []

/-- A `CommChannelItf` whose `Write` returns the next result of a list (`eNone` once the list
is used up), whose `Read` never returns and whose `Connect` and `Close` succeed. -/
def CommChannelItf.scripted : CommChannelItf (List Error) where
  Connect := fun s => (Error.eNone, s)
  Read := fun _ _ => none
  Write := fun s _ => (s.headD Error.eNone, s.tail)
  Close := fun s => (Error.eNone, s)

/-- A stand-in for the protobuf library, for concrete runs: a message is parsed from its
first byte (1 `NodeConfigStatus`, 2 `ImageContentRequest`, 3 `ClockSyncRequest`, another
value another kind) and serialized to a tag byte followed by some of its fields. -/
def Codec.sample : Codec where
  ParseFromArray := fun bytes =>
    match bytes with
    | [] => none
    | tag :: rest =>
      some
        { SMOutgoingMessage_case :=
            if tag = 1 then servicemanager.v4.SMOutgoingMessageCase.kNodeConfigStatus
            else if tag = 2 then servicemanager.v4.SMOutgoingMessageCase.kImageContentRequest
            else if tag = 3 then servicemanager.v4.SMOutgoingMessageCase.kClockSyncRequest
            else servicemanager.v4.SMOutgoingMessageCase.kOther tag.val
          url := "", request_id := 0, content_type := "", content := rest }
  SerializeToArray := fun message =>
    match message with
    | SMIncomingMessages.image_content_info request_id image_files none =>
      some [1, Fin.ofNat request_id, Fin.ofNat image_files.length]
    | SMIncomingMessages.image_content_info request_id _ (some _) =>
      some [2, Fin.ofNat request_id]
    | SMIncomingMessages.image_content request_id _ parts_count part data =>
      some ([3, Fin.ofNat request_id, Fin.ofNat parts_count, Fin.ofNat part] ++ data)
    | SMIncomingMessages.clock_sync current_time => some [4, Fin.ofNat current_time]


/-! ## Secure channel (`securechannel.cpp`) -/

/-- One call on a `CommChannelItf`, as kept by `traced`. -/
inductive ItfCall
  | Connect
  | Read (message : List Byte)
  | Write (message : List Byte)
  | Close
deriving DecidableEq, Repr

/-- A `CommChannelItf` that behaves as `itf` and also records, oldest first, every call made
on it (a `Read` that does not return is not recorded). -/
def CommChannelItf.traced {σ : Type} (itf : CommChannelItf σ) :
    CommChannelItf (σ × List ItfCall) where
  Connect := fun s => ((itf.Connect s.1).1, ((itf.Connect s.1).2, s.2 ++ [ItfCall.Connect]))
  Read := fun s message =>
    (itf.Read s.1 message).map fun r => (r.1, r.2.1, (r.2.2, s.2 ++ [ItfCall.Read message]))
  Write := fun s message =>
    ((itf.Write s.1 message).1, ((itf.Write s.1 message).2, s.2 ++ [ItfCall.Write message]))
  Close := fun s => ((itf.Close s.1).1, ((itf.Close s.1).2, s.2 ++ [ItfCall.Close]))

/-- The OpenSSL session `mSsl` of a `SecureChannel`, as the operations that the channel calls
on it. The session reaches the channel beneath it through the BIO callbacks, so every
operation takes and returns the state `σ` of that channel along with the state `τ` of the
session. `SSL_read` receives the caller's buffer and returns its return value and the new
contents of the buffer; its result is `none` when the call does not return. -/
structure SslItf (σ τ : Type) where
  SSL_read : τ → σ → List Byte → Option (Int × List Byte × τ × σ)
  SSL_write : τ → σ → List Byte → Int × τ × σ
  SSL_shutdown : τ → σ → Int × τ × σ

/-- `SecureChannel::CustomBIOWrite`, on the channel `mChannel` of the secure channel that the
BIO belongs to. -/
def SecureChannel.CustomBIOWrite {σ : Type} (mChannel : CommChannelItf σ) (s : σ)
    (buf : List Byte) : Int × σ :=
  let r := mChannel.Write s buf
  (if r.1.IsNone then (buf.length : Int) else -1, r.2)

/-- `SecureChannel::CustomBIORead`, on the channel `mChannel` of the secure channel that the
BIO belongs to; `none` while `mChannel->Read` does not return. -/
def SecureChannel.CustomBIORead {σ : Type} (mChannel : CommChannelItf σ) (s : σ)
    (buf : List Byte) : Option (Int × List Byte × σ) :=
  let data : List Byte := List.replicate buf.length 0
  (mChannel.Read s data).map fun r =>
    if !r.1.IsNone then (-1, buf, r.2.2)
    else ((r.2.1.length : Int), memcpy buf r.2.1 r.2.1.length, r.2.2)

/-- `SecureChannel::Read` on a connected channel (`mSsl` is the session `session`). -/
def SecureChannel.Read {σ τ : Type} (ssl : SslItf σ τ) (session : τ) (s : σ)
    (message : List Byte) : Option (Error × List Byte × τ × σ) :=
  if message.isEmpty then some (Error.eRuntime, message, session, s)
  else
    (ssl.SSL_read session s message).map fun r =>
      let bytes_read := r.1
      if bytes_read ≤ 0 then (Error.eRuntime, r.2.1, r.2.2)
      else (Error.eNone, r.2.1, r.2.2)

/-- `SecureChannel::Write` on a connected channel. -/
def SecureChannel.Write {σ τ : Type} (ssl : SslItf σ τ) (session : τ) (s : σ)
    (message : List Byte) : Error × τ × σ :=
  let r := ssl.SSL_write session s message
  let bytes_written := r.1
  if bytes_written ≤ 0 then (Error.eRuntime, r.2) else (Error.eNone, r.2)

/-- `SecureChannel::Close`; `mSsl` is `none` for the null pointer (no `Connect` has created a
session yet). -/
def SecureChannel.Close {σ τ : Type} (mChannel : CommChannelItf σ) (ssl : SslItf σ τ)
    (mSsl : Option τ) (s : σ) : Error × Option τ × σ :=
  let r := mChannel.Close s
  let err := r.1
  match mSsl with
  | none => (err, none, r.2)
  | some session =>
    let sd := ssl.SSL_shutdown session r.2
    (err, some sd.2.1, sd.2.2)

/-- The close_notify alert as a TLS record: content type 21, version 3.3, length 2, level 1
(warning), description 0. -/
def closeNotify : List Byte := [21, 3, 3, 0, 2, 1, 0]

/-- A stand-in for an OpenSSL session over the channel `mChannel`, for concrete runs, without
encryption. Its state is the list of the application-data records received and not yet read.
`SSL_read` returns bytes of the first record only, as many as the buffer holds at most (one
record per call, as OpenSSL does), and does not return while there is no record. `SSL_write`
passes the data, and `SSL_shutdown` the close_notify alert, to the write BIO. -/
def SslItf.sample {σ : Type} (mChannel : CommChannelItf σ) : SslItf σ (List (List Byte)) where
  SSL_read := fun session s buf =>
    match session with
    | [] => none
    | record :: rest =>
      let n := min buf.length record.length
      some ((n : Int), memcpy buf record n,
        (if record.length ≤ buf.length then rest else record.drop n :: rest), s)
  SSL_write := fun session s data =>
    let w := SecureChannel.CustomBIOWrite mChannel s data
    (w.1, session, w.2)
  SSL_shutdown := fun session s =>
    let w := SecureChannel.CustomBIOWrite mChannel s closeNotify
    (if w.1 ≤ 0 then -1 else 0, session, w.2)

end aos.mp.communication

/-! ## Inner IAM client: connection task (`publicnodeclient.cpp`) -/

namespace aos.mp.iamclient

open aos.mp.communication (Byte Error)

/-- The loop of `PublicNodeClient::SendCachedMessages`, on the cache and the stream. -/
def PublicNodeClient.SendCachedMessages.loop :
    List IAMOutgoingMessages → Stream IAMOutgoingMessages →
      Error × List IAMOutgoingMessages × Stream IAMOutgoingMessages
  | [], stream => (Error.eNone, [], stream)
  | message :: rest, stream =>
    if !(stream.Write message).1 then (Error.eRuntime, message :: rest, (stream.Write message).2)
    else PublicNodeClient.SendCachedMessages.loop rest (stream.Write message).2

/-- `PublicNodeClient::SendCachedMessages`. -/
def PublicNodeClient.SendCachedMessages (c : PublicNodeClient) : Error × PublicNodeClient :=
  let r := PublicNodeClient.SendCachedMessages.loop c.mMessageCache c.mStream
  (r.1, { c with mMessageCache := r.2.1, mStream := r.2.2 })

/-- `PublicNodeClient::HandleIncomingMessages`, on the messages that `mStream->Read` delivers
before it returns `false`. Each is given by what happens to it: `none` when
`SerializeToArray` fails, otherwise the result of `mIncomingMsgChannel.Send`. -/
def PublicNodeClient.HandleIncomingMessages : List (Option Error) → Error
  | [] => Error.eNone
  | none :: rest => PublicNodeClient.HandleIncomingMessages rest
  | some err :: rest =>
    if !err.IsNone then Error.eRuntime else PublicNodeClient.HandleIncomingMessages rest

/-- What gRPC does for one entry of `mCredentialList`: whether `CreateCustomChannel` and
`NewStub` return an object, the stream returned by `RegisterNode(ctx)` (`none` for a null
pointer, otherwise the results of the writes on it), and the messages that the stream
delivers before it ends, as `HandleIncomingMessages` takes them. -/
structure Attempt where
  channel : Bool
  stub : Bool
  stream : Option (List Bool)
  incoming : List (Option Error)
deriving DecidableEq, Repr

/-- `PublicNodeClient::RegisterNode`: the `for` loop over `mCredentialList`. An entry for
which gRPC returns no stream leaves the members that the model keeps as they were. -/
def PublicNodeClient.RegisterNode : PublicNodeClient → List Attempt → Error × PublicNodeClient
  | c, [] => (Error.eRuntime, c)
  | c, credentials :: rest =>
    if c.mShutdown then (Error.eNone, c)
    else if !credentials.channel then PublicNodeClient.RegisterNode c rest
    else if !credentials.stub then PublicNodeClient.RegisterNode c rest
    else
      match credentials.stream with
      | none => PublicNodeClient.RegisterNode c rest
      | some writeResults =>
        let c1 : PublicNodeClient :=
          { c with mStream := { written := [], writeResults := writeResults }, mConnected := true }
        let r := c1.SendCachedMessages
        if !r.1.IsNone then PublicNodeClient.RegisterNode r.2 rest
        else
          let _err := PublicNodeClient.HandleIncomingMessages credentials.incoming
          PublicNodeClient.RegisterNode r.2 rest

/-- One iteration of the loop of `PublicNodeClient::ConnectionLoop` up to the point where it
starts the wait `mCV.wait_for(lock, cReconnectInterval, ...)`: the client at that point. -/
def PublicNodeClient.ConnectionLoopBody (c : PublicNodeClient) (credentialList : List Attempt) :
    PublicNodeClient :=
  (c.RegisterNode credentialList).2

/-- The predicate of the wait of `PublicNodeClient::ProcessOutgoingIAMMessages`:
`mConnected || mShutdown`. The pump stays blocked while it is false. -/
def PublicNodeClient.PumpMayProceed (c : PublicNodeClient) : Bool :=
  c.mConnected || c.mShutdown

end aos.mp.iamclient

/-! ## Service image (`serviceimage.cpp`) -/

namespace aos.mp.imageunpacker

open aos.mp.communication (Error)

/-- How the evaluation of a piece of code ends: with a value, with an exception derived from
`std::exception`, or in undefined behaviour (an element of a `std::vector` accessed out of
range with `operator[]`). -/
inductive Outcome (α : Type)
  | value (a : α)
  | throws (what : String)
  | undefined
deriving DecidableEq, Repr

/-- Sequencing: an exception or undefined behaviour ends the evaluation. -/
def Outcome.bind {α β : Type} (x : Outcome α) (f : α → Outcome β) : Outcome β :=
  match x with
  | Outcome.value a => f a
  | Outcome.throws what => Outcome.throws what
  | Outcome.undefined => Outcome.undefined

/-- `v[i]` on a `std::vector`. -/
def vectorAt {α : Type} (v : List α) (i : Nat) : Outcome α :=
  match v[i]? with
  | some a => Outcome.value a
  | none => Outcome.undefined

/-- `struct Descriptor`. -/
structure Descriptor where
  mDigest : String
deriving DecidableEq, Repr

/-- `struct Manifest`. -/
structure Manifest where
  mConfig : Descriptor
  mLayers : List Descriptor
deriving DecidableEq, Repr

/-- `struct ServiceManifest`. -/
structure ServiceManifest where
  mAosService : Option Descriptor
  mManifest : Manifest
deriving DecidableEq, Repr

/-- `struct ImageParts`. -/
structure ImageParts where
  mImageConfigPath : String
  mServiceConfigPath : String
  mServiceFSPath : String
deriving DecidableEq, Repr

/-- `cBlobsFolder`. -/
def cBlobsFolder : String := "blobs"

/-- `cManifestFile`. -/
def cManifestFile : String := "manifest.json"

/-- `cTmpRootFSDir`. -/
def cTmpRootFSDir : String := "tmprootfs"

/-- `fs::path(a) / b` for a relative `b`. -/
def pathJoin (a b : String) : String := a ++ "/" ++ b

/-- What the code calls outside the repository, on a file system in state `φ` and JSON
objects of type `J`: the helpers of `utils/image.hpp`, `utils/filesystem.hpp` and
`utils/json.hpp`, `std::filesystem`, and the accessors of
`CaseInsensitiveObjectWrapper`. `file_exists` is `fs::exists`. `OpenJson` is what the static `ParseJson` does with
a path before it throws or returns: `none` when the file cannot be opened or parsed. `GetArrayValue`
gives the elements of an array, to which the caller's function is applied. `SetLayerDigest`
is `object.GetArray("layers")->getObject(0)->set("digest", ...)`. -/
structure Env (φ J : Type) where
  ValidateDigest : String → Error
  ParseDigest : String → String × String
  HashDir : φ → String → String × Error
  file_exists : φ → String → Bool
  is_directory : φ → String → Bool
  MkTmpDir : φ → String → (String × Error) × φ
  UnpackTarImage : φ → String → String → Error × φ
  create_directory : φ → String → Outcome φ
  remove_all : φ → String → Outcome φ
  rename : φ → String → String → Outcome φ
  parent_path : String → String
  OpenJson : φ → String → Option J
  Has : J → String → Bool
  GetObject : J → String → Outcome J
  GetString : J → String → Outcome String
  GetArrayValue : J → String → Outcome (List J)
  SetLayerDigest : J → String → Outcome J
  WriteJsonToFile : φ → J → String → Error × φ

/-- The elements of `xs` passed through `f` in order, as `std::transform` does; the first
exception ends it. -/
def mapOutcome {α β : Type} (f : α → Outcome β) : List α → Outcome (List β)
  | [] => Outcome.value []
  | x :: xs => (f x).bind fun y => (mapOutcome f xs).bind fun ys => Outcome.value (y :: ys)

/-- The static `ParseManifest`. -/
def ParseManifest {φ J : Type} (env : Env φ J) (object : J) : Outcome Manifest :=
  (env.GetObject object "config").bind fun config =>
  (env.GetString config "digest").bind fun digest =>
  (env.GetArrayValue object "layers").bind fun values =>
  (mapOutcome (fun layers => (env.GetString layers "digest").bind fun d =>
      Outcome.value (Descriptor.mk d)) values).bind fun layers =>
  Outcome.value { mConfig := { mDigest := digest }, mLayers := layers }

/-- The static `ParseJson`. -/
def ParseJson {φ J : Type} (env : Env φ J) (fs : φ) (path : String) : Outcome J :=
  match env.OpenJson fs path with
  | none => Outcome.throws ("failed to parse manifest file: " ++ path)
  | some object => Outcome.value object

/-- The static `ParseServiceManifest`. -/
def ParseServiceManifest {φ J : Type} (env : Env φ J) (fs : φ) (manifestPath : String) :
    Outcome ServiceManifest :=
  (ParseJson env fs manifestPath).bind fun object =>
  (ParseManifest env object).bind fun manifest =>
  if env.Has object "aosService" then
    (env.GetObject object "aosService").bind fun aosService =>
    (env.GetString aosService "digest").bind fun digest =>
    Outcome.value { mAosService := some { mDigest := digest }, mManifest := manifest }
  else
    Outcome.value { mAosService := none, mManifest := manifest }

/-- The path `fs::path(imagePath) / cBlobsFolder / algorithm / hex` of the blob with the given
digest. -/
def blobPath {φ J : Type} (env : Env φ J) (imagePath digest : String) : String :=
  pathJoin (pathJoin (pathJoin imagePath cBlobsFolder) (env.ParseDigest digest).1)
    (env.ParseDigest digest).2

/-- The static `GetImageParts`. -/
def GetImageParts {φ J : Type} (env : Env φ J) (imagePath : String) (manifest : ServiceManifest) :
    Outcome ImageParts :=
  let mImageConfigPath := blobPath env imagePath manifest.mManifest.mConfig.mDigest
  let mServiceConfigPath :=
    match manifest.mAosService with
    | some aosService => blobPath env imagePath aosService.mDigest
    | none => ""
  (vectorAt manifest.mManifest.mLayers 0).bind fun layer =>
  Outcome.value
    { mImageConfigPath := mImageConfigPath
      mServiceConfigPath := mServiceConfigPath
      mServiceFSPath := blobPath env imagePath layer.mDigest }

/-- The static `ExtractImage`. -/
def ExtractImage {φ J : Type} (env : Env φ J) (fs : φ) (archivePath imageStoreDir : String) :
    Outcome (String × φ) :=
  let r := env.MkTmpDir fs imageStoreDir
  if !r.1.2.IsNone then Outcome.throws "failed to create temporary directory for image"
  else
    let u := env.UnpackTarImage r.2 archivePath r.1.1
    if !u.1.IsNone then Outcome.throws "failed to unpack image"
    else Outcome.value (r.1.1, u.2)

/-- The static `ValidateImage`. -/
def ValidateImage {φ J : Type} (env : Env φ J) (fs : φ) (imagePath : String)
    (serviceManifest : ServiceManifest) : Outcome Unit :=
  if !(env.ValidateDigest serviceManifest.mManifest.mConfig.mDigest).IsNone then
    Outcome.throws "invalid image config digest"
  else
    let aosService : Outcome Unit :=
      match serviceManifest.mAosService with
      | some aosService =>
        if !(env.ValidateDigest aosService.mDigest).IsNone then
          Outcome.throws "invalid aos service digest"
        else
          (ParseJson env fs (blobPath env imagePath aosService.mDigest)).bind fun _ =>
          Outcome.value ()
      | none => Outcome.value ()
    aosService.bind fun _ =>
    (vectorAt serviceManifest.mManifest.mLayers 0).bind fun layer =>
    let rootfsPath := blobPath env imagePath layer.mDigest
    if !env.file_exists fs rootfsPath then Outcome.throws "rootfs not found"
    else if !env.is_directory fs rootfsPath then
      if !(env.ValidateDigest layer.mDigest).IsNone then Outcome.throws "invalid rootfs digest"
      else Outcome.value ()
    else
      let r := env.HashDir fs rootfsPath
      if !r.2.IsNone then Outcome.throws "failed to calculate rootfs checksum"
      else if layer.mDigest ≠ r.1 then Outcome.throws "incorrect rootfs checksum"
      else Outcome.value ()

/-- The static `PrepareServiceFS`. -/
def PrepareServiceFS {φ J : Type} (env : Env φ J) (fs : φ) (imagePath : String)
    (serviceManifest : ServiceManifest) : Outcome (String × φ) :=
  (GetImageParts env imagePath serviceManifest).bind fun imageParts =>
  let tmpRootFS := pathJoin imagePath cTmpRootFSDir
  (env.create_directory fs tmpRootFS).bind fun fs1 =>
  let u := env.UnpackTarImage fs1 imageParts.mServiceFSPath tmpRootFS
  if !u.1.IsNone then Outcome.throws "failed to unpack service FS"
  else
    (env.remove_all u.2 imageParts.mServiceFSPath).bind fun fs2 =>
    let r := env.HashDir fs2 tmpRootFS
    if !r.2.IsNone then Outcome.throws "failed to calculate rootfs checksum"
    else
      let rootFSDigest := r.1
      let _err := env.ValidateDigest rootFSDigest
      let hex := (env.ParseDigest rootFSDigest).2
      (env.rename fs2 tmpRootFS (pathJoin (env.parent_path imageParts.mServiceFSPath) hex)).bind
        fun fs3 => Outcome.value (rootFSDigest, fs3)

/-- `v[i] = x` on a `std::vector`. -/
def vectorSet {α : Type} (v : List α) (i : Nat) (x : α) : Outcome (List α) :=
  if i < v.length then Outcome.value (v.set i x) else Outcome.undefined

/-- The static `UpdateRootFSDigestInManifest`; the result is the manifest, which the caller
passes by reference, and the file system. -/
def UpdateRootFSDigestInManifest {φ J : Type} (env : Env φ J) (fs : φ) (manifestPath : String)
    (rootFSDigest : String) (serviceManifest : ServiceManifest) :
    Outcome (ServiceManifest × φ) :=
  (vectorSet serviceManifest.mManifest.mLayers 0 { mDigest := rootFSDigest }).bind fun layers =>
  (ParseJson env fs manifestPath).bind fun manifest =>
  (env.SetLayerDigest manifest rootFSDigest).bind fun object =>
  let w := env.WriteJsonToFile fs object manifestPath
  if !w.1.IsNone then Outcome.throws "failed to update manifest"
  else
    Outcome.value
      ({ serviceManifest with mManifest := { serviceManifest.mManifest with mLayers := layers } },
        w.2)

/-- The body of the `try` block of `UnpackService`; the value is `imagePath`. -/
def UnpackService.tryBlock {φ J : Type} (env : Env φ J) (fs : φ)
    (archivePath imageStoreDir : String) : Outcome (String × φ) :=
  (ExtractImage env fs archivePath imageStoreDir).bind fun extracted =>
  let imagePath := extracted.1
  (ParseServiceManifest env extracted.2 (pathJoin imagePath cManifestFile)).bind
    fun serviceManifest =>
  (ValidateImage env extracted.2 imagePath serviceManifest).bind fun _ =>
  (PrepareServiceFS env extracted.2 imagePath serviceManifest).bind fun prepared =>
  (UpdateRootFSDigestInManifest env prepared.2 (pathJoin imagePath cManifestFile) prepared.1
    serviceManifest).bind fun updated =>
  Outcome.value (imagePath, updated.2)

/-- `UnpackService`: the `RetWithError<std::string>` it returns, or `none` when its
evaluation runs into undefined behaviour. An exception is caught and turned into the
`eRuntime` error. -/
def UnpackService {φ J : Type} (env : Env φ J) (fs : φ) (archivePath imageStoreDir : String) :
    Option (String × Error) :=
  match UnpackService.tryBlock env fs archivePath imageStoreDir with
  | Outcome.value r => some (r.1, Error.eNone)
  | Outcome.throws _ => some ("", Error.eRuntime)
  | Outcome.undefined => none

/-- A JSON object of a stand-in for the JSON library: a manifest with the digest of its
`config`, the digests of its `layers` and the digest of its `aosService` if it has one, or
one of the objects inside it, which has a `digest`. -/
inductive SampleJson
  | manifest (config : String) (layers : List String) (aosService : Option String)
  | descriptor (digest : String)
deriving DecidableEq, Repr

/-- A stand-in for the helpers and the file system, for concrete runs. The file system is the
list of its JSON files with their paths, all regular files. Every digest is valid and is
split into `sha256` and itself; `MkTmpDir` returns the directory `tmp` in the directory it is
given; unpacking an archive changes nothing. A key that is absent from an object makes
`GetObject` throw, `GetString` return the empty string and `GetArrayValue` return no
element. -/
def Env.sample : Env (List (String × SampleJson)) SampleJson where
  ValidateDigest := fun _ => Error.eNone
  ParseDigest := fun digest => ("sha256", digest)
  HashDir := fun _ _ => ("sha256:r", Error.eNone)
  file_exists := fun fs path => (fs.lookup path).isSome
  is_directory := fun _ _ => false
  MkTmpDir := fun fs dir => ((pathJoin dir "tmp", Error.eNone), fs)
  UnpackTarImage := fun fs _ _ => (Error.eNone, fs)
  create_directory := fun fs _ => Outcome.value fs
  remove_all := fun fs path => Outcome.value (fs.filter fun file => file.1 ≠ path)
  rename := fun fs _ _ => Outcome.value fs
  parent_path := fun path => path
  OpenJson := fun fs path => fs.lookup path
  Has := fun object key =>
    match object with
    | SampleJson.manifest _ _ aosService =>
      key = "config" || key = "layers" || (key = "aosService" && aosService.isSome)
    | SampleJson.descriptor _ => key = "digest"
  GetObject := fun object key =>
    match object with
    | SampleJson.manifest config _ aosService =>
      if key = "config" then Outcome.value (SampleJson.descriptor config)
      else
        match aosService with
        | some digest =>
          if key = "aosService" then Outcome.value (SampleJson.descriptor digest)
          else Outcome.throws "Key not found"
        | none => Outcome.throws "Key not found"
    | SampleJson.descriptor _ => Outcome.throws "Key not found"
  GetString := fun object key =>
    match object with
    | SampleJson.descriptor digest => Outcome.value (if key = "digest" then digest else "")
    | SampleJson.manifest _ _ _ => Outcome.value ""
  GetArrayValue := fun object key =>
    match object with
    | SampleJson.manifest _ layers _ =>
      Outcome.value (if key = "layers" then layers.map SampleJson.descriptor else [])
    | SampleJson.descriptor _ => Outcome.value []
  SetLayerDigest := fun object digest =>
    match object with
    | SampleJson.manifest config (_ :: rest) aosService =>
      Outcome.value (SampleJson.manifest config (digest :: rest) aosService)
    | _ => Outcome.throws "Null pointer"
  WriteJsonToFile := fun fs object path =>
    (Error.eNone, (path, object) :: fs.filter fun file => file.1 ≠ path)

end aos.mp.imageunpacker

namespace aos.mp.communication

open servicemanager.v4 (SMOutgoingMessages SMIncomingMessages ImageFileProto Codec)
open aos.mp.filechunker (ContentInfo ImageFile ImageContent DirEntry ChunkFiles)
/-! ## Lemmas on the codec and the reader loop -/

/-- The digest of the empty message (FIPS 180-4 test vector). -/
theorem SHA256_empty :
    SHA256 [] =
      [227, 176, 196, 66, 152, 252, 28, 20, 154, 251, 244, 200, 153, 111, 185, 36] ++
      [39, 174, 65, 228, 100, 155, 147, 76, 164, 149, 153, 27, 120, 82, 184, 85] := by
  decide!

/-- The digest of the message `abc` (FIPS 180-4 test vector). -/
theorem SHA256_abc :
    SHA256 [97, 98, 99] =
      [186, 120, 22, 191, 143, 1, 207, 234, 65, 65, 64, 222, 93, 174, 34, 35] ++
      [176, 3, 97, 163, 150, 23, 122, 156, 180, 16, 255, 97, 242, 0, 21, 173] := by
  decide!

theorem SHA256_length (data : List Byte) : (SHA256 data).length = 32 := by
  simp [SHA256, Sha256.digest, Sha256.wordBytes]

theorem toLE32_length (n : Nat) : (toLE32 n).length = 4 := by
  simp [toLE32]

theorem fromLE32_toLE32 (n : Nat) (h : n < 4294967296) : fromLE32 (toLE32 n) = n := by
  simp only [toLE32, fromLE32, List.foldr, Fin.ofNat, Nat.reduceAdd]
  omega

theorem toInt32_toUInt32 (p : Int) (h1 : -2147483648 ≤ p) (h2 : p < 2147483648) :
    toInt32 (toUInt32 p) = p := by
  unfold toInt32 toUInt32
  split <;> omega

theorem toUInt32_lt (p : Int) : toUInt32 p < 4294967296 := by
  unfold toUInt32
  omega

theorem PrepareHeader_eq (port : Nat) (data : List Byte) :
    PrepareHeader port data =
      toLE32 (port % 4294967296) ++ toLE32 (data.length % 4294967296) ++ SHA256 data := by
  have h := SHA256_length data
  have h1 : (SHA256 data ++ List.replicate 32 (0 : Byte)).take 32 = SHA256 data := by
    rw [List.take_append_of_le_length (by omega), List.take_of_length_le (by omega)]
  simp only [PrepareHeader, memcpy, AosProtocolHeader.bytes, cHeaderSize, SHA256_DIGEST_LENGTH, h1]
  rw [List.take_of_length_le (by simp [toLE32_length, h]), List.drop_of_length_le (by simp)]
  simp

theorem PrepareHeader_length (port : Nat) (data : List Byte) :
    (PrepareHeader port data).length = 40 := by
  simp [PrepareHeader_eq, toLE32_length, SHA256_length]

theorem ofBytes_PrepareHeader (port : Nat) (data : List Byte) :
    AosProtocolHeader.ofBytes (PrepareHeader port data) =
      { mPort := port % 4294967296, mDataSize := data.length % 4294967296,
        mCheckSum := SHA256 data } := by
  have h := SHA256_length data
  have hp := fromLE32_toLE32 (port % 4294967296) (Nat.mod_lt _ (by norm_num))
  have hd := fromLE32_toLE32 (data.length % 4294967296) (Nat.mod_lt _ (by norm_num))
  simp only [AosProtocolHeader.ofBytes, PrepareHeader_eq, SHA256_DIGEST_LENGTH, List.append_assoc]
  rw [List.take_append_of_le_length (by simp [toLE32_length]),
    List.take_of_length_le (by simp [toLE32_length])]
  rw [List.drop_append_of_le_length (by simp [toLE32_length]),
    List.drop_of_length_le (by simp [toLE32_length]), List.nil_append]
  rw [List.take_append_of_le_length (by simp [toLE32_length]),
    List.take_of_length_le (by simp [toLE32_length])]
  have h8 : (toLE32 (port % 4294967296) ++ (toLE32 (data.length % 4294967296) ++ SHA256 data)).drop 8
      = SHA256 data := by
    rw [← List.append_assoc]
    rw [List.drop_append_of_le_length (by simp [toLE32_length]),
      List.drop_of_length_le (by simp [toLE32_length]), List.nil_append]
  rw [h8, List.take_of_length_le (by omega), hp, hd]


theorem Transport_Read_append (t : Transport) (buf data rest : List Byte)
    (h : t.rx = data ++ rest) (hl : buf.length = data.length) :
    t.Read buf = (Error.eNone, data, { t with rx := rest }) := by
  unfold Transport.Read
  rw [if_pos (by simp [h, hl])]
  simp [h, hl]

theorem ofBytes_mCheckSum_length (hb : List Byte) (h : hb.length = 40) :
    (AosProtocolHeader.ofBytes hb).mCheckSum.length = 32 := by
  simp [AosProtocolHeader.ofBytes, SHA256_DIGEST_LENGTH, h]

theorem memcmp_checksum (a b : List Byte) (ha : a.length = 32) (hb : b.length = 32) :
    memcmp a b SHA256_DIGEST_LENGTH ≠ 0 ↔ a ≠ b := by
  unfold memcmp SHA256_DIGEST_LENGTH
  rw [List.take_of_length_le (by omega), List.take_of_length_le (by omega)]
  split <;> simp_all

theorem ReadHandlerBody_tooBig (m : CommunicationManager) (hb rest : List Byte)
    (hrx : m.mTransport.rx = hb ++ rest) (hlen : hb.length = 40)
    (hbig : cMaxMessageSize < (AosProtocolHeader.ofBytes hb).mDataSize) :
    m.ReadHandlerBody =
      ReadStep.next (ReadEvent.tooBig (AosProtocolHeader.ofBytes hb))
        { m with mTransport := { m.mTransport with rx := rest } } := by
  have hr := Transport_Read_append m.mTransport (List.replicate cHeaderSize 0) hb rest hrx
    (by simp [cHeaderSize, hlen])
  simp only [CommunicationManager.ReadHandlerBody, hr, Error.IsNone]
  simp [hbig]

theorem ReadHandlerBody_payload (m : CommunicationManager) (hb pl rest : List Byte)
    (hrx : m.mTransport.rx = hb ++ pl ++ rest) (hlen : hb.length = 40)
    (hsize : (AosProtocolHeader.ofBytes hb).mDataSize = pl.length)
    (hmax : pl.length ≤ cMaxMessageSize) :
    m.ReadHandlerBody =
      if SHA256 pl ≠ (AosProtocolHeader.ofBytes hb).mCheckSum then
        ReadStep.next (ReadEvent.checksumMismatch (AosProtocolHeader.ofBytes hb) pl)
          { m with mTransport := { m.mTransport with rx := rest } }
      else
        match m.mChannels (toInt32 (AosProtocolHeader.ofBytes hb).mPort) with
        | none =>
          ReadStep.next (ReadEvent.channelNotFound (AosProtocolHeader.ofBytes hb) pl)
            { m with mTransport := { m.mTransport with rx := rest } }
        | some ch =>
          ReadStep.next
            (ReadEvent.received (toInt32 (AosProtocolHeader.ofBytes hb).mPort)
              (AosProtocolHeader.ofBytes hb) pl)
            { m with
              mTransport := { m.mTransport with rx := rest }
              mChannels := Function.update m.mChannels
                (toInt32 (AosProtocolHeader.ofBytes hb).mPort)
                (some { ch with mReceivedMessage := ch.mReceivedMessage ++ pl }) } := by
  have hr := Transport_Read_append m.mTransport (List.replicate cHeaderSize 0) hb (pl ++ rest)
    (by rw [hrx, List.append_assoc]) (by simp [cHeaderSize, hlen])
  have hr2 := Transport_Read_append { m.mTransport with rx := pl ++ rest }
    (List.replicate (AosProtocolHeader.ofBytes hb).mDataSize 0) pl rest rfl (by simp [hsize])
  have hcmp := memcmp_checksum (SHA256 pl) (AosProtocolHeader.ofBytes hb).mCheckSum
    (SHA256_length pl) (ofBytes_mCheckSum_length hb hlen)
  have hnb : ¬ cMaxMessageSize < (AosProtocolHeader.ofBytes hb).mDataSize := by omega
  simp only [CommunicationManager.ReadHandlerBody, hr, Error.IsNone]
  simp only [beq_self_eq_true, Bool.not_true, Bool.false_eq_true, if_false, gt_iff_lt, hnb, hr2]
  by_cases hsum : SHA256 pl = (AosProtocolHeader.ofBytes hb).mCheckSum
  · have h0 : ¬ memcmp (SHA256 pl) (AosProtocolHeader.ofBytes hb).mCheckSum SHA256_DIGEST_LENGTH ≠ 0 := by
      rw [hcmp]; simpa using hsum
    rw [if_neg h0, if_neg (by simpa using hsum)]
    cases hch : m.mChannels (toInt32 (AosProtocolHeader.ofBytes hb).mPort) with
    | none => rfl
    | some ch => simp [CommunicationChannel.Receive]
  · rw [if_pos (hcmp.mpr hsum), if_pos hsum]


theorem ReadHandler_unfold (m : CommunicationManager) :
    m.ReadHandler =
      if m.mShutdown then ⟨Error.eNone, m, []⟩
      else
        match m.ReadHandlerBody with
        | ReadStep.ret err m1 => ⟨err, m1, []⟩
        | ReadStep.next event m1 =>
          ⟨m1.ReadHandler.err, m1.ReadHandler.manager, event :: m1.ReadHandler.events⟩ := by
  rw [CommunicationManager.ReadHandler]
  split
  · rfl
  · split <;> simp [*]

theorem ReadHandler_next (m m1 : CommunicationManager) (event : ReadEvent)
    (hs : m.mShutdown = false) (h : m.ReadHandlerBody = ReadStep.next event m1) :
    m.ReadHandler =
      ⟨m1.ReadHandler.err, m1.ReadHandler.manager, event :: m1.ReadHandler.events⟩ := by
  rw [ReadHandler_unfold, h]
  simp [hs]

theorem ReadHandler_ret (m m1 : CommunicationManager) (err : Error)
    (hs : m.mShutdown = false) (h : m.ReadHandlerBody = ReadStep.ret err m1) :
    m.ReadHandler = ⟨err, m1, []⟩ := by
  rw [ReadHandler_unfold, h]
  simp [hs]

theorem ReadHandlerBody_eof (m : CommunicationManager) (h : m.mTransport.rx.length < 40) :
    m.ReadHandlerBody =
      ReadStep.ret (Error.errno ECONNRESET) { m with mTransport := { m.mTransport with rx := [] } } := by
  have hn : ¬ (40 ≤ m.mTransport.rx.length) := by omega
  simp [CommunicationManager.ReadHandlerBody, Transport.Read, cHeaderSize, hn, Error.IsNone]


theorem ReadHandlerBody_eof_payload (m : CommunicationManager) (hb rest : List Byte)
    (hrx : m.mTransport.rx = hb ++ rest) (hlen : hb.length = 40)
    (hmax : (AosProtocolHeader.ofBytes hb).mDataSize ≤ cMaxMessageSize)
    (hshort : rest.length < (AosProtocolHeader.ofBytes hb).mDataSize) :
    m.ReadHandlerBody =
      ReadStep.ret (Error.errno ECONNRESET)
        { m with mTransport := { m.mTransport with rx := [] } } := by
  have hr := Transport_Read_append m.mTransport (List.replicate cHeaderSize 0) hb rest hrx
    (by simp [cHeaderSize, hlen])
  have hnb : ¬ cMaxMessageSize < (AosProtocolHeader.ofBytes hb).mDataSize := by omega
  have hns : ¬ (AosProtocolHeader.ofBytes hb).mDataSize ≤ rest.length := by omega
  simp only [CommunicationManager.ReadHandlerBody, hr, Error.IsNone]
  simp [hnb, Transport.Read, hns]

/-- The four ways through the loop body, by what the stream holds. -/
theorem ReadHandlerBody_cases (m : CommunicationManager) :
    (m.mTransport.rx.length < 40 ∧
      m.ReadHandlerBody = ReadStep.ret (Error.errno ECONNRESET)
        { m with mTransport := { m.mTransport with rx := [] } }) ∨
    (∃ hb rest, m.mTransport.rx = hb ++ rest ∧ hb.length = 40 ∧
      cMaxMessageSize < (AosProtocolHeader.ofBytes hb).mDataSize ∧
      m.ReadHandlerBody = ReadStep.next (ReadEvent.tooBig (AosProtocolHeader.ofBytes hb))
        { m with mTransport := { m.mTransport with rx := rest } }) ∨
    (∃ hb rest, m.mTransport.rx = hb ++ rest ∧ hb.length = 40 ∧
      (AosProtocolHeader.ofBytes hb).mDataSize ≤ cMaxMessageSize ∧
      rest.length < (AosProtocolHeader.ofBytes hb).mDataSize ∧
      m.ReadHandlerBody = ReadStep.ret (Error.errno ECONNRESET)
        { m with mTransport := { m.mTransport with rx := [] } }) ∨
    (∃ hb pl rest, m.mTransport.rx = hb ++ pl ++ rest ∧ hb.length = 40 ∧
      (AosProtocolHeader.ofBytes hb).mDataSize = pl.length ∧ pl.length ≤ cMaxMessageSize) := by
  by_cases h40 : m.mTransport.rx.length < 40
  · exact Or.inl ⟨h40, ReadHandlerBody_eof m h40⟩
  · have hsplit : m.mTransport.rx = m.mTransport.rx.take 40 ++ m.mTransport.rx.drop 40 :=
      (List.take_append_drop 40 _).symm
    have hlen : (m.mTransport.rx.take 40).length = 40 := by
      rw [List.length_take]; omega
    by_cases hbig : cMaxMessageSize < (AosProtocolHeader.ofBytes (m.mTransport.rx.take 40)).mDataSize
    · exact Or.inr (Or.inl ⟨_, _, hsplit, hlen, hbig, ReadHandlerBody_tooBig m _ _ hsplit hlen hbig⟩)
    · by_cases hshort : (m.mTransport.rx.drop 40).length <
          (AosProtocolHeader.ofBytes (m.mTransport.rx.take 40)).mDataSize
      · exact Or.inr (Or.inr (Or.inl ⟨_, _, hsplit, hlen, by omega, hshort,
          ReadHandlerBody_eof_payload m _ _ hsplit hlen (by omega) hshort⟩))
      · refine Or.inr (Or.inr (Or.inr ⟨m.mTransport.rx.take 40,
          (m.mTransport.rx.drop 40).take (AosProtocolHeader.ofBytes (m.mTransport.rx.take 40)).mDataSize,
          (m.mTransport.rx.drop 40).drop (AosProtocolHeader.ofBytes (m.mTransport.rx.take 40)).mDataSize,
          ?_, hlen, ?_, ?_⟩))
        · rw [List.append_assoc, List.take_append_drop, List.take_append_drop]
        · rw [List.length_take]; omega
        · rw [List.length_take]; omega


theorem ReadHandlerBody_ret_channels (m m1 : CommunicationManager) (err : Error)
    (h : m.ReadHandlerBody = ReadStep.ret err m1) :
    m1.mChannels = m.mChannels ∧ m1.mShutdown = m.mShutdown := by
  rcases ReadHandlerBody_cases m with ⟨_, hb⟩ | ⟨hb, rest, _, _, _, hbody⟩ |
    ⟨hb, rest, _, _, _, _, hbody⟩ | ⟨hb, pl, rest, hrx, hlen, hsize, hmax⟩
  · rw [hb] at h
    cases h
    exact ⟨rfl, rfl⟩
  · rw [hbody] at h
    cases h
  · rw [hbody] at h
    cases h
    exact ⟨rfl, rfl⟩
  · rw [ReadHandlerBody_payload m hb pl rest hrx hlen hsize hmax] at h
    split_ifs at h
    split at h <;> cases h

theorem ReadHandlerBody_next_inv (m m1 : CommunicationManager) (event : ReadEvent)
    (h : m.ReadHandlerBody = ReadStep.next event m1) :
    m1.mTransport.rx.length < m.mTransport.rx.length ∧ m1.mShutdown = m.mShutdown ∧
    (∀ q, m1.mChannels q = (m.mChannels q).map
      (fun ch => { ch with mReceivedMessage := ch.mReceivedMessage ++ event.payloadFor q })) ∧
    (∀ port header message, event = ReadEvent.received port header message →
      SHA256 message = header.mCheckSum ∧ port = toInt32 header.mPort ∧
      message.length = header.mDataSize ∧ message.length ≤ cMaxMessageSize ∧
      header = AosProtocolHeader.ofBytes (m.mTransport.rx.take 40) ∧
      message = (m.mTransport.rx.drop 40).take header.mDataSize ∧
      (m.mChannels port).isSome = true) := by
  have hmap : ∀ q, m.mChannels q = (m.mChannels q).map
      (fun ch => { ch with mReceivedMessage := ch.mReceivedMessage ++ [] }) := by
    intro q
    cases m.mChannels q <;> simp
  rcases ReadHandlerBody_cases m with ⟨_, hb⟩ | ⟨hb, rest, hrx, hlen, _, hbody⟩ |
    ⟨hb, rest, _, _, _, _, hbody⟩ | ⟨hb, pl, rest, hrx, hlen, hsize, hmax⟩
  · rw [hb] at h
    cases h
  · rw [hbody] at h
    cases h
    refine ⟨by simp [hrx, hlen], rfl, fun q => hmap q, ?_⟩
    intro port header message he
    cases he
  · rw [hbody] at h
    cases h
  · rw [ReadHandlerBody_payload m hb pl rest hrx hlen hsize hmax] at h
    have hlt : rest.length < m.mTransport.rx.length := by simp [hrx, hlen]; omega
    split_ifs at h with hsum
    · cases h
      refine ⟨hlt, rfl, fun q => hmap q, ?_⟩
      intro port header message he
      cases he
    · split at h
      · cases h
        refine ⟨hlt, rfl, fun q => hmap q, ?_⟩
        intro port header message he
        cases he
      · rename_i ch hch
        cases h
        refine ⟨hlt, rfl, ?_, ?_⟩
        · intro q
          by_cases hq : q = toInt32 (AosProtocolHeader.ofBytes hb).mPort
          · subst hq
            simp [ReadEvent.payloadFor, hch]
          · have hq2 : ¬ toInt32 (AosProtocolHeader.ofBytes hb).mPort = q := fun e => hq e.symm
            simp only [Function.update_noteq hq, ReadEvent.payloadFor, if_neg hq2]
            exact hmap q
        · intro port header message he
          cases he
          have h1 : m.mTransport.rx.take 40 = hb := by
            rw [hrx, List.append_assoc, List.take_left' hlen]
          have h2 : m.mTransport.rx.drop 40 = pl ++ rest := by
            rw [hrx, List.append_assoc, List.drop_left' hlen]
          refine ⟨by simpa using hsum, rfl, hsize.symm, hmax, by rw [h1], ?_, by simp [hch]⟩
          rw [h2, hsize, List.take_left' rfl]

theorem ReadHandler_channels_aux (n : Nat) :
    ∀ m : CommunicationManager, m.mTransport.rx.length = n → ∀ q,
      m.ReadHandler.manager.mChannels q = (m.mChannels q).map
        (fun ch => { ch with
          mReceivedMessage := ch.mReceivedMessage ++ deliveredTo q m.ReadHandler.events }) := by
  induction n using Nat.strong_induction_on with
  | _ n ih =>
    intro m hn q
    rw [ReadHandler_unfold]
    by_cases hs : m.mShutdown = true
    · rw [if_pos hs]
      cases m.mChannels q <;> simp [deliveredTo]
    · rw [if_neg hs]
      cases hbody : m.ReadHandlerBody with
      | ret err m1 =>
        have h1 := (ReadHandlerBody_ret_channels m m1 err hbody).1
        simp only [h1]
        cases m.mChannels q <;> simp [deliveredTo]
      | next event m1 =>
        obtain ⟨hlt, _, hch, _⟩ := ReadHandlerBody_next_inv m m1 event hbody
        have h2 := ih m1.mTransport.rx.length (by omega) m1 rfl q
        simp only [h2, hch q, deliveredTo, List.foldr_cons]
        cases m.mChannels q <;> simp

theorem ReadHandler_received_aux (n : Nat) :
    ∀ m : CommunicationManager, m.mTransport.rx.length = n →
      ∀ port header message, ReadEvent.received port header message ∈ m.ReadHandler.events →
        SHA256 message = header.mCheckSum ∧ port = toInt32 header.mPort ∧
        message.length = header.mDataSize ∧ message.length ≤ cMaxMessageSize := by
  induction n using Nat.strong_induction_on with
  | _ n ih =>
    intro m hn port header message hmem
    rw [ReadHandler_unfold] at hmem
    by_cases hs : m.mShutdown = true
    · rw [if_pos hs] at hmem
      simp at hmem
    · rw [if_neg hs] at hmem
      cases hbody : m.ReadHandlerBody with
      | ret err m1 =>
        rw [hbody] at hmem
        simp at hmem
      | next event m1 =>
        rw [hbody] at hmem
        obtain ⟨hlt, _, _, hev⟩ := ReadHandlerBody_next_inv m m1 event hbody
        simp only [List.mem_cons] at hmem
        rcases hmem with he | hmem
        · obtain ⟨h1, h2, h3, h4, _⟩ := hev port header message he.symm
          exact ⟨h1, h2, h3, h4⟩
        · exact ih m1.mTransport.rx.length (by omega) m1 rfl port header message hmem

theorem ofBytes_PrepareHeader_channel (p : Int) (x : List Byte) (hx : x.length < 4294967296) :
    AosProtocolHeader.ofBytes (PrepareHeader (toUInt32 p) x) =
      { mPort := toUInt32 p, mDataSize := x.length, mCheckSum := SHA256 x } := by
  rw [ofBytes_PrepareHeader, Nat.mod_eq_of_lt (toUInt32_lt p), Nat.mod_eq_of_lt hx]

/-- The loop body on a frame written by the channel of a registered port. -/
theorem ReadHandlerBody_frame (m : CommunicationManager) (p : Int) (ch : CommunicationChannel)
    (x rest : List Byte) (hp1 : -2147483648 ≤ p) (hp2 : p < 2147483648)
    (hch : m.mChannels p = some ch) (hx : x.length ≤ cMaxMessageSize)
    (hrx : m.mTransport.rx = PrepareHeader (toUInt32 p) x ++ x ++ rest) :
    m.ReadHandlerBody =
      ReadStep.next
        (ReadEvent.received p
          { mPort := toUInt32 p, mDataSize := x.length, mCheckSum := SHA256 x } x)
        { m with
          mTransport := { m.mTransport with rx := rest }
          mChannels := Function.update m.mChannels p
            (some { ch with mReceivedMessage := ch.mReceivedMessage ++ x }) } := by
  have hx2 : x.length < 4294967296 := by
    have : cMaxMessageSize = 65536 := rfl
    omega
  have hof := ofBytes_PrepareHeader_channel p x hx2
  rw [ReadHandlerBody_payload m _ x rest hrx (PrepareHeader_length _ _) (by rw [hof]) hx]
  rw [hof]
  simp only [toInt32_toUInt32 p hp1 hp2, hch, ne_eq, not_true_eq_false, if_false]

theorem ReadHandler_frame (m : CommunicationManager) (p : Int) (ch : CommunicationChannel)
    (x rest : List Byte) (hs : m.mShutdown = false)
    (hp1 : -2147483648 ≤ p) (hp2 : p < 2147483648)
    (hch : m.mChannels p = some ch) (hx : x.length ≤ cMaxMessageSize)
    (hrx : m.mTransport.rx = PrepareHeader (toUInt32 p) x ++ x ++ rest) :
    m.ReadHandler =
      ⟨({ m with
          mTransport := { m.mTransport with rx := rest }
          mChannels := Function.update m.mChannels p
            (some { ch with mReceivedMessage := ch.mReceivedMessage ++ x }) } :
            CommunicationManager).ReadHandler.err,
       ({ m with
          mTransport := { m.mTransport with rx := rest }
          mChannels := Function.update m.mChannels p
            (some { ch with mReceivedMessage := ch.mReceivedMessage ++ x }) } :
            CommunicationManager).ReadHandler.manager,
       ReadEvent.received p { mPort := toUInt32 p, mDataSize := x.length, mCheckSum := SHA256 x } x ::
       ({ m with
          mTransport := { m.mTransport with rx := rest }
          mChannels := Function.update m.mChannels p
            (some { ch with mReceivedMessage := ch.mReceivedMessage ++ x }) } :
            CommunicationManager).ReadHandler.events⟩ :=
  ReadHandler_next m _ _ hs (ReadHandlerBody_frame m p ch x rest hp1 hp2 hch hx hrx)

theorem ReadHandler_end (m : CommunicationManager) (hs : m.mShutdown = false)
    (h : m.mTransport.rx.length < 40) :
    m.ReadHandler =
      ⟨Error.errno ECONNRESET, { m with mTransport := { m.mTransport with rx := [] } }, []⟩ :=
  ReadHandler_ret m _ _ hs (ReadHandlerBody_eof m h)

theorem ReadHandlerBody_not_tooBig (m : CommunicationManager) (hb rest : List Byte)
    (hrx : m.mTransport.rx = hb ++ rest) (hlen : hb.length = 40)
    (hmax : (AosProtocolHeader.ofBytes hb).mDataSize ≤ cMaxMessageSize)
    (header : AosProtocolHeader) (m1 : CommunicationManager) :
    m.ReadHandlerBody ≠ ReadStep.next (ReadEvent.tooBig header) m1 := by
  intro h
  by_cases hshort : rest.length < (AosProtocolHeader.ofBytes hb).mDataSize
  · rw [ReadHandlerBody_eof_payload m hb rest hrx hlen hmax hshort] at h
    cases h
  · have hrx2 : m.mTransport.rx = hb ++ rest.take (AosProtocolHeader.ofBytes hb).mDataSize ++
        rest.drop (AosProtocolHeader.ofBytes hb).mDataSize := by
      rw [List.append_assoc, List.take_append_drop, hrx]
    have hl : (rest.take (AosProtocolHeader.ofBytes hb).mDataSize).length =
        (AosProtocolHeader.ofBytes hb).mDataSize := by
      rw [List.length_take]; omega
    rw [ReadHandlerBody_payload m hb _ _ hrx2 hlen hl.symm (by omega)] at h
    split_ifs at h
    · cases h
    · split at h <;> cases h

theorem SHA256_nil_ne_zero : SHA256 [] ≠ List.replicate 32 0 := by decide!

theorem ofBytes_zeros :
    AosProtocolHeader.ofBytes (List.replicate 40 0) =
      { mPort := 0, mDataSize := 0, mCheckSum := List.replicate 32 0 } := by decide

/-- The reader on a stream of zero bytes: every 40 of them are a header for an empty payload
whose checksum does not match. -/
theorem ReadHandler_zeros (k r : Nat) (hr : r < 40) :
    ∀ m : CommunicationManager, m.mShutdown = false →
      m.mTransport.rx = List.replicate (40 * k + r) 0 →
      m.ReadHandler =
        ⟨Error.errno ECONNRESET, { m with mTransport := { m.mTransport with rx := [] } },
          List.replicate k
            (ReadEvent.checksumMismatch
              { mPort := 0, mDataSize := 0, mCheckSum := List.replicate 32 0 } [])⟩ := by
  induction k with
  | zero =>
    intro m hs hrx
    exact ReadHandler_end m hs (by simp [hrx, hr])
  | succ k ih =>
    intro m hs hrx
    have hrx2 : m.mTransport.rx = List.replicate 40 0 ++ [] ++ List.replicate (40 * k + r) 0 := by
      rw [hrx, List.append_nil, List.append_replicate_replicate]
      congr 1
      omega
    have hbody := ReadHandlerBody_payload m (List.replicate 40 0) [] (List.replicate (40 * k + r) 0)
      hrx2 (by simp) (by rw [ofBytes_zeros]; rfl) (by simp)
    rw [ofBytes_zeros, if_pos SHA256_nil_ne_zero] at hbody
    rw [ReadHandler_next m _ _ hs hbody,
      ih { m with mTransport := { m.mTransport with rx := List.replicate (40 * k + r) 0 } } hs rfl]
    rfl

/-- The reader on an oversized header whose payload starts with a well-formed frame for a
registered port and goes on with zero bytes: the frame inside the payload is delivered. -/
theorem ReadHandler_oversized_general (m : CommunicationManager) (hb x : List Byte) (p : Int)
    (ch : CommunicationChannel) (k r : Nat) (hr : r < 40)
    (hs : m.mShutdown = false) (hlen : hb.length = 40)
    (hbig : cMaxMessageSize < (AosProtocolHeader.ofBytes hb).mDataSize)
    (hp1 : -2147483648 ≤ p) (hp2 : p < 2147483648)
    (hch : m.mChannels p = some ch) (hx : x.length ≤ cMaxMessageSize)
    (hrx : m.mTransport.rx =
      hb ++ (PrepareHeader (toUInt32 p) x ++ x ++ List.replicate (40 * k + r) 0)) :
    m.ReadHandler.manager.mChannels p =
      some { ch with mReceivedMessage := ch.mReceivedMessage ++ x } := by
  rw [ReadHandler_next m _ _ hs (ReadHandlerBody_tooBig m hb _ hrx hlen hbig)]
  have hframe := ReadHandler_frame
    { m with mTransport := { m.mTransport with
        rx := PrepareHeader (toUInt32 p) x ++ x ++ List.replicate (40 * k + r) 0 } }
    p ch x (List.replicate (40 * k + r) 0) hs hp1 hp2 hch hx rfl
  have hzeros := ReadHandler_zeros k r hr
    { m with
      mTransport := { m.mTransport with rx := List.replicate (40 * k + r) 0 }
      mChannels := Function.update m.mChannels p
        (some { ch with mReceivedMessage := ch.mReceivedMessage ++ x }) } hs rfl
  rw [hzeros] at hframe
  rw [hframe]
  exact Function.update_same _ _ _

theorem CreateChannel_mChannels (t : Transport) (p : Int) :
    ((CommunicationManager.Init t).CreateChannel p).2.mChannels p =
      some (CommunicationChannel.create p) := by
  simp [CommunicationManager.CreateChannel]

/-! ## Lemmas on the channel -/

theorem Read_some_accounting (ch ch1 : CommunicationChannel) (message out : List Byte)
    (err : Error) (h : ch.Read message = some (err, out, ch1)) :
    (if err.IsNone then out ++ ch1.mReceivedMessage else ch1.mReceivedMessage) =
      ch.mReceivedMessage := by
  unfold CommunicationChannel.Read at h
  split_ifs at h
  · cases h
    rfl
  · cases h
    rfl
  · cases h
    simp [Error.IsNone]

theorem run_accounting {σ : Type} (itf : CommChannelItf σ) (calls : List ChannelCall) :
    ∀ (s : σ) (ch : CommunicationChannel),
      (CommunicationChannel.run itf s ch calls).2.2 ++
          (CommunicationChannel.run itf s ch calls).2.1.mReceivedMessage =
        ch.mReceivedMessage ++ receivedBytes calls := by
  induction calls with
  | nil =>
    intro s ch
    simp [CommunicationChannel.run, receivedBytes]
  | cons call rest ih =>
    intro s ch
    cases call with
    | Receive message =>
      simp only [CommunicationChannel.run, receivedBytes, ih]
      simp [CommunicationChannel.Receive]
    | Read message =>
      simp only [CommunicationChannel.run, receivedBytes]
      cases hr : ch.Read message with
      | none => exact ih s ch
      | some r =>
        obtain ⟨err, out, ch1⟩ := r
        have hacc := Read_some_accounting ch ch1 message out err hr
        have h1 := ih s ch1
        simp only
        by_cases he : err.IsNone = true
        · rw [if_pos he] at hacc
          rw [if_pos he, List.append_assoc, h1, ← List.append_assoc, hacc]
        · rw [if_neg he] at hacc
          rw [if_neg he, h1, hacc]
    | Close =>
      simp only [CommunicationChannel.run, receivedBytes]
      rw [ih]
      unfold CommunicationChannel.Close
      split <;> rfl

theorem Channel_Read_open_aux (ch : CommunicationChannel) (buf : List Byte)
    (hopen : ch.mShutdown = false) :
    (ch.mReceivedMessage = [] → ch.Read buf = none) ∧
    (ch.mReceivedMessage ≠ [] → buf.length ≤ ch.mReceivedMessage.length →
      ch.Read buf = some (Error.eNone, ch.mReceivedMessage.take buf.length,
        { ch with mReceivedMessage := ch.mReceivedMessage.drop buf.length })) ∧
    (ch.mReceivedMessage ≠ [] → ch.mReceivedMessage.length < buf.length →
      ch.Read buf = some (Error.eRuntime, buf, ch)) := by
  refine ⟨?_, ?_, ?_⟩
  · intro he
    simp [CommunicationChannel.Read, he, hopen]
  · intro hne hle
    have h1 : ¬ ch.mReceivedMessage.length < buf.length := by omega
    simp [CommunicationChannel.Read, hne, hopen, h1]
  · intro hne hlt
    simp [CommunicationChannel.Read, hne, hopen, hlt]

/-! ## The claims -/

/-- C1: when the stream read by the Mux reader starts with the bytes that `Write(x)` of the
channel of a registered port `p` hands to the transport (`PrepareHeader(p, x)` followed by
`x`, with `0 ≤ |x| ≤ 65536`), the iteration of `ReadHandler` that reads them passes `x` to
the channel of `p`: it appends exactly `x` to that channel's receive buffer, changes no other
channel, leaves the stream at the byte after the frame and goes on from there. -/
theorem ReadHandler_delivers_channel_write (m m1 : CommunicationManager) (p : Int)
    (ch : CommunicationChannel) (x rest : List Byte)
    (hs : m.mShutdown = false) (hp1 : -2147483648 ≤ p) (hp2 : p < 2147483648)
    (hch : m.mChannels p = some ch) (hx : x.length ≤ 65536)
    (hrx : m.mTransport.rx = PrepareHeader (toUInt32 p) x ++ x ++ rest)
    (hm1 : m1 = { m with
      mTransport := { m.mTransport with rx := rest }
      mChannels := Function.update m.mChannels p
        (some { ch with mReceivedMessage := ch.mReceivedMessage ++ x }) }) :
    m.ReadHandlerBody =
      ReadStep.next
        (ReadEvent.received p { mPort := toUInt32 p, mDataSize := x.length, mCheckSum := SHA256 x } x)
        m1 ∧
    m.ReadHandler =
      ⟨m1.ReadHandler.err, m1.ReadHandler.manager,
        ReadEvent.received p { mPort := toUInt32 p, mDataSize := x.length, mCheckSum := SHA256 x } x ::
          m1.ReadHandler.events⟩ := by
  subst hm1
  exact ⟨ReadHandlerBody_frame m p ch x rest hp1 hp2 hch hx hrx,
    ReadHandler_frame m p ch x rest hs hp1 hp2 hch hx hrx⟩

/-- Witness of C1: the empty payload on port 8080, followed by nothing. -/
theorem ReadHandler_delivers_channel_write_witness :
    (((CommunicationManager.Init ⟨PrepareHeader (toUInt32 8080) [] ++ [] ++ [], [], [], false⟩).CreateChannel
        8080).2.ReadHandlerBody =
      ReadStep.next
        (ReadEvent.received 8080
          { mPort := toUInt32 8080, mDataSize := ([] : List Byte).length, mCheckSum := SHA256 [] } [])
        { mTransport := ⟨[], [], [], false⟩
          mChannels := Function.update
            ((CommunicationManager.Init
              ⟨PrepareHeader (toUInt32 8080) [] ++ [] ++ [], [], [], false⟩).CreateChannel 8080).2.mChannels
            8080 (some { mPort := 8080, mShutdown := false, mReceivedMessage := [] ++ [] })
          mShutdown := false
          mIsConnected := false }) ∧
    (((CommunicationManager.Init ⟨PrepareHeader (toUInt32 8080) [] ++ [] ++ [], [], [], false⟩).CreateChannel
        8080).2.ReadHandler.events.length = 1) := by
  have h := ReadHandler_delivers_channel_write
    ((CommunicationManager.Init ⟨PrepareHeader (toUInt32 8080) [] ++ [] ++ [], [], [], false⟩).CreateChannel
        8080).2 _ 8080 (CommunicationChannel.create 8080) [] [] rfl (by decide) (by decide)
    (by simp [CommunicationManager.CreateChannel]) (by simp) rfl rfl
  refine ⟨h.1, ?_⟩
  rw [h.2]
  simp only [List.length_cons]
  rw [ReadHandler_end _ rfl (by simp)]
  rfl

/-- C2: for a 32-bit port `p` and a payload `x` with `|x| < 2^32`, `PrepareHeader(p, x)` is
exactly 40 bytes long, and the header that `ReadHandler` obtains from those 40 bytes has
`mPort = p`, `mDataSize = |x|` and `mCheckSum = SHA256(x)`. -/
theorem PrepareHeader_roundtrip (p : Nat) (x : List Byte) (hp : p < 4294967296)
    (hx : x.length < 4294967296) :
    (PrepareHeader p x).length = 40 ∧
    AosProtocolHeader.ofBytes (PrepareHeader p x) =
      { mPort := p, mDataSize := x.length, mCheckSum := SHA256 x } := by
  refine ⟨PrepareHeader_length p x, ?_⟩
  rw [ofBytes_PrepareHeader, Nat.mod_eq_of_lt hp, Nat.mod_eq_of_lt hx]

/-- Witness of C2: port 30001 and a three-byte payload. -/
theorem PrepareHeader_roundtrip_witness :
    (30001 < 4294967296 ∧ ([1, 2, 3] : List Byte).length < 4294967296) ∧
    (PrepareHeader 30001 [1, 2, 3]).length = 40 ∧
    AosProtocolHeader.ofBytes (PrepareHeader 30001 [1, 2, 3]) =
      { mPort := 30001, mDataSize := ([1, 2, 3] : List Byte).length, mCheckSum := SHA256 [1, 2, 3] } :=
  ⟨⟨by decide, by decide⟩, PrepareHeader_roundtrip 30001 [1, 2, 3] (by decide) (by decide)⟩

/-- C3: in every run of the Mux reader, on every byte stream, each payload passed to a
channel's `Receive` has a SHA-256 equal to the checksum field of the header read just before
it (and the length that header declares); and the channels receive nothing else: after the
run every receive buffer is what it was, followed by the payloads so passed to its channel. -/
theorem ReadHandler_received_checksum (m : CommunicationManager) (port : Int)
    (header : AosProtocolHeader) (message : List Byte)
    (h : ReadEvent.received port header message ∈ m.ReadHandler.events) :
    (SHA256 message = header.mCheckSum ∧ message.length = header.mDataSize ∧
      port = toInt32 header.mPort) ∧
    ∀ q, m.ReadHandler.manager.mChannels q = (m.mChannels q).map
      (fun ch => { ch with
        mReceivedMessage := ch.mReceivedMessage ++ deliveredTo q m.ReadHandler.events }) := by
  obtain ⟨h1, h2, h3, _⟩ := ReadHandler_received_aux _ m rfl port header message h
  exact ⟨⟨h1, h3, h2⟩, ReadHandler_channels_aux _ m rfl⟩

/-- Witness of C3: a one-byte frame for the registered port 1. -/
theorem ReadHandler_received_checksum_witness :
    SHA256 [7] = (AosProtocolHeader.mk (toUInt32 1) 1 (SHA256 [7])).mCheckSum ∧
    ([7] : List Byte).length = (AosProtocolHeader.mk (toUInt32 1) 1 (SHA256 [7])).mDataSize ∧
    (1 : Int) = toInt32 (AosProtocolHeader.mk (toUInt32 1) 1 (SHA256 [7])).mPort := by
  have hrun := ReadHandler_frame
    ((CommunicationManager.Init ⟨PrepareHeader (toUInt32 1) [7] ++ [7] ++ [], [], [], false⟩).CreateChannel
      1).2 1 (CommunicationChannel.create 1) [7] [] rfl (by decide) (by decide)
    (by simp [CommunicationManager.CreateChannel]) (by simp [cMaxMessageSize]) rfl
  exact (ReadHandler_received_checksum
    ((CommunicationManager.Init ⟨PrepareHeader (toUInt32 1) [7] ++ [7] ++ [], [], [], false⟩).CreateChannel
      1).2 1 (AosProtocolHeader.mk (toUInt32 1) 1 (SHA256 [7])) [7]
    (by rw [hrun]; exact List.mem_cons_self _ _)).1

/-- C4 (the code at the failing input): the reader is fed one oversized frame for port 1, a
header declaring `data_size = 65537` followed by 65537 payload bytes, and that payload starts
with the bytes of a well-formed one-byte frame for port 1. The reader drops the header
without consuming the payload, reads the payload as headers, and delivers the byte `1` to
the channel of port 1, whose buffer was empty. -/
theorem ReadHandler_oversized_frame_payload_delivered :
    (AosProtocolHeader.ofBytes
      (AosProtocolHeader.bytes { mPort := 1, mDataSize := 65537, mCheckSum := [] })).mDataSize = 65537 ∧
    (PrepareHeader (toUInt32 1) [1] ++ [1] ++ List.replicate (40 * 1637 + 16) (0 : Byte)).length
      = 65537 ∧
    ((CommunicationManager.Init
        ⟨AosProtocolHeader.bytes { mPort := 1, mDataSize := 65537, mCheckSum := [] } ++
          (PrepareHeader (toUInt32 1) [1] ++ [1] ++ List.replicate (40 * 1637 + 16) 0),
          [], [], false⟩).CreateChannel
      1).2.mChannels 1 = some { mPort := 1, mShutdown := false, mReceivedMessage := [] } ∧
    ((CommunicationManager.Init
        ⟨AosProtocolHeader.bytes { mPort := 1, mDataSize := 65537, mCheckSum := [] } ++
          (PrepareHeader (toUInt32 1) [1] ++ [1] ++ List.replicate (40 * 1637 + 16) 0),
          [], [], false⟩).CreateChannel
      1).2.ReadHandler.manager.mChannels 1 =
        some { mPort := 1, mShutdown := false, mReceivedMessage := [1] } := by
  refine ⟨by decide, ?_, CreateChannel_mChannels _ 1, ?_⟩
  · rw [List.length_append, List.length_append, PrepareHeader_length, List.length_replicate]
    rfl
  · exact ReadHandler_oversized_general _
      (AosProtocolHeader.bytes { mPort := 1, mDataSize := 65537, mCheckSum := [] }) [1] 1
      (CommunicationChannel.create 1) 1637 16 (by decide) rfl (by decide) (by decide)
      (by decide) (by decide) (CreateChannel_mChannels _ 1) (by decide) rfl

/-- C5: the size check of the Mux reader rejects a header exactly when its `data_size` exceeds
65536. For every header read from the stream, the iteration ends with `Message size too big`
if and only if `65536 < data_size`, and then nothing but the 40 header bytes has been taken
from the stream and no channel has changed; and a frame with `data_size = 65536`, a matching
checksum and a registered port is delivered to its channel. -/
theorem ReadHandler_size_check (m : CommunicationManager) (hb rest : List Byte)
    (hrx : m.mTransport.rx = hb ++ rest) (hlen : hb.length = 40) :
    ((∃ header m1, m.ReadHandlerBody = ReadStep.next (ReadEvent.tooBig header) m1) ↔
      65536 < (AosProtocolHeader.ofBytes hb).mDataSize) ∧
    (65536 < (AosProtocolHeader.ofBytes hb).mDataSize →
      m.ReadHandlerBody = ReadStep.next (ReadEvent.tooBig (AosProtocolHeader.ofBytes hb))
        { m with mTransport := { m.mTransport with rx := rest } }) ∧
    (∀ (p : Int) (ch : CommunicationChannel) (x tail : List Byte),
      -2147483648 ≤ p → p < 2147483648 → m.mChannels p = some ch → x.length = 65536 →
      hb = PrepareHeader (toUInt32 p) x → rest = x ++ tail →
      m.ReadHandlerBody =
        ReadStep.next
          (ReadEvent.received p { mPort := toUInt32 p, mDataSize := 65536, mCheckSum := SHA256 x } x)
          { m with
            mTransport := { m.mTransport with rx := tail }
            mChannels := Function.update m.mChannels p
              (some { ch with mReceivedMessage := ch.mReceivedMessage ++ x }) }) := by
  have hmaxv : cMaxMessageSize = 65536 := rfl
  refine ⟨⟨?_, ?_⟩, ?_, ?_⟩
  · rintro ⟨header, m1, h⟩
    by_contra hle
    exact ReadHandlerBody_not_tooBig m hb rest hrx hlen (by omega) header m1 h
  · intro hbig
    exact ⟨_, _, ReadHandlerBody_tooBig m hb rest hrx hlen (by omega)⟩
  · intro hbig
    exact ReadHandlerBody_tooBig m hb rest hrx hlen (by omega)
  · intro p ch x tail hp1 hp2 hch hx hhb hrest
    have h := ReadHandlerBody_frame m p ch x tail hp1 hp2 hch (by omega)
      (by rw [hrx, hhb, hrest, List.append_assoc])
    rw [hx] at h
    exact h

/-- Witness of C5: a header that declares 65537 bytes, with nothing after it. -/
theorem ReadHandler_size_check_witness :
    (((CommunicationManager.Init
        ⟨AosProtocolHeader.bytes { mPort := 1, mDataSize := 65537, mCheckSum := [] } ++ [],
          [], [], false⟩).CreateChannel 1).2.ReadHandlerBody =
      ReadStep.next
        (ReadEvent.tooBig (AosProtocolHeader.ofBytes
          (AosProtocolHeader.bytes { mPort := 1, mDataSize := 65537, mCheckSum := [] })))
        { mTransport := ⟨[], [], [], false⟩
          mChannels := ((CommunicationManager.Init
            ⟨AosProtocolHeader.bytes { mPort := 1, mDataSize := 65537, mCheckSum := [] } ++ [],
              [], [], false⟩).CreateChannel 1).2.mChannels
          mShutdown := false
          mIsConnected := false }) :=
  (ReadHandler_size_check
    ((CommunicationManager.Init
        ⟨AosProtocolHeader.bytes { mPort := 1, mDataSize := 65537, mCheckSum := [] } ++ [],
          [], [], false⟩).CreateChannel 1).2
    (AosProtocolHeader.bytes { mPort := 1, mDataSize := 65537, mCheckSum := [] }) [] rfl
    (by decide)).2.1 (by decide)

/-- C6: a frame `F1` with `data_size ≤ 65536` whose payload does not hash to its header
checksum, followed on the stream by a valid frame `F2` for a registered port: the reader
passes nothing of `F1` to any channel, stays aligned, passes exactly the payload of `F2` to
the channel of `F2` and goes on with the bytes after `F2` without returning. -/
theorem ReadHandler_checksum_guard (m m2 : CommunicationManager) (hb1 pl1 : List Byte)
    (p : Int) (ch : CommunicationChannel) (x rest : List Byte)
    (hs : m.mShutdown = false)
    (hlen : hb1.length = 40)
    (hsize : (AosProtocolHeader.ofBytes hb1).mDataSize = pl1.length)
    (hmax : pl1.length ≤ 65536)
    (hsum : SHA256 pl1 ≠ (AosProtocolHeader.ofBytes hb1).mCheckSum)
    (hp1 : -2147483648 ≤ p) (hp2 : p < 2147483648)
    (hch : m.mChannels p = some ch) (hx : x.length ≤ 65536)
    (hrx : m.mTransport.rx = hb1 ++ pl1 ++ (PrepareHeader (toUInt32 p) x ++ x ++ rest))
    (hm2 : m2 = { m with
      mTransport := { m.mTransport with rx := rest }
      mChannels := Function.update m.mChannels p
        (some { ch with mReceivedMessage := ch.mReceivedMessage ++ x }) }) :
    m.ReadHandlerBody =
      ReadStep.next (ReadEvent.checksumMismatch (AosProtocolHeader.ofBytes hb1) pl1)
        { m with mTransport :=
            { m.mTransport with rx := PrepareHeader (toUInt32 p) x ++ x ++ rest } } ∧
    m.ReadHandler =
      ⟨m2.ReadHandler.err, m2.ReadHandler.manager,
        ReadEvent.checksumMismatch (AosProtocolHeader.ofBytes hb1) pl1 ::
        ReadEvent.received p { mPort := toUInt32 p, mDataSize := x.length, mCheckSum := SHA256 x } x ::
          m2.ReadHandler.events⟩ := by
  subst hm2
  have hbody := ReadHandlerBody_payload m hb1 pl1 _ hrx hlen hsize hmax
  rw [if_pos hsum] at hbody
  refine ⟨hbody, ?_⟩
  rw [ReadHandler_next m _ _ hs hbody]
  have hframe := ReadHandler_frame
    { m with mTransport := { m.mTransport with rx := PrepareHeader (toUInt32 p) x ++ x ++ rest } }
    p ch x rest hs hp1 hp2 hch hx rfl
  rw [hframe]

/-- Witness of C6: a frame for port 1 that declares ten bytes and an all-zero checksum and
carries ten zero bytes, followed by a valid three-byte frame for port 1. -/
theorem ReadHandler_checksum_guard_witness :
    SHA256 (List.replicate 10 0) ≠
      (AosProtocolHeader.ofBytes
        (AosProtocolHeader.bytes { mPort := 1, mDataSize := 10, mCheckSum := [] })).mCheckSum ∧
    ((CommunicationManager.Init
        ⟨AosProtocolHeader.bytes { mPort := 1, mDataSize := 10, mCheckSum := [] } ++
          List.replicate 10 0 ++ (PrepareHeader (toUInt32 1) [1, 2, 3] ++ [1, 2, 3] ++ []),
          [], [], false⟩).CreateChannel 1).2.ReadHandler.events =
      [ReadEvent.checksumMismatch
          (AosProtocolHeader.ofBytes
            (AosProtocolHeader.bytes { mPort := 1, mDataSize := 10, mCheckSum := [] }))
          (List.replicate 10 0),
        ReadEvent.received 1
          { mPort := toUInt32 1, mDataSize := ([1, 2, 3] : List Byte).length,
            mCheckSum := SHA256 [1, 2, 3] } [1, 2, 3]] ∧
    ((CommunicationManager.Init
        ⟨AosProtocolHeader.bytes { mPort := 1, mDataSize := 10, mCheckSum := [] } ++
          List.replicate 10 0 ++ (PrepareHeader (toUInt32 1) [1, 2, 3] ++ [1, 2, 3] ++ []),
          [], [], false⟩).CreateChannel 1).2.ReadHandler.manager.mChannels 1 =
      some { mPort := 1, mShutdown := false, mReceivedMessage := [1, 2, 3] } := by
  have hsum : SHA256 (List.replicate 10 0) ≠
      (AosProtocolHeader.ofBytes
        (AosProtocolHeader.bytes { mPort := 1, mDataSize := 10, mCheckSum := [] })).mCheckSum := by
    decide!
  have h := (ReadHandler_checksum_guard
    ((CommunicationManager.Init
        ⟨AosProtocolHeader.bytes { mPort := 1, mDataSize := 10, mCheckSum := [] } ++
          List.replicate 10 0 ++ (PrepareHeader (toUInt32 1) [1, 2, 3] ++ [1, 2, 3] ++ []),
          [], [], false⟩).CreateChannel 1).2
    { mTransport := ⟨[], [], [], false⟩
      mChannels := Function.update
        (Function.update (fun _ => none) 1 (some (CommunicationChannel.create 1))) 1
        (some { mPort := 1, mShutdown := false, mReceivedMessage := [1, 2, 3] })
      mShutdown := false
      mIsConnected := false }
    (AosProtocolHeader.bytes { mPort := 1, mDataSize := 10, mCheckSum := [] })
    (List.replicate 10 0) 1 (CommunicationChannel.create 1) [1, 2, 3] [] rfl (by decide)
    (by decide) (by decide) hsum (by decide) (by decide)
    (CreateChannel_mChannels _ 1) (by decide) rfl rfl).2
  have hend := ReadHandler_end
    { mTransport := ⟨[], [], [], false⟩
      mChannels := Function.update
        (Function.update (fun _ => none) 1 (some (CommunicationChannel.create 1))) 1
        (some { mPort := 1, mShutdown := false, mReceivedMessage := [1, 2, 3] })
      mShutdown := false
      mIsConnected := false } rfl (by decide)
  rw [hend] at h
  refine ⟨hsum, ?_, ?_⟩
  · rw [h]
  · rw [h]
    simp

/-- C7: for every sequence of `Receive`, `Read` and `Close` calls on a channel, in whatever
order they take effect, the bytes returned by the successful `Read`s, concatenated in call
order and followed by what is left in the receive buffer, are the initial buffer followed by
the payloads passed to `Receive` in delivery order; so on a channel as constructed (empty
buffer) the concatenation of the bytes read is an initial segment of the concatenation of
the payloads received. -/
theorem Channel_reads_initial_segment_of_received {σ : Type} (itf : CommChannelItf σ) (s : σ)
    (ch : CommunicationChannel) (port : Int) (calls : List ChannelCall) :
    (CommunicationChannel.run itf s ch calls).2.2 ++
        (CommunicationChannel.run itf s ch calls).2.1.mReceivedMessage =
      ch.mReceivedMessage ++ receivedBytes calls ∧
    (CommunicationChannel.run itf s (CommunicationChannel.create port) calls).2.2 <+:
      receivedBytes calls := by
  refine ⟨run_accounting itf calls s ch, ?_⟩
  have h := run_accounting itf calls s (CommunicationChannel.create port)
  simp only [CommunicationChannel.create, List.nil_append] at h
  exact ⟨_, h⟩

/-- C8 (counterexample): on an open channel whose buffer holds one byte, `Read` with a
two-byte buffer returns `eRuntime` at once; it does not wait for a second byte. -/
theorem Channel_Read_short_buffer_fails :
    CommunicationChannel.Read { mPort := 1, mShutdown := false, mReceivedMessage := [7] } [0, 0] =
      some (Error.eRuntime, [0, 0], { mPort := 1, mShutdown := false, mReceivedMessage := [7] }) := by
  decide

/-- C8 (amended): on a channel that is not closed, `Read(buf)` stays blocked while the
receive buffer is empty; once the buffer is not empty, it succeeds when the buffer holds at
least `|buf|` bytes, with `buf` equal to the first `|buf|` buffered bytes, which leave the
buffer; and it returns `eRuntime`, leaving `buf` and the buffer untouched, when the buffer
holds between 1 and `|buf| - 1` bytes. -/
theorem Channel_Read_open (ch : CommunicationChannel) (buf : List Byte)
    (hopen : ch.mShutdown = false) :
    (ch.mReceivedMessage = [] → ch.Read buf = none) ∧
    (ch.mReceivedMessage ≠ [] → buf.length ≤ ch.mReceivedMessage.length →
      ch.Read buf = some (Error.eNone, ch.mReceivedMessage.take buf.length,
        { ch with mReceivedMessage := ch.mReceivedMessage.drop buf.length })) ∧
    (ch.mReceivedMessage ≠ [] → ch.mReceivedMessage.length < buf.length →
      ch.Read buf = some (Error.eRuntime, buf, ch)) := by
  refine ⟨?_, ?_, ?_⟩
  · intro he
    simp [CommunicationChannel.Read, he, hopen]
  · intro hne hle
    have h1 : ¬ ch.mReceivedMessage.length < buf.length := by omega
    simp [CommunicationChannel.Read, hne, hopen, h1]
  · intro hne hlt
    simp [CommunicationChannel.Read, hne, hopen, hlt]

/-- Witness of C8 (amended): three buffered bytes, a two-byte read. -/
theorem Channel_Read_open_witness :
    CommunicationChannel.Read { mPort := 1, mShutdown := false, mReceivedMessage := [1, 2, 3] }
        [0, 0] =
      some (Error.eNone, [1, 2],
        { mPort := 1, mShutdown := false, mReceivedMessage := [3] }) :=
  (Channel_Read_open { mPort := 1, mShutdown := false, mReceivedMessage := [1, 2, 3] } [0, 0]
    rfl).2.1 (by decide) (by decide)

/-- C9: on an open channel with port `p`, `Write(x)` hands the object beneath it first
`PrepareHeader(p, x)`; if that write fails, `x` is not written and that error is returned;
otherwise `x` is handed next, nothing after it, and `Write` returns the result of the payload
write. The messages handed over are read off the record kept by `recording`. -/
theorem Channel_Write_header_then_payload {σ : Type} (itf : CommChannelItf σ) (s : σ)
    (log : List (List Byte)) (ch : CommunicationChannel) (x : List Byte)
    (hopen : ch.mShutdown = false) :
    ((itf.Write s (PrepareHeader (toUInt32 ch.mPort) x)).1 ≠ Error.eNone →
      CommunicationChannel.Write itf.recording (s, log) ch x =
        ((itf.Write s (PrepareHeader (toUInt32 ch.mPort) x)).1,
          ((itf.Write s (PrepareHeader (toUInt32 ch.mPort) x)).2,
            log ++ [PrepareHeader (toUInt32 ch.mPort) x]))) ∧
    ((itf.Write s (PrepareHeader (toUInt32 ch.mPort) x)).1 = Error.eNone →
      CommunicationChannel.Write itf.recording (s, log) ch x =
        ((itf.Write (itf.Write s (PrepareHeader (toUInt32 ch.mPort) x)).2 x).1,
          ((itf.Write (itf.Write s (PrepareHeader (toUInt32 ch.mPort) x)).2 x).2,
            log ++ [PrepareHeader (toUInt32 ch.mPort) x, x]))) := by
  have hne : (PrepareHeader (toUInt32 ch.mPort) x).isEmpty = false := by
    cases h : PrepareHeader (toUInt32 ch.mPort) x with
    | nil =>
      have := PrepareHeader_length (toUInt32 ch.mPort) x
      rw [h] at this
      cases this
    | cons b bs => rfl
  constructor
  · intro hfail
    have h1 : (!(itf.Write s (PrepareHeader (toUInt32 ch.mPort) x)).1.IsNone) = true := by
      simpa [Error.IsNone] using hfail
    simp only [CommunicationChannel.Write, hopen, hne, CommChannelItf.recording, h1]
    simp
  · intro hok
    have h1 : ¬ (!(itf.Write s (PrepareHeader (toUInt32 ch.mPort) x)).1.IsNone) = true := by
      simp [Error.IsNone, hok]
    simp only [CommunicationChannel.Write, hopen, hne, CommChannelItf.recording, h1]
    simp

/-- Witness of C9: the channel of port 8080 writing two bytes through a connected Mux whose
transport accepts both writes. -/
theorem Channel_Write_header_then_payload_witness :
    (CommunicationChannel.Write CommunicationManager.itf.recording
      ({ mTransport := ⟨[], [], [], false⟩, mChannels := fun _ => none, mShutdown := false,
         mIsConnected := true }, [])
      (CommunicationChannel.create 8080) [1, 2]).1 = Error.eNone ∧
    (CommunicationChannel.Write CommunicationManager.itf.recording
      ({ mTransport := ⟨[], [], [], false⟩, mChannels := fun _ => none, mShutdown := false,
         mIsConnected := true }, [])
      (CommunicationChannel.create 8080) [1, 2]).2.2 =
        [PrepareHeader (toUInt32 8080) [1, 2], [1, 2]] ∧
    (CommunicationChannel.Write CommunicationManager.itf.recording
      ({ mTransport := ⟨[], [], [], false⟩, mChannels := fun _ => none, mShutdown := false,
         mIsConnected := true }, [])
      (CommunicationChannel.create 8080) [1, 2]).2.1.mTransport.tx =
        [PrepareHeader (toUInt32 8080) [1, 2], [1, 2]] := by
  have h := (Channel_Write_header_then_payload CommunicationManager.itf
      { mTransport := ⟨[], [], [], false⟩, mChannels := fun _ => none, mShutdown := false,
        mIsConnected := true } [] (CommunicationChannel.create 8080) [1, 2] rfl).2 rfl
  rw [h]
  exact ⟨rfl, rfl, rfl⟩

/-- C10 (counterexample): `CommunicationManager::Write` on a connected Mux hands the payload
to the transport and returns the transport's result, here `eNone`, not `eNotSupported`. -/
theorem Manager_Write_reaches_transport :
    (CommunicationManager.Write
      { mTransport := ⟨[], [], [], false⟩, mChannels := fun _ => none, mShutdown := false,
        mIsConnected := true } [1]).1 = Error.eNone ∧
    (CommunicationManager.Write
      { mTransport := ⟨[], [], [], false⟩, mChannels := fun _ => none, mShutdown := false,
        mIsConnected := true } [1]).2.mTransport.tx = [[1]] := by
  exact ⟨rfl, rfl⟩

/-- C10 (amended): it is `CommunicationManager::Read` that returns `eNotSupported`, for every
buffer and every state, touching nothing. `CommunicationManager::Write` returns `eTimeout`
and hands nothing to the transport when the Mux is not connected at the end of its wait;
when the Mux is connected it hands the payload to the transport, as one write, and returns
the transport's result. -/
theorem Manager_Read_not_supported_Write_forwards (m : CommunicationManager)
    (message : List Byte) :
    m.Read message = (Error.eNotSupported, message, m) ∧
    (m.mIsConnected = false → m.Write message = (Error.eTimeout, m)) ∧
    (m.mIsConnected = true →
      (m.Write message).1 = (m.mTransport.Write message).1 ∧
      (m.Write message).2.mTransport.tx = m.mTransport.tx ++ [message] ∧
      (m.Write message).2.mChannels = m.mChannels) := by
  refine ⟨rfl, ?_, ?_⟩
  · intro h
    simp [CommunicationManager.Write, h]
  · intro h
    simp [CommunicationManager.Write, h, Transport.Write]

/-- Witness of C10 (amended): a Mux that is not connected. -/
theorem Manager_Read_not_supported_Write_forwards_witness :
    (CommunicationManager.Write (CommunicationManager.Init ⟨[], [], [], false⟩) [1]).1 =
      Error.eTimeout ∧
    (CommunicationManager.Write (CommunicationManager.Init ⟨[], [], [], false⟩)
      [1]).2.mTransport.tx = [] := by
  have h := (Manager_Read_not_supported_Write_forwards
    (CommunicationManager.Init ⟨[], [], [], false⟩) [1]).2.1 rfl
  rw [h]
  exact ⟨rfl, rfl⟩

end aos.mp.communication

/-! ## The file chunker -/

namespace aos.mp.filechunker

open aos.mp.communication (Byte Error SHA256)

theorem loop_unfold (requestID partCounts : Nat) (relPath : String) (file : IfStream)
    (chunkNum : Nat) :
    GetChunkedFileContent.loop requestID partCounts relPath file chunkNum =
      if file.fail then []
      else
        { mRequestID := requestID, mRelativePath := relPath, mPartsCount := partCounts,
          mPart := chunkNum, mData := (file.read cChunkSize).1 } ::
          GetChunkedFileContent.loop requestID partCounts relPath (file.read cChunkSize).2
            (chunkNum + 1) := by
  rw [GetChunkedFileContent.loop]
  split <;> simp_all

/-- The loop on a file with fewer than 1024 bytes left: one last part. -/
theorem loop_short (requestID partCounts : Nat) (relPath : String) (bytes : List Byte)
    (chunkNum : Nat) (h : bytes.length < 1024) :
    GetChunkedFileContent.loop requestID partCounts relPath { rest := bytes, fail := false }
        chunkNum =
      [{ mRequestID := requestID, mRelativePath := relPath, mPartsCount := partCounts,
         mPart := chunkNum, mData := bytes }] := by
  have hn : ¬ 1024 ≤ bytes.length := by omega
  rw [loop_unfold]
  simp only [IfStream.read, cChunkSize, hn, if_false, Bool.false_eq_true]
  rw [loop_unfold]
  simp

/-- The loop on a file with at least 1024 bytes left: a full part, then the rest. -/
theorem loop_full (requestID partCounts : Nat) (relPath : String) (bytes : List Byte)
    (chunkNum : Nat) (h : 1024 ≤ bytes.length) :
    GetChunkedFileContent.loop requestID partCounts relPath { rest := bytes, fail := false }
        chunkNum =
      { mRequestID := requestID, mRelativePath := relPath, mPartsCount := partCounts,
        mPart := chunkNum, mData := bytes.take 1024 } ::
        GetChunkedFileContent.loop requestID partCounts relPath
          { rest := bytes.drop 1024, fail := false } (chunkNum + 1) := by
  rw [loop_unfold]
  simp only [IfStream.read, cChunkSize, h, if_true, if_false, Bool.false_eq_true]

theorem loop_spec (requestID partCounts : Nat) (relPath : String) (n : Nat) :
    ∀ (bytes : List Byte) (chunkNum : Nat), bytes.length = n →
      (GetChunkedFileContent.loop requestID partCounts relPath { rest := bytes, fail := false }
        chunkNum).length = bytes.length / 1024 + 1 ∧
      (GetChunkedFileContent.loop requestID partCounts relPath { rest := bytes, fail := false }
        chunkNum).map (fun part => part.mPart) =
          List.range' chunkNum (bytes.length / 1024 + 1) ∧
      ((GetChunkedFileContent.loop requestID partCounts relPath { rest := bytes, fail := false }
        chunkNum).map (fun part => part.mData)).flatten = bytes ∧
      ∀ part ∈ GetChunkedFileContent.loop requestID partCounts relPath
          { rest := bytes, fail := false } chunkNum,
        part.mData.length ≤ 1024 ∧ part.mRequestID = requestID ∧
        part.mRelativePath = relPath ∧ part.mPartsCount = partCounts := by
  induction n using Nat.strong_induction_on with
  | _ n ih =>
    intro bytes chunkNum hlen
    by_cases h : bytes.length < 1024
    · rw [loop_short _ _ _ _ _ h]
      have h0 : bytes.length / 1024 = 0 := Nat.div_eq_of_lt h
      refine ⟨by simp [h0], by simp [h0, List.range'], by simp, ?_⟩
      intro part hp
      simp only [List.mem_singleton] at hp
      subst hp
      exact ⟨by simp; omega, rfl, rfl, rfl⟩
    · have hge : 1024 ≤ bytes.length := by omega
      rw [loop_full _ _ _ _ _ hge]
      have hdl : (bytes.drop 1024).length = bytes.length - 1024 := List.length_drop _ _
      obtain ⟨h1, h2, h3, h4⟩ := ih (bytes.drop 1024).length (by omega) (bytes.drop 1024)
        (chunkNum + 1) rfl
      have hdiv : bytes.length / 1024 = (bytes.length - 1024) / 1024 + 1 := by omega
      refine ⟨?_, ?_, ?_, ?_⟩
      · simp only [List.length_cons, h1, hdl]
        omega
      · simp only [List.map_cons, h2, hdl]
        rw [hdiv]
        simp only [List.range'_succ]
      · simp only [List.map_cons, List.flatten_cons, h3]
        exact List.take_append_drop 1024 bytes
      · intro part hp
        simp only [List.mem_cons] at hp
        rcases hp with hp | hp
        · subst hp
          exact ⟨by simp [List.length_take], rfl, rfl, rfl⟩
        · exact h4 part hp

/-- The `ImageFile` that `PrepareImageInfo` builds for a file with the given bytes. -/
theorem PrepareImageInfo_some (relativePath : String) (bytes : List Byte) (requestID : Nat) :
    PrepareImageInfo { relativePath := relativePath, isDirectory := false, content := some bytes }
        requestID =
      some ({ mRelativePath := relativePath, mSha256 := SHA256 bytes, mSize := bytes.length },
        GetChunkedFileContent { rest := bytes, fail := false } requestID
          ((bytes.length + 1023) / 1024) relativePath) := rfl

theorem ChunkFiles_loop_spec (requestID : Nat) (entries : List DirEntry) :
    ∀ acc : ContentInfo,
      (∀ entry ∈ entries, entry.isDirectory = false → entry.content.isSome = true) →
      ChunkFiles.loop requestID entries acc =
        ({ acc with
            mImageFiles := acc.mImageFiles ++
              (entries.filter fun entry => !entry.isDirectory).map fun entry =>
                { mRelativePath := entry.relativePath, mSha256 := SHA256 (entry.content.getD []),
                  mSize := (entry.content.getD []).length }
            mImageContents := acc.mImageContents ++
              ((entries.filter fun entry => !entry.isDirectory).map fun entry =>
                GetChunkedFileContent { rest := entry.content.getD [], fail := false } requestID
                  (((entry.content.getD []).length + 1023) / 1024) entry.relativePath).flatten },
          Error.eNone) := by
  induction entries with
  | nil =>
    intro acc _
    simp [ChunkFiles.loop]
  | cons entry rest ih =>
    intro acc hopen
    have hrest : ∀ e ∈ rest, e.isDirectory = false → e.content.isSome = true :=
      fun e he => hopen e (List.mem_cons_of_mem _ he)
    by_cases hd : entry.isDirectory = true
    · simp only [ChunkFiles.loop, hd, if_true]
      rw [ih acc hrest]
      simp [List.filter_cons, hd]
    · have hd2 : entry.isDirectory = false := by simpa using hd
      have hsome := hopen entry (List.mem_cons_self _ _) hd2
      obtain ⟨relativePath, isDirectory, content⟩ := entry
      simp only at hd2 hsome
      subst hd2
      cases content with
      | none => simp at hsome
      | some bytes =>
        simp only [ChunkFiles.loop, Bool.false_eq_true, if_false, PrepareImageInfo_some]
        rw [ih _ hrest]
        simp [List.filter_cons]

end aos.mp.filechunker

/-! ## The downloader -/

namespace aos.mp.downloader

open aos.mp.communication (Error)

theorem find_last_of_none (s : List Char) (c : Char) (h : find_last_of s c = none) : c ∉ s := by
  induction s with
  | nil => simp
  | cons x xs ih =>
    simp only [find_last_of] at h
    cases hxs : find_last_of xs c with
    | some pos => simp [hxs] at h
    | none =>
      simp only [hxs] at h
      have hx : ¬ x = c := by
        intro hxc
        simp [hxc] at h
      simp only [List.mem_cons, not_or]
      exact ⟨fun e => hx e.symm, ih hxs⟩

theorem find_last_of_some (s : List Char) (c : Char) :
    ∀ pos, find_last_of s c = some pos →
      s = s.take pos ++ c :: s.drop (pos + 1) ∧ c ∉ s.drop (pos + 1) := by
  induction s with
  | nil =>
    intro pos h
    simp [find_last_of] at h
  | cons x xs ih =>
    intro pos h
    simp only [find_last_of] at h
    cases hxs : find_last_of xs c with
    | some p =>
      simp only [hxs, Option.some.injEq] at h
      subst h
      obtain ⟨h1, h2⟩ := ih p hxs
      refine ⟨?_, by simpa using h2⟩
      simp only [List.take_succ_cons, List.drop_succ_cons, List.cons_append]
      rw [← h1]
    | none =>
      simp only [hxs] at h
      by_cases hx : x = c
      · simp only [hx, if_true, Option.some.injEq] at h
        subst h
        subst hx
        exact ⟨by simp, by simpa using find_last_of_none xs x hxs⟩
      · simp [hx] at h

/-- The file name taken from a path: the characters after its last `/`. -/
theorem fileName_of_path (path : List Char) :
    '/' ∉ (match find_last_of path '/' with
      | some pos => substr path (pos + 1)
      | none => path) ∧
    (path = (match find_last_of path '/' with
      | some pos => substr path (pos + 1)
      | none => path) ∨
     ∃ pre, path = pre ++ '/' :: (match find_last_of path '/' with
      | some pos => substr path (pos + 1)
      | none => path)) := by
  cases h : find_last_of path '/' with
  | none => exact ⟨find_last_of_none path '/' h, Or.inl rfl⟩
  | some pos =>
    obtain ⟨h1, h2⟩ := find_last_of_some path '/' pos h
    exact ⟨h2, Or.inr ⟨path.take pos, h1⟩⟩

theorem fileName_no_slash (path : List Char) (h : '/' ∉ path) :
    (match find_last_of ('/' :: path) '/' with
      | some pos => substr ('/' :: path) (pos + 1)
      | none => '/' :: path) = path := by
  have hnone : find_last_of path '/' = none := by
    cases hf : find_last_of path '/' with
    | none => rfl
    | some pos =>
      obtain ⟨h1, _⟩ := find_last_of_some path '/' pos hf
      exact absurd (by rw [h1]; simp) h
  simp [find_last_of, hnone, substr]

end aos.mp.downloader

/-! ## The CM endpoint runner -/

namespace aos.mp.communication

open servicemanager.v4 (SMOutgoingMessages SMIncomingMessages ImageFileProto Codec)
open aos.mp.filechunker (ContentInfo ImageFile ImageContent DirEntry ChunkFiles)

theorem PrepareProtobufHeader_eq (n : Nat) :
    PrepareProtobufHeader n = toLE32 (n % 4294967296) := by
  simp only [PrepareProtobufHeader, memcpy, cProtobufHeaderSize]
  rw [List.take_of_length_le (by simp [toLE32_length]), List.drop_of_length_le (by simp)]
  simp

theorem PrepareProtobufHeader_length (n : Nat) : (PrepareProtobufHeader n).length = 4 := by
  rw [PrepareProtobufHeader_eq, toLE32_length]

theorem ParseProtobufHeader_append (n : Nat) (rest : List Byte) :
    ParseProtobufHeader (PrepareProtobufHeader n ++ rest) = { mDataSize := n % 4294967296 } := by
  simp only [ParseProtobufHeader, cProtobufHeaderSize]
  rw [List.take_left' (PrepareProtobufHeader_length n), PrepareProtobufHeader_eq,
    fromLE32_toLE32 _ (Nat.mod_lt _ (by decide))]

theorem PrepareProtobufHeader_ne_nil (n : Nat) : PrepareProtobufHeader n ≠ [] := by
  intro h
  have := PrepareProtobufHeader_length n
  rw [h] at this
  cases this

/-- `ReadMessage` on a channel whose buffer starts with an inner frame with a payload that is
not empty. -/
theorem ReadMessage_frame {σ : Type} (under : CommChannelItf σ) (s : σ)
    (ch : CommunicationChannel) (m rest : List Byte) (hopen : ch.mShutdown = false)
    (hpos : 0 < m.length) (hlen : m.length < 4294967296)
    (hbuf : ch.mReceivedMessage = PrepareProtobufHeader m.length ++ m ++ rest) :
    CMConnection.ReadMessage (CommunicationChannel.itf under) (s, ch) =
      some (m, Error.eNone, (s, { ch with mReceivedMessage := rest })) := by
  have h4 := PrepareProtobufHeader_length m.length
  have hne : ch.mReceivedMessage ≠ [] := by
    rw [hbuf, List.append_assoc]
    intro h
    exact PrepareProtobufHeader_ne_nil _ (List.append_eq_nil.mp h).1
  have hr1 : ch.Read (List.replicate cProtobufHeaderSize 0) =
      some (Error.eNone, PrepareProtobufHeader m.length,
        { ch with mReceivedMessage := m ++ rest }) := by
    have h := (Channel_Read_open_aux ch (List.replicate cProtobufHeaderSize 0) hopen).2.1 hne
      (by simp [hbuf, h4, cProtobufHeaderSize])
    rw [h]
    simp only [List.length_replicate, cProtobufHeaderSize, hbuf, List.append_assoc]
    rw [List.take_left' h4, List.drop_left' h4]
  have hm : m ++ rest ≠ [] := by
    intro h
    have := (List.append_eq_nil.mp h).1
    rw [this] at hpos
    exact Nat.lt_irrefl 0 hpos
  have hr2 : ({ ch with mReceivedMessage := m ++ rest } : CommunicationChannel).Read
      (List.replicate m.length 0) =
      some (Error.eNone, m, { ch with mReceivedMessage := rest }) := by
    have h := (Channel_Read_open_aux { ch with mReceivedMessage := m ++ rest }
      (List.replicate m.length 0) hopen).2.1 hm (by simp)
    rw [h]
    simp only [List.length_replicate]
    rw [List.take_left' rfl, List.drop_left' rfl]
  have hparse : (ParseProtobufHeader (PrepareProtobufHeader m.length)).mDataSize = m.length := by
    have := ParseProtobufHeader_append m.length []
    rw [List.append_nil] at this
    rw [this]
    exact Nat.mod_eq_of_lt hlen
  simp only [CMConnection.ReadMessage, CommunicationChannel.itf, hr1, Option.map_some',
    Error.IsNone, beq_self_eq_true, Bool.not_true, Bool.false_eq_true, if_false, hparse, hr2]

end aos.mp.communication

namespace aos.mp.communication

open servicemanager.v4 (SMOutgoingMessages SMIncomingMessages ImageFileProto Codec)
open aos.mp.filechunker (ContentInfo ImageFile ImageContent DirEntry ChunkFiles)

/-- Reading through a recording channel reads the channel and leaves the record as it is. -/
theorem ReadMessage_recording {σ : Type} (channel : CommChannelItf σ) (s : σ)
    (log : List (List Byte)) :
    CMConnection.ReadMessage channel.recording (s, log) =
      (CMConnection.ReadMessage channel s).map fun r => (r.1, r.2.1, (r.2.2, log)) := by
  simp only [CMConnection.ReadMessage, CommChannelItf.recording]
  cases h1 : channel.Read s (List.replicate cProtobufHeaderSize 0) with
  | none => simp
  | some r1 =>
    obtain ⟨err, message, s1⟩ := r1
    simp only [Option.map_some']
    by_cases he : (!err.IsNone) = true
    · simp [he]
    · simp only [he, if_false]
      cases h2 : channel.Read s1 (List.replicate (ParseProtobufHeader message).mDataSize 0) with
      | none => simp
      | some r2 =>
        obtain ⟨err2, message2, s2⟩ := r2
        simp only [Option.map_some']
        by_cases he2 : (!err2.IsNone) = true
        · simp [he2]
        · simp [he2]

/-- `SendMessage` through a recording channel: one write, of the inner frame. -/
theorem SendMessage_recording {σ : Type} (channel : CommChannelItf σ) (s : σ)
    (log : List (List Byte)) (data : List Byte) :
    CMConnection.SendMessage channel.recording (s, log) data =
      ((channel.Write s (PrepareProtobufHeader data.length ++ data)).1,
        ((channel.Write s (PrepareProtobufHeader data.length ++ data)).2,
          log ++ [PrepareProtobufHeader data.length ++ data])) := rfl

end aos.mp.communication

namespace aos.mp.filechunker

open aos.mp.communication (Byte Error SHA256)

theorem ChunkFiles_loop_requestID (requestID : Nat) (entries : List DirEntry) :
    ∀ acc : ContentInfo,
      (∀ part ∈ acc.mImageContents, part.mRequestID = requestID) →
      (ChunkFiles.loop requestID entries acc).1.mRequestID = acc.mRequestID ∧
      ∀ part ∈ (ChunkFiles.loop requestID entries acc).1.mImageContents,
        part.mRequestID = requestID := by
  induction entries with
  | nil =>
    intro acc hacc
    exact ⟨rfl, hacc⟩
  | cons entry rest ih =>
    intro acc hacc
    by_cases hd : entry.isDirectory = true
    · simp only [ChunkFiles.loop, hd, if_true]
      exact ih acc hacc
    · obtain ⟨relativePath, isDirectory, content⟩ := entry
      have hd2 : isDirectory = false := by simpa using hd
      subst hd2
      cases content with
      | none => exact ⟨rfl, hacc⟩
      | some bytes =>
        simp only [ChunkFiles.loop, Bool.false_eq_true, if_false, PrepareImageInfo_some]
        refine ih _ ?_
        intro part hp
        simp only [List.mem_append] at hp
        rcases hp with hp | hp
        · exact hacc part hp
        · exact ((loop_spec requestID _ relativePath _ bytes 1 rfl).2.2.2 part hp).2.1

theorem ChunkFiles_requestID (entries : List DirEntry) (requestID : Nat) :
    (ChunkFiles entries requestID).1.mRequestID = requestID ∧
    ∀ part ∈ (ChunkFiles entries requestID).1.mImageContents, part.mRequestID = requestID :=
  ChunkFiles_loop_requestID requestID entries
    { mRequestID := requestID, mImageFiles := [], mImageContents := [] }
    (fun _ hp => absurd hp (List.not_mem_nil _))

end aos.mp.filechunker

namespace aos.mp.communication

open servicemanager.v4 (SMOutgoingMessages SMIncomingMessages ImageFileProto Codec)
open aos.mp.filechunker (ContentInfo ImageFile ImageContent DirEntry ChunkFiles)

theorem innerFrame_of_some (codec : Codec) (message : SMIncomingMessages) (data : List Byte)
    (h : codec.SerializeToArray message = some data) :
    innerFrame codec message = PrepareProtobufHeader data.length ++ data := by
  simp [innerFrame, h]

/-- `SendFailedImageContentResponse` through a recording channel: one write, of the frame of
the failed `image_content_info`. -/
theorem SendFailed_recording {σ : Type} (codec : Codec) (channel : CommChannelItf σ)
    (hser : ∀ message, (codec.SerializeToArray message).isSome = true)
    (requestID : Nat) (err : Error) (s : σ) (log : List (List Byte)) :
    (CMConnection.SendFailedImageContentResponse codec channel.recording requestID err
        (s, log)).2.2 =
      log ++ [innerFrame codec (SMIncomingMessages.image_content_info requestID [] (some err))] := by
  obtain ⟨data, hd⟩ := Option.isSome_iff_exists.mp
    (hser (SMIncomingMessages.image_content_info requestID [] (some err)))
  simp only [CMConnection.SendFailedImageContentResponse, hd, SendMessage_recording,
    innerFrame_of_some codec _ data hd]
  split <;> rfl

theorem SendImageContentInfo_loop_ok {σ : Type} (codec : Codec) (channel : CommChannelItf σ)
    (hser : ∀ message, (codec.SerializeToArray message).isSome = true)
    (hw : ∀ s message, (channel.Write s message).1 = Error.eNone)
    (contents : List ImageContent) :
    ∀ (s : σ) (log : List (List Byte)),
      (CMConnection.SendImageContentInfo.loop codec channel.recording contents (s, log)).1 =
        Error.eNone ∧
      (CMConnection.SendImageContentInfo.loop codec channel.recording contents (s, log)).2.2 =
        log ++ contents.map fun part => innerFrame codec (imageContentMessage part) := by
  induction contents with
  | nil =>
    intro s log
    simp [CMConnection.SendImageContentInfo.loop]
  | cons part rest ih =>
    intro s log
    obtain ⟨data, hd⟩ := Option.isSome_iff_exists.mp (hser (imageContentMessage part))
    simp only [CMConnection.SendImageContentInfo.loop, hd, SendMessage_recording, hw,
      Error.IsNone, beq_self_eq_true, Bool.not_true, Bool.false_eq_true, if_false, List.map_cons,
      innerFrame_of_some codec _ data hd]
    obtain ⟨h1, h2⟩ := ih (channel.Write s (PrepareProtobufHeader data.length ++ data)).2
      (log ++ [PrepareProtobufHeader data.length ++ data])
    exact ⟨h1, by rw [h2]; simp⟩

theorem SendImageContentInfo_ok {σ : Type} (codec : Codec) (channel : CommChannelItf σ)
    (hser : ∀ message, (codec.SerializeToArray message).isSome = true)
    (hw : ∀ s message, (channel.Write s message).1 = Error.eNone)
    (contentInfo : ContentInfo) (s : σ) (log : List (List Byte)) :
    (CMConnection.SendImageContentInfo codec channel.recording contentInfo (s, log)).1 =
      Error.eNone ∧
    (CMConnection.SendImageContentInfo codec channel.recording contentInfo (s, log)).2.2 =
      log ++ innerFrame codec (imageContentInfoMessage contentInfo) ::
        contentInfo.mImageContents.map fun part => innerFrame codec (imageContentMessage part) := by
  obtain ⟨data, hd⟩ := Option.isSome_iff_exists.mp (hser (imageContentInfoMessage contentInfo))
  simp only [CMConnection.SendImageContentInfo, hd, SendMessage_recording, hw, Error.IsNone,
    beq_self_eq_true, Bool.not_true, Bool.false_eq_true, if_false,
    innerFrame_of_some codec _ data hd]
  obtain ⟨h1, h2⟩ := SendImageContentInfo_loop_ok codec channel hser hw contentInfo.mImageContents
    (channel.Write s (PrepareProtobufHeader data.length ++ data)).2
    (log ++ [PrepareProtobufHeader data.length ++ data])
  exact ⟨h1, by rw [h2]; simp⟩

theorem Codec_sample_serializes (message : SMIncomingMessages) :
    (Codec.sample.SerializeToArray message).isSome = true := by
  cases message with
  | image_content_info request_id image_files error => cases error <;> rfl
  | image_content request_id relative_path parts_count part data => rfl
  | clock_sync current_time => rfl

end aos.mp.communication

/-! ## The claims on the file chunker -/

namespace aos.mp.filechunker

open aos.mp.communication (Byte Error SHA256)

/-- C12 (the code at the failing inputs): for an empty file `PrepareImageInfo` emits one
part, with no data, that carries `mPartsCount = 0`; for a file of exactly 1024 bytes it emits
two parts, the second one empty, that carry `mPartsCount = 1`. -/
theorem PrepareImageInfo_parts_count_mismatch :
    PrepareImageInfo { relativePath := "empty", isDirectory := false, content := some [] } 7 =
      some ({ mRelativePath := "empty", mSha256 := SHA256 [], mSize := 0 },
        [{ mRequestID := 7, mRelativePath := "empty", mPartsCount := 0, mPart := 1,
           mData := [] }]) ∧
    PrepareImageInfo
        { relativePath := "block", isDirectory := false, content := some (List.replicate 1024 0) }
        7 =
      some ({ mRelativePath := "block", mSha256 := SHA256 (List.replicate 1024 0), mSize := 1024 },
        [{ mRequestID := 7, mRelativePath := "block", mPartsCount := 1, mPart := 1,
           mData := List.replicate 1024 0 },
         { mRequestID := 7, mRelativePath := "block", mPartsCount := 1, mPart := 2,
           mData := [] }]) := by
  constructor
  · rw [PrepareImageInfo_some, GetChunkedFileContent, loop_short _ _ _ _ _ (by decide)]
    rfl
  · rw [PrepareImageInfo_some, GetChunkedFileContent,
      loop_full _ _ _ _ _ (by rw [List.length_replicate]),
      loop_short _ _ _ _ _ (by rw [List.length_drop, List.length_replicate]; decide)]
    rw [List.length_replicate, List.take_of_length_le (by rw [List.length_replicate]),
      List.drop_of_length_le (by rw [List.length_replicate])]

/-- C13: for every file content, the parts that `GetChunkedFileContent` emits (as
`PrepareImageInfo` calls it, on the file rewound to its start) are numbered
`1, 2, ..., n` in emission order, each holds at most 1024 bytes, and the concatenation of
their `mData` in that order is the file. -/
theorem GetChunkedFileContent_parts (bytes : List Byte) (requestID partCounts : Nat)
    (relPath : String) :
    (GetChunkedFileContent { rest := bytes, fail := false } requestID partCounts relPath).map
        (fun part => part.mPart) =
      List.range' 1
        (GetChunkedFileContent { rest := bytes, fail := false } requestID partCounts
          relPath).length ∧
    (∀ part ∈ GetChunkedFileContent { rest := bytes, fail := false } requestID partCounts relPath,
      part.mData.length ≤ 1024) ∧
    ((GetChunkedFileContent { rest := bytes, fail := false } requestID partCounts relPath).map
        (fun part => part.mData)).flatten = bytes := by
  obtain ⟨h1, h2, h3, h4⟩ := loop_spec requestID partCounts relPath bytes.length bytes 1 rfl
  refine ⟨?_, fun part hp => (h4 part hp).1, h3⟩
  unfold GetChunkedFileContent
  rw [h2, h1]

/-- C14 (counterexample): a tree whose only file cannot be opened; `ChunkFiles` returns the
`eRuntime` error. -/
theorem ChunkFiles_unreadable_file_fails :
    ChunkFiles [{ relativePath := "locked", isDirectory := false, content := none }] 1 =
      ({ mRequestID := 1, mImageFiles := [], mImageContents := [] }, Error.eRuntime) := rfl

/-- C14 (amended): for every directory tree in which every entry that is not a directory can
be opened, and every request id `r`, `ChunkFiles(root, r)` succeeds with a `ContentInfo`
whose `mRequestID` is `r`, that has exactly one `ImageFile` per entry that is not a
directory, in iteration order, with its path relative to the root, `mSize` the file length
and `mSha256` the SHA-256 of the whole content, and whose `ImageContent`s are, file after
file, the parts cut from that file, each carrying `mRequestID = r` and the relative path of
the file. -/
theorem ChunkFiles_readable_tree (entries : List DirEntry) (r : Nat)
    (hopen : ∀ entry ∈ entries, entry.isDirectory = false → entry.content.isSome = true) :
    (ChunkFiles entries r).2 = Error.eNone ∧
    (ChunkFiles entries r).1.mRequestID = r ∧
    (ChunkFiles entries r).1.mImageFiles =
      (entries.filter fun entry => !entry.isDirectory).map (fun entry =>
        { mRelativePath := entry.relativePath, mSha256 := SHA256 (entry.content.getD []),
          mSize := (entry.content.getD []).length }) ∧
    (ChunkFiles entries r).1.mImageContents =
      ((entries.filter fun entry => !entry.isDirectory).map fun entry =>
        GetChunkedFileContent { rest := entry.content.getD [], fail := false } r
          (((entry.content.getD []).length + 1023) / 1024) entry.relativePath).flatten ∧
    ∀ part ∈ (ChunkFiles entries r).1.mImageContents,
      part.mRequestID = r ∧
      ∃ entry ∈ entries, entry.isDirectory = false ∧ part.mRelativePath = entry.relativePath := by
  have h := ChunkFiles_loop_spec r entries
    { mRequestID := r, mImageFiles := [], mImageContents := [] } hopen
  unfold ChunkFiles
  rw [h]
  refine ⟨rfl, rfl, by simp, by simp, ?_⟩
  intro part hp
  simp only [List.nil_append, List.mem_flatten, List.mem_map, List.mem_filter] at hp
  obtain ⟨parts, ⟨entry, ⟨hmem, hdir⟩, hparts⟩, hpart⟩ := hp
  subst hparts
  obtain ⟨_, _, _, h4⟩ := loop_spec r (((entry.content.getD []).length + 1023) / 1024)
    entry.relativePath _ (entry.content.getD []) 1 rfl
  obtain ⟨_, hr, hrel, _⟩ := h4 part hpart
  exact ⟨hr, entry, hmem, by simpa using hdir, hrel⟩

/-- Witness of C14 (amended): a directory and a three-byte file below it. -/
theorem ChunkFiles_readable_tree_witness :
    (ChunkFiles
      [{ relativePath := "dir", isDirectory := true, content := none },
       { relativePath := "dir/a.txt", isDirectory := false, content := some [1, 2, 3] }] 5).2 =
      Error.eNone ∧
    (ChunkFiles
      [{ relativePath := "dir", isDirectory := true, content := none },
       { relativePath := "dir/a.txt", isDirectory := false, content := some [1, 2, 3] }]
      5).1.mRequestID = 5 :=
  ⟨(ChunkFiles_readable_tree
      [{ relativePath := "dir", isDirectory := true, content := none },
       { relativePath := "dir/a.txt", isDirectory := false, content := some [1, 2, 3] }] 5
      (by decide)).1,
   (ChunkFiles_readable_tree
      [{ relativePath := "dir", isDirectory := true, content := none },
       { relativePath := "dir/a.txt", isDirectory := false, content := some [1, 2, 3] }] 5
      (by decide)).2.1⟩

end aos.mp.filechunker

/-! ## The claims on the downloader -/

namespace aos.mp.downloader

open aos.mp.communication (Error)

/-- C17: `RetryDownload` makes at most 3 attempts. It returns success right after the first
attempt that succeeds, without a further attempt; when the three attempts fail it returns the
error of the third. The waits after the failed attempts are 1000, 2000 and 4000 ms (each the
double of the one before, none above `cMaxDelay = 5000`). The attempts are counted by
`counting`. -/
theorem RetryDownload_attempts_and_waits {σ : Type} (Download : σ → Error × σ) (s : σ) :
    ((Download s).1 = Error.eNone →
      RetryDownload (counting Download) (s, 0) = (Error.eNone, ((Download s).2, 1), [])) ∧
    ((Download s).1 ≠ Error.eNone → (Download (Download s).2).1 = Error.eNone →
      RetryDownload (counting Download) (s, 0) =
        (Error.eNone, ((Download (Download s).2).2, 2), [1000])) ∧
    ((Download s).1 ≠ Error.eNone → (Download (Download s).2).1 ≠ Error.eNone →
      (Download (Download (Download s).2).2).1 = Error.eNone →
      RetryDownload (counting Download) (s, 0) =
        (Error.eNone, ((Download (Download (Download s).2).2).2, 3), [1000, 2000])) ∧
    ((Download s).1 ≠ Error.eNone → (Download (Download s).2).1 ≠ Error.eNone →
      (Download (Download (Download s).2).2).1 ≠ Error.eNone →
      RetryDownload (counting Download) (s, 0) =
        ((Download (Download (Download s).2).2).1,
          ((Download (Download (Download s).2).2).2, 3), [1000, 2000, 4000])) ∧
    (RetryDownload (counting Download) (s, 0)).2.1.2 ≤ 3 ∧
    (∀ wait ∈ (RetryDownload (counting Download) (s, 0)).2.2, wait ≤ cMaxDelay) := by
  have key : ∀ e : Error, e.IsNone = true ↔ e = Error.eNone := by
    intro e
    simp [Error.IsNone]
  by_cases h1 : (Download s).1 = Error.eNone
  · have r : RetryDownload (counting Download) (s, 0) =
        (Error.eNone, ((Download s).2, 1), []) := by
      simp [RetryDownload, RetryDownload.loop, counting, cMaxRetryCount, key, h1]
    refine ⟨fun _ => r, fun h => absurd h1 h, fun h => absurd h1 h, fun h => absurd h1 h, ?_, ?_⟩
    · rw [r]
      exact Nat.le_of_ble_eq_true rfl
    · rw [r]
      simp
  · by_cases h2 : (Download (Download s).2).1 = Error.eNone
    · have r : RetryDownload (counting Download) (s, 0) =
          (Error.eNone, ((Download (Download s).2).2, 2), [1000]) := by
        simp [RetryDownload, RetryDownload.loop, counting, cMaxRetryCount, cDelay, key, h1, h2]
      refine ⟨fun h => absurd h h1, fun _ _ => r, fun _ h => absurd h2 h,
        fun _ h => absurd h2 h, ?_, ?_⟩
      · rw [r]
        exact Nat.le_of_ble_eq_true rfl
      · rw [r]
        simp [cMaxDelay]
    · by_cases h3 : (Download (Download (Download s).2).2).1 = Error.eNone
      · have r : RetryDownload (counting Download) (s, 0) =
            (Error.eNone, ((Download (Download (Download s).2).2).2, 3), [1000, 2000]) := by
          simp [RetryDownload, RetryDownload.loop, counting, cMaxRetryCount, cDelay, cMaxDelay,
            key, h1, h2, h3]
        refine ⟨fun h => absurd h h1, fun _ h => absurd h h2, fun _ _ _ => r,
          fun _ _ h => absurd h3 h, ?_, ?_⟩
        · rw [r]
        · rw [r]
          simp [cMaxDelay]
      · have r : RetryDownload (counting Download) (s, 0) =
            ((Download (Download (Download s).2).2).1,
              ((Download (Download (Download s).2).2).2, 3), [1000, 2000, 4000]) := by
          simp [RetryDownload, RetryDownload.loop, counting, cMaxRetryCount, cDelay, cMaxDelay,
            key, h1, h2, h3]
        refine ⟨fun h => absurd h h1, fun _ h => absurd h h2, fun _ _ h => absurd h h3,
          fun _ _ _ => r, ?_, ?_⟩
        · rw [r]
        · rw [r]
          simp [cMaxDelay]

/-- Witness of C17: attempts that fail with `eFailed` until the state, a countdown, reaches
zero; from the state 1 the second attempt succeeds. -/
theorem RetryDownload_attempts_and_waits_witness :
    RetryDownload
        (counting fun n : Nat => (if n = 0 then Error.eNone else Error.eFailed, n - 1)) (1, 0) =
      (Error.eNone, (0, 2), [1000]) :=
  (RetryDownload_attempts_and_waits
    (fun n : Nat => (if n = 0 then Error.eNone else Error.eFailed, n - 1)) 1).2.1
    (by decide) (by decide)

/-- C18: `Download(url)` returns as destination path the download directory joined with the
file name of the URL, and that name is the last `/`-separated segment of the URL's path: it
holds no `/`, and the path is the name or ends in `/` followed by the name. For a `file:` URL
with an empty path the name is the host. The path returned does not depend on the attempts
made nor on their outcome, so two calls with the same URL return the same path. -/
theorem Download_destination_path {σ τ : Type} (mDownloadDir : List Char) (uri : URI)
    (attempt : List Char → σ → Error × σ) (s : σ)
    (attempt2 : List Char → τ → Error × τ) (s2 : τ) :
    (Download mDownloadDir uri attempt s).1.1 =
      (if mDownloadDir = [] ∨ mDownloadDir.getLast? = some '/' then
        mDownloadDir ++ GetFileNameFromURL uri
      else mDownloadDir ++ '/' :: GetFileNameFromURL uri) ∧
    '/' ∉ GetFileNameFromURL uri ∧
    (¬ (uri.scheme = "file".toList ∧ uri.path = [] ∧ uri.host ≠ []) →
      uri.path = GetFileNameFromURL uri ∨
      ∃ pre, uri.path = pre ++ '/' :: GetFileNameFromURL uri) ∧
    (uri.scheme = "file".toList → uri.path = [] → '/' ∉ uri.host →
      GetFileNameFromURL uri = uri.host) ∧
    (Download mDownloadDir uri attempt s).1.1 = (Download mDownloadDir uri attempt2 s2).1.1 := by
  have hns : '/' ∉ GetFileNameFromURL uri := (fileName_of_path _).1
  refine ⟨?_, hns, ?_, ?_, rfl⟩
  · have hhead : ¬ (GetFileNameFromURL uri).head? = some '/' := by
      intro hh
      cases hg : GetFileNameFromURL uri with
      | nil => simp [hg] at hh
      | cons c cs =>
        rw [hg] at hh hns
        simp only [List.head?_cons, Option.some.injEq] at hh
        subst hh
        exact hns (List.mem_cons_self _ _)
    simp only [Download, pathAppend, if_neg hhead]
  · intro hnot
    have hpath : (if uri.scheme = "file".toList then
          if (uri.path.isEmpty && !uri.host.isEmpty) = true then '/' :: uri.host else uri.path
        else uri.path) = uri.path := by
      by_cases hs : uri.scheme = "file".toList
      · rw [if_pos hs]
        by_cases hc : (uri.path.isEmpty && !uri.host.isEmpty) = true
        · exfalso
          apply hnot
          simp only [Bool.and_eq_true, List.isEmpty_iff, Bool.not_eq_true',
            List.isEmpty_eq_false] at hc
          exact ⟨hs, hc.1, hc.2⟩
        · rw [if_neg hc]
      · rw [if_neg hs]
    have h := (fileName_of_path uri.path).2
    unfold GetFileNameFromURL
    simp only [hpath]
    exact h
  · intro hs hp hh
    unfold GetFileNameFromURL
    by_cases hhost : uri.host = []
    · simp [hs, hp, hhost, find_last_of]
    · have hc : (uri.path.isEmpty && !uri.host.isEmpty) = true := by
        simp [hp, hhost]
      simp only [hs, if_true, hc]
      exact fileName_no_slash uri.host hh

/-- Witness of C18: the URL `file://test_file.dat` of the downloader test, with the download
directory `download`. -/
theorem Download_destination_path_witness :
    GetFileNameFromURL { scheme := "file".toList, host := "test_file.dat".toList, path := [] } =
      "test_file.dat".toList ∧
    (Download "download".toList
      { scheme := "file".toList, host := "test_file.dat".toList, path := [] }
      (fun _ (n : Nat) => (Error.eNone, n)) 0).1.1 = "download/test_file.dat".toList :=
  ⟨(Download_destination_path "download".toList
      { scheme := "file".toList, host := "test_file.dat".toList, path := [] }
      (fun _ (n : Nat) => (Error.eNone, n)) 0 (fun _ (n : Nat) => (Error.eNone, n)) 0).2.2.2.1
      rfl rfl (by decide),
    by decide⟩

end aos.mp.downloader

/-! ## The claims on the inner clients -/

namespace aos.mp.cmclient

open aos.mp.communication (Byte Error)
open servicemanager.v4 (SMOutgoingMessages SMOutgoingMessageCase)

/-- C15: in the CM client an outgoing message whose stream write fails is appended to the
reconnect cache if and only if its kind is `NodeConfigStatus`, and a message of another kind
leaves the cache as it was; in the IAM client every outgoing message whose stream write fails
is appended to the cache; in both clients a message whose write succeeds is not cached. -/
theorem SendOutgoing_caches_on_failure
    (parseSM : List Byte → Option SMOutgoingMessages)
    (parseIAM : List Byte → Option iamclient.IAMOutgoingMessages)
    (c : CMClient) (i : iamclient.PublicNodeClient) (msg : List Byte)
    (sm : SMOutgoingMessages) (iam : iamclient.IAMOutgoingMessages)
    (hsm : parseSM msg = some sm) (hiam : parseIAM msg = some iam) :
    ((c.mStream.Write sm).1 = false →
      (sm.SMOutgoingMessage_case = SMOutgoingMessageCase.kNodeConfigStatus →
        (c.SendOutgoing parseSM msg).mMessageCache = c.mMessageCache ++ [sm]) ∧
      (sm.SMOutgoingMessage_case ≠ SMOutgoingMessageCase.kNodeConfigStatus →
        (c.SendOutgoing parseSM msg).mMessageCache = c.mMessageCache)) ∧
    ((c.mStream.Write sm).1 = true →
      (c.SendOutgoing parseSM msg).mMessageCache = c.mMessageCache) ∧
    ((i.mStream.Write iam).1 = false →
      (i.SendOutgoing parseIAM msg).mMessageCache = i.mMessageCache ++ [iam]) ∧
    ((i.mStream.Write iam).1 = true →
      (i.SendOutgoing parseIAM msg).mMessageCache = i.mMessageCache) := by
  refine ⟨?_, ?_, ?_, ?_⟩
  · intro hf
    constructor
    · intro hk
      simp [CMClient.SendOutgoing, hsm, hf, CMClient.CacheMessage, hk]
    · intro hk
      simp only [CMClient.SendOutgoing, hsm, hf, CMClient.CacheMessage]
      cases hcase : sm.SMOutgoingMessage_case <;> simp_all
  · intro hs
    simp [CMClient.SendOutgoing, hsm, hs]
  · intro hf
    simp [iamclient.PublicNodeClient.SendOutgoing, hiam, hf,
      iamclient.PublicNodeClient.CacheMessage]
  · intro hs
    simp [iamclient.PublicNodeClient.SendOutgoing, hiam, hs]

/-- Witness of C15: an alert (field 7) and an IAM message whose writes fail on streams that
are down. -/
theorem SendOutgoing_caches_on_failure_witness :
    (CMClient.SendOutgoing (fun bytes => some ⟨SMOutgoingMessageCase.kOther 7, "", 0, "", bytes⟩)
      { mStream := ⟨[], [false]⟩, mMessageCache := [], mOutgoingMsgChannel := [],
        mCMConnected := true, mShutdown := false } [1]).mMessageCache = [] ∧
    (iamclient.PublicNodeClient.SendOutgoing (fun bytes => some ⟨3, bytes⟩)
      { mStream := ⟨[], [false]⟩, mMessageCache := [], mOutgoingMsgChannel := [],
        mConnected := true, mShutdown := false } [1]).mMessageCache = [] ++ [⟨3, [1]⟩] :=
  ⟨((SendOutgoing_caches_on_failure
      (fun bytes => some ⟨SMOutgoingMessageCase.kOther 7, "", 0, "", bytes⟩)
      (fun bytes => some ⟨3, bytes⟩)
      { mStream := ⟨[], [false]⟩, mMessageCache := [], mOutgoingMsgChannel := [],
        mCMConnected := true, mShutdown := false }
      { mStream := ⟨[], [false]⟩, mMessageCache := [], mOutgoingMsgChannel := [],
        mConnected := true, mShutdown := false }
      [1] _ _ rfl rfl).1 rfl).2 (by decide),
   (SendOutgoing_caches_on_failure
      (fun bytes => some ⟨SMOutgoingMessageCase.kOther 7, "", 0, "", bytes⟩)
      (fun bytes => some ⟨3, bytes⟩)
      { mStream := ⟨[], [false]⟩, mMessageCache := [], mOutgoingMsgChannel := [],
        mCMConnected := true, mShutdown := false }
      { mStream := ⟨[], [false]⟩, mMessageCache := [], mOutgoingMsgChannel := [],
        mConnected := true, mShutdown := false }
      [1] _ _ rfl rfl).2.2.1 rfl⟩

/-- C16 (the code at the failing interleaving): the cache holds a `NodeConfigStatus` message
`A` and the outgoing queue a message `B`. After `RegisterSM` has set `mCMConnected` and
released the mutex, the pump takes `B`, passes its wait and writes `B`; the connection task
replays the cache only then. The stream carries `B` before `A`. When the connection task
runs `SendCachedMessages` first, the stream carries `A` before `B`. -/
theorem CMClient_outgoing_written_before_cache_replay :
    (System.run (fun bytes => some ⟨SMOutgoingMessageCase.kOther 7, "", 0, "", bytes⟩)
      { client :=
          { mStream := ⟨[], []⟩
            mMessageCache := [⟨SMOutgoingMessageCase.kNodeConfigStatus, "", 0, "", [65]⟩]
            mOutgoingMsgChannel := [[66]]
            mCMConnected := false
            mShutdown := false }
        connection := ConnectionPc.registerSM
        pump := PumpPc.receive
        streams := [[]] }
      [Task.connection, Task.pump, Task.pump, Task.pump, Task.connection]).map
        (fun sys => sys.client.mStream.written) =
      some [⟨SMOutgoingMessageCase.kOther 7, "", 0, "", [66]⟩,
        ⟨SMOutgoingMessageCase.kNodeConfigStatus, "", 0, "", [65]⟩] ∧
    (System.run (fun bytes => some ⟨SMOutgoingMessageCase.kOther 7, "", 0, "", bytes⟩)
      { client :=
          { mStream := ⟨[], []⟩
            mMessageCache := [⟨SMOutgoingMessageCase.kNodeConfigStatus, "", 0, "", [65]⟩]
            mOutgoingMsgChannel := [[66]]
            mCMConnected := false
            mShutdown := false }
        connection := ConnectionPc.registerSM
        pump := PumpPc.receive
        streams := [[]] }
      [Task.connection, Task.connection, Task.pump, Task.pump, Task.pump]).map
        (fun sys => sys.client.mStream.written) =
      some [⟨SMOutgoingMessageCase.kNodeConfigStatus, "", 0, "", [65]⟩,
        ⟨SMOutgoingMessageCase.kOther 7, "", 0, "", [66]⟩] := by
  constructor <;> rfl

end aos.mp.cmclient

/-! ## The claims on the CM endpoint runner -/

namespace aos.mp.communication

open servicemanager.v4 (SMOutgoingMessages SMIncomingMessages ImageFileProto Codec)
open aos.mp.filechunker (ContentInfo ImageFile ImageContent DirEntry ChunkFiles)

/-- C19 (counterexample): the receive buffer holds exactly what `SendMessage` writes for the
empty payload, the four bytes of `PrepareProtobufHeader(0)`. `ReadMessage` reads the header
and then does not return: the second `Read`, of zero bytes, waits for the buffer to be
non-empty. -/
theorem ReadMessage_empty_payload_blocks :
    CMConnection.ReadMessage (CommunicationChannel.itf CommChannelItf.scripted)
      ([], { mPort := 1, mShutdown := false,
             mReceivedMessage := PrepareProtobufHeader ([] : List Byte).length ++ [] }) = none := by
  decide

/-- C19 (amended): for every payload `m` with `0 < |m| < 2^32`, when the receive buffer of an
open channel holds exactly the bytes that `SendMessage` writes for `m`
(`PrepareProtobufHeader(|m|)` followed by `m`), `ReadMessage` on that channel returns `m`
without error and leaves the buffer empty; and
`ParseProtobufHeader(PrepareProtobufHeader(n)).mDataSize = n` for every 32-bit `n`. -/
theorem ReadMessage_roundtrip {σ : Type} (under : CommChannelItf σ) (s : σ)
    (ch : CommunicationChannel) (m : List Byte) (hopen : ch.mShutdown = false)
    (hpos : 0 < m.length) (hlen : m.length < 4294967296)
    (hbuf : ch.mReceivedMessage = PrepareProtobufHeader m.length ++ m) :
    (CMConnection.SendMessage CommChannelItf.scripted.recording ([], []) m).2.2 =
      [PrepareProtobufHeader m.length ++ m] ∧
    CMConnection.ReadMessage (CommunicationChannel.itf under) (s, ch) =
      some (m, Error.eNone, (s, { ch with mReceivedMessage := [] })) ∧
    ∀ n, n < 4294967296 → (ParseProtobufHeader (PrepareProtobufHeader n)).mDataSize = n := by
  refine ⟨rfl, ReadMessage_frame under s ch m [] hopen hpos hlen (by rw [hbuf, List.append_nil]),
    ?_⟩
  intro n hn
  have := ParseProtobufHeader_append n []
  rw [List.append_nil] at this
  rw [this]
  exact Nat.mod_eq_of_lt hn

/-- Witness of C19 (amended): a two-byte payload. -/
theorem ReadMessage_roundtrip_witness :
    CMConnection.ReadMessage (CommunicationChannel.itf CommChannelItf.scripted)
      ([], { mPort := 1, mShutdown := false,
             mReceivedMessage := PrepareProtobufHeader ([7, 8] : List Byte).length ++ [7, 8] }) =
      some ([7, 8], Error.eNone, ([], { mPort := 1, mShutdown := false, mReceivedMessage := [] })) :=
  (ReadMessage_roundtrip CommChannelItf.scripted []
    { mPort := 1, mShutdown := false,
      mReceivedMessage := PrepareProtobufHeader ([7, 8] : List Byte).length ++ [7, 8] }
    [7, 8] rfl (by decide) (by decide) rfl).2.1

end aos.mp.communication

namespace aos.mp.communication

open servicemanager.v4 (SMOutgoingMessages SMIncomingMessages ImageFileProto Codec)
open aos.mp.filechunker (ContentInfo ImageFile ImageContent DirEntry ChunkFiles)

/-- C20: for an inbound frame on the CM open channel that parses as an `SMOutgoingMessages`
envelope: when it has `clock_sync_request`, the runner writes exactly one frame on the open
channel, the inner frame of an `SMIncomingMessages` with `clock_sync` holding the current
time, does not call `SendMessages` of the handler and goes on to the next frame; otherwise
it passes the payload bytes unchanged to `SendMessages` of the handler, once, and writes
nothing on the open channel. The writes and the calls are read off the records kept by
`recording`. -/
theorem ReadOpenMsgHandler_clock_sync_or_forward {σ η : Type} (codec : Codec)
    (channel : CommChannelItf σ) (handler : HandlerItf η) (now : Nat)
    (s s1 : σ) (h : η) (written sent : List (List Byte)) (message clockSync : List Byte)
    (outgoingMessages : SMOutgoingMessages)
    (hread : CMConnection.ReadMessage channel s = some (message, Error.eNone, s1))
    (hparse : codec.ParseFromArray message = some outgoingMessages)
    (hser : codec.SerializeToArray (SMIncomingMessages.clock_sync now) = some clockSync) :
    (outgoingMessages.has_clock_sync_request = true →
      CMConnection.ReadOpenMsgHandlerBody codec channel.recording handler.recording now
          (s, written) (h, sent) =
        some (LoopStep.next,
          ((channel.Write s1 (PrepareProtobufHeader clockSync.length ++ clockSync)).2,
            written ++ [PrepareProtobufHeader clockSync.length ++ clockSync]),
          (h, sent))) ∧
    (outgoingMessages.has_clock_sync_request = false →
      CMConnection.ReadOpenMsgHandlerBody codec channel.recording handler.recording now
          (s, written) (h, sent) =
        some (if (handler.SendMessages h message).1 = Error.eNone then LoopStep.next
              else LoopStep.ret,
          (s1, written),
          ((handler.SendMessages h message).2, sent ++ [message]))) := by
  have hrec := ReadMessage_recording channel s written
  rw [hread] at hrec
  simp only [Option.map_some'] at hrec
  constructor
  · intro hcs
    simp only [CMConnection.ReadOpenMsgHandlerBody, hrec, Error.IsNone, beq_self_eq_true,
      Bool.not_true, Bool.false_eq_true, if_false, hparse, hcs, if_true,
      CMConnection.SendSMClockSync, hser, SendMessage_recording]
    split <;> rfl
  · intro hcs
    simp only [CMConnection.ReadOpenMsgHandlerBody, hrec, Error.IsNone, beq_self_eq_true,
      Bool.not_true, Bool.false_eq_true, if_false, hparse, hcs, HandlerItf.recording]
    by_cases he : (handler.SendMessages h message).1 = Error.eNone
    · simp [he]
    · simp [he]

end aos.mp.communication

namespace aos.mp.communication

open servicemanager.v4 (SMOutgoingMessages SMIncomingMessages ImageFileProto Codec)
open aos.mp.filechunker (ContentInfo ImageFile ImageContent DirEntry ChunkFiles)

theorem ChunkFiles_one_byte_file :
    ChunkFiles [{ relativePath := "a", isDirectory := false, content := some [5] }] 1 =
      ({ mRequestID := 1
         mImageFiles := [{ mRelativePath := "a", mSha256 := SHA256 [5], mSize := 1 }]
         mImageContents :=
          [{ mRequestID := 1, mRelativePath := "a", mPartsCount := 1, mPart := 1, mData := [5] }] },
        Error.eNone) := by
  simp only [ChunkFiles, filechunker.ChunkFiles.loop, Bool.false_eq_true, if_false,
    filechunker.PrepareImageInfo_some, filechunker.GetChunkedFileContent]
  rw [filechunker.loop_short _ _ _ _ _ (by decide)]
  rfl

/-- C11 (counterexample): the image holds one file of one byte; the write of the
`image_content_info` succeeds and the write of the `image_content` message fails. `Download`
then sends a failed `image_content_info`: the secure channel has been handed a successful
`image_content_info`, an `image_content` message and a failed `image_content_info`. -/
theorem Download_failed_write_emits_both_infos :
    CMConnection.Download Codec.sample CommChannelItf.scripted.recording Error.eNone
        ([{ relativePath := "a", isDirectory := false, content := some [5] }], Error.eNone) 1
        ([Error.eNone, Error.eFailed], []) =
      (Error.eFailed, [],
        [innerFrame Codec.sample
          (SMIncomingMessages.image_content_info 1
            [{ relative_path := "a", sha256 := SHA256 [5], size := 1 }] none),
         innerFrame Codec.sample (SMIncomingMessages.image_content 1 "a" 1 1 [5]),
         innerFrame Codec.sample
          (SMIncomingMessages.image_content_info 1 [] (some Error.eFailed))]) := by
  simp only [CMConnection.Download, CMConnection.GetFileContent, ChunkFiles_one_byte_file]
  rfl

end aos.mp.communication

namespace aos.mp.communication

open servicemanager.v4 (SMOutgoingMessages SMIncomingMessages ImageFileProto Codec)
open aos.mp.filechunker (ContentInfo ImageFile ImageContent DirEntry ChunkFiles)

/-- C11 (amended): for every `ImageContentRequest` accepted on the secure side, with the
serialization of the messages succeeding: when the download or the unpacking and chunking
fails, `Download` hands the secure channel exactly one failed `image_content_info` carrying
the request id and no `image_content` message; when they succeed and every channel write
succeeds, it hands the channel exactly one `image_content_info` followed by one
`image_content` message for each part the chunker produced, in order, all carrying the
request id, and returns success; when a write fails while these are being sent, one failed
`image_content_info` follows the messages handed to the channel up to the failed write. -/
theorem Download_emits {σ : Type} (codec : Codec) (channel : CommChannelItf σ)
    (downloaded : Error) (unpacked : List DirEntry × Error) (requestID : Nat) (s : σ)
    (log : List (List Byte))
    (hser : ∀ message, (codec.SerializeToArray message).isSome = true) :
    (downloaded ≠ Error.eNone →
      (CMConnection.Download codec channel.recording downloaded unpacked requestID (s, log)).2.2 =
        log ++ [innerFrame codec
          (SMIncomingMessages.image_content_info requestID [] (some downloaded))]) ∧
    (downloaded = Error.eNone → (CMConnection.GetFileContent unpacked requestID).2 ≠ Error.eNone →
      (CMConnection.Download codec channel.recording downloaded unpacked requestID (s, log)).2.2 =
        log ++ [innerFrame codec
          (SMIncomingMessages.image_content_info requestID []
            (some (CMConnection.GetFileContent unpacked requestID).2))]) ∧
    (downloaded = Error.eNone → (CMConnection.GetFileContent unpacked requestID).2 = Error.eNone →
      (∀ s1 message, (channel.Write s1 message).1 = Error.eNone) →
      (CMConnection.Download codec channel.recording downloaded unpacked requestID (s, log)).1 =
        Error.eNone ∧
      (CMConnection.Download codec channel.recording downloaded unpacked requestID (s, log)).2.2 =
        log ++
          innerFrame codec
            (imageContentInfoMessage (CMConnection.GetFileContent unpacked requestID).1) ::
          (CMConnection.GetFileContent unpacked requestID).1.mImageContents.map
            (fun part => innerFrame codec (imageContentMessage part)) ∧
      (CMConnection.GetFileContent unpacked requestID).1.mRequestID = requestID ∧
      ∀ part ∈ (CMConnection.GetFileContent unpacked requestID).1.mImageContents,
        part.mRequestID = requestID) ∧
    (downloaded = Error.eNone → (CMConnection.GetFileContent unpacked requestID).2 = Error.eNone →
      (CMConnection.SendImageContentInfo codec channel.recording
        (CMConnection.GetFileContent unpacked requestID).1 (s, log)).1 ≠ Error.eNone →
      (CMConnection.Download codec channel.recording downloaded unpacked requestID (s, log)).2.2 =
        (CMConnection.SendImageContentInfo codec channel.recording
          (CMConnection.GetFileContent unpacked requestID).1 (s, log)).2.2 ++
        [innerFrame codec
          (SMIncomingMessages.image_content_info requestID []
            (some (CMConnection.SendImageContentInfo codec channel.recording
              (CMConnection.GetFileContent unpacked requestID).1 (s, log)).1))]) := by
  have key : ∀ e : Error, (!e.IsNone) = true ↔ e ≠ Error.eNone := by
    intro e
    simp [Error.IsNone]
  refine ⟨?_, ?_, ?_, ?_⟩
  · intro hd
    have h := SendFailed_recording codec channel hser requestID downloaded s log
    unfold CMConnection.Download
    dsimp only
    rw [if_pos ((key downloaded).mpr hd)]
    split <;> exact h
  · intro hd hc
    have h := SendFailed_recording codec channel hser requestID
      (CMConnection.GetFileContent unpacked requestID).2 s log
    have hd2 : ¬ (!downloaded.IsNone) = true := fun hh => (key _).mp hh hd
    unfold CMConnection.Download
    dsimp only
    rw [if_neg hd2, if_pos ((key _).mpr hc)]
    split <;> exact h
  · intro hd hc hw
    have hd2 : ¬ (!downloaded.IsNone) = true := fun hh => (key _).mp hh hd
    have hc2 : ¬ (!(CMConnection.GetFileContent unpacked requestID).2.IsNone) = true :=
      fun hh => (key _).mp hh hc
    obtain ⟨h1, h2⟩ := SendImageContentInfo_ok codec channel hser hw
      (CMConnection.GetFileContent unpacked requestID).1 s log
    have h3 : ¬ (!(CMConnection.SendImageContentInfo codec channel.recording
        (CMConnection.GetFileContent unpacked requestID).1 (s, log)).1.IsNone) = true :=
      fun hh => (key _).mp hh h1
    have hreq : (CMConnection.GetFileContent unpacked requestID).1.mRequestID = requestID ∧
        ∀ part ∈ (CMConnection.GetFileContent unpacked requestID).1.mImageContents,
          part.mRequestID = requestID := by
      by_cases hu : (!unpacked.2.IsNone) = true
      · exfalso
        apply (key unpacked.2).mp hu
        have hg : (CMConnection.GetFileContent unpacked requestID).2 = unpacked.2 := by
          unfold CMConnection.GetFileContent
          rw [if_pos hu]
        rw [← hg]
        exact hc
      · unfold CMConnection.GetFileContent
        rw [if_neg hu]
        exact filechunker.ChunkFiles_requestID unpacked.1 requestID
    refine ⟨?_, ?_, hreq⟩
    · unfold CMConnection.Download
      dsimp only
      rw [if_neg hd2, if_neg hc2, if_neg h3]
    · unfold CMConnection.Download
      dsimp only
      rw [if_neg hd2, if_neg hc2, if_neg h3]
      exact h2
  · intro hd hc hsend
    have hd2 : ¬ (!downloaded.IsNone) = true := fun hh => (key _).mp hh hd
    have hc2 : ¬ (!(CMConnection.GetFileContent unpacked requestID).2.IsNone) = true :=
      fun hh => (key _).mp hh hc
    have h := SendFailed_recording codec channel hser requestID
      (CMConnection.SendImageContentInfo codec channel.recording
        (CMConnection.GetFileContent unpacked requestID).1 (s, log)).1
      (CMConnection.SendImageContentInfo codec channel.recording
        (CMConnection.GetFileContent unpacked requestID).1 (s, log)).2.1
      (CMConnection.SendImageContentInfo codec channel.recording
        (CMConnection.GetFileContent unpacked requestID).1 (s, log)).2.2
    unfold CMConnection.Download
    dsimp only
    rw [if_neg hd2, if_neg hc2, if_pos ((key _).mpr hsend)]
    split <;> exact h

end aos.mp.communication

namespace aos.mp.communication

open servicemanager.v4 (SMOutgoingMessages SMIncomingMessages ImageFileProto Codec)
open aos.mp.filechunker (ContentInfo ImageFile ImageContent DirEntry ChunkFiles)

/-- Witness of C11 (amended): an image of one file of one byte, sent through a channel whose
writes succeed. -/
theorem Download_emits_witness :
    (CMConnection.Download Codec.sample
      (CommChannelItf.recording
        { Connect := fun (u : Unit) => (Error.eNone, u), Read := fun _ _ => none,
          Write := fun u _ => (Error.eNone, u), Close := fun u => (Error.eNone, u) })
      Error.eNone
      ([{ relativePath := "a", isDirectory := false, content := some [5] }], Error.eNone) 1
      ((), [])).1 = Error.eNone :=
  ((Download_emits Codec.sample
      { Connect := fun (u : Unit) => (Error.eNone, u), Read := fun _ _ => none,
        Write := fun u _ => (Error.eNone, u), Close := fun u => (Error.eNone, u) }
      Error.eNone
      ([{ relativePath := "a", isDirectory := false, content := some [5] }], Error.eNone) 1
      () [] Codec_sample_serializes).2.2.1 rfl
      (by
        unfold CMConnection.GetFileContent
        rw [if_neg (by decide), ChunkFiles_one_byte_file])
      (fun _ _ => rfl)).1

/-- Witness of C20: a clock-sync request (tag 3) in the buffer of the open channel; the
handler accepts what it is sent. -/
theorem ReadOpenMsgHandler_clock_sync_or_forward_witness :
    CMConnection.ReadOpenMsgHandlerBody Codec.sample
        (CommChannelItf.recording (CommunicationChannel.itf CommChannelItf.scripted))
        (HandlerItf.recording
          { SendMessages := fun (u : Unit) _ => (Error.eNone, u), ReceiveMessages := fun _ => none })
        12
        (([], { mPort := 30001, mShutdown := false,
                mReceivedMessage := PrepareProtobufHeader ([3] : List Byte).length ++ [3] ++ [] }),
          [])
        ((), []) =
      some (LoopStep.next,
        (((CommunicationChannel.itf CommChannelItf.scripted).Write
            ([], { mPort := 30001, mShutdown := false, mReceivedMessage := [] })
            (PrepareProtobufHeader ([4, 12] : List Byte).length ++ [4, 12])).2,
          [] ++ [PrepareProtobufHeader ([4, 12] : List Byte).length ++ [4, 12]]),
        ((), [])) :=
  (ReadOpenMsgHandler_clock_sync_or_forward Codec.sample
    (CommunicationChannel.itf CommChannelItf.scripted)
    { SendMessages := fun (u : Unit) _ => (Error.eNone, u), ReceiveMessages := fun _ => none }
    12
    ([], { mPort := 30001, mShutdown := false,
           mReceivedMessage := PrepareProtobufHeader ([3] : List Byte).length ++ [3] ++ [] })
    ([], { mPort := 30001, mShutdown := false, mReceivedMessage := [] })
    () [] [] [3] [4, 12]
    { SMOutgoingMessage_case := servicemanager.v4.SMOutgoingMessageCase.kClockSyncRequest,
      url := "", request_id := 0, content_type := "", content := [] }
    (ReadMessage_frame CommChannelItf.scripted []
      { mPort := 30001, mShutdown := false,
        mReceivedMessage := PrepareProtobufHeader ([3] : List Byte).length ++ [3] ++ [] }
      [3] [] rfl (by decide) (by decide) rfl)
    rfl rfl).1 rfl

end aos.mp.communication

/-! ## Secure channel, closing, frame effect -/

namespace aos.mp.communication

/-- `SecureChannel::Read` on a non-empty buffer makes one call of `SSL_read` and reports
success when that call returned a positive count, whatever the count. -/
theorem SecureChannel_Read_of_SSL_read {σ τ : Type} (ssl : SslItf σ τ) (session session1 : τ)
    (s s1 : σ) (message out : List Byte) (k : Int) (hne : message ≠ [])
    (h : ssl.SSL_read session s message = some (k, out, session1, s1)) (hk : 0 < k) :
    SecureChannel.Read ssl session s message = some (Error.eNone, out, session1, s1) := by
  have he : message.isEmpty = false := by
    cases message with
    | nil => exact absurd rfl hne
    | cons b bs => rfl
  have hk2 : ¬ k ≤ 0 := by omega
  simp [SecureChannel.Read, he, h, hk2]

/-- The stand-in session returns the bytes of one record: a record shorter than the buffer
fills only the start of the buffer. -/
theorem sample_SSL_read_short {σ : Type} (itf : CommChannelItf σ) (record : List Byte)
    (rest : List (List Byte)) (s : σ) (buf : List Byte) (hlt : record.length < buf.length) :
    (SslItf.sample itf).SSL_read (record :: rest) s buf =
      some ((record.length : Int), record ++ buf.drop record.length, rest, s) := by
  have h1 : min buf.length record.length = record.length := by omega
  have h2 : record.length ≤ buf.length := by omega
  simp [SslItf.sample, h1, h2, memcpy]

/-- `SecureChannel::Close` passes to `SSL_shutdown` the channel as `mChannel->Close()` left
it. -/
theorem SecureChannel_Close_eq {σ τ : Type} (itf : CommChannelItf σ) (ssl : SslItf σ τ)
    (session : τ) (s : σ) :
    SecureChannel.Close itf ssl (some session) s =
      ((itf.Close s).1, some (ssl.SSL_shutdown session (itf.Close s).2).2.1,
        (ssl.SSL_shutdown session (itf.Close s).2).2.2) := rfl

/-- The calls that `SecureChannel::Close` makes on the channel beneath it, with the stand-in
session: `Close` first, the write of the close_notify alert after it. -/
theorem SecureChannel_Close_trace {σ : Type} (itf : CommChannelItf σ) (session : List (List Byte))
    (s : σ) (log : List ItfCall) :
    (SecureChannel.Close itf.traced (SslItf.sample itf.traced) (some session) (s, log)).2.2.2 =
      log ++ [ItfCall.Close, ItfCall.Write closeNotify] := by
  simp [SecureChannel.Close, SslItf.sample, SecureChannel.CustomBIOWrite, CommChannelItf.traced]

/-- `CommunicationChannel::Write` on a closed channel hands nothing to the object beneath. -/
theorem Channel_Write_closed {σ : Type} (itf : CommChannelItf σ) (s : σ)
    (ch : CommunicationChannel) (x : List Byte) (h : ch.mShutdown = true) :
    CommunicationChannel.Write itf s ch x = (Error.eRuntime, s) := by
  simp [CommunicationChannel.Write, h]

/-- `CommunicationChannel::Close` on an open and on a closed channel. -/
theorem Channel_Close_cases {σ : Type} (itf : CommChannelItf σ) (s : σ)
    (ch : CommunicationChannel) :
    (ch.mShutdown = false →
      CommunicationChannel.Close itf s ch =
        ((itf.Close s).1, (itf.Close s).2, { ch with mShutdown := true })) ∧
    (ch.mShutdown = true → CommunicationChannel.Close itf s ch = (Error.eFailed, s, ch)) := by
  constructor <;> intro h <;> simp [CommunicationChannel.Close, h]

end aos.mp.communication

/-! ## Closing the Mux, frames above the size limit -/

namespace aos.mp.communication

/-- What `CommunicationManager::Close` leaves: the Mux shut down and not connected, its
transport closed by the call unless the Mux was shut down already. -/
theorem Manager_Close_eq (m : CommunicationManager) :
    m.Close =
      if m.mShutdown then (Error.eNone, m)
      else ((m.mTransport.Close).1,
        { m with mTransport := (m.mTransport.Close).2, mShutdown := true,
                 mIsConnected := false }) := rfl

theorem Manager_Close_mShutdown (m : CommunicationManager) : m.Close.2.mShutdown = true := by
  rw [Manager_Close_eq]
  by_cases h : m.mShutdown = true
  · rw [if_pos h]
    exact h
  · rw [if_neg h]

theorem Manager_Close_again (m : CommunicationManager) :
    m.Close.2.Close = (Error.eNone, m.Close.2) := by
  rw [Manager_Close_eq m.Close.2, if_pos (Manager_Close_mShutdown m)]

theorem Manager_Close_mChannels (m : CommunicationManager) :
    m.Close.2.mChannels = m.mChannels := by
  rw [Manager_Close_eq]
  by_cases h : m.mShutdown = true
  · rw [if_pos h]
  · rw [if_neg h]

theorem Transport_Close_mShutdown (t : Transport) : t.Close.2.mShutdown = true := by
  unfold Transport.Close
  by_cases h : t.mShutdown = true
  · rw [if_pos h]
    exact h
  · rw [if_neg h]

/-- A Mux that is shut down reads nothing: the reader loop ends before its first
iteration. -/
theorem ReadHandler_shutdown (m : CommunicationManager) (h : m.mShutdown = true) :
    m.ReadHandler = ⟨Error.eNone, m, []⟩ := by
  rw [ReadHandler_unfold, if_pos h]

/-- An iteration of the reader loop that goes on has taken from the stream a header and, if
it passed a payload to a channel, that payload. -/
theorem ReadHandlerBody_next_length (m m1 : CommunicationManager) (event : ReadEvent)
    (h : m.ReadHandlerBody = ReadStep.next event m1) (q : Int) :
    m1.mTransport.rx.length + 40 + (event.payloadFor q).length ≤ m.mTransport.rx.length := by
  rcases ReadHandlerBody_cases m with ⟨_, hb⟩ | ⟨hb, rest, hrx, hlen, _, hbody⟩ |
    ⟨hb, rest, _, _, _, _, hbody⟩ | ⟨hb, pl, rest, hrx, hlen, hsize, hmax⟩
  · rw [hb] at h
    cases h
  · rw [hbody] at h
    cases h
    simp [hrx, hlen, ReadEvent.payloadFor]
    omega
  · rw [hbody] at h
    cases h
  · rw [ReadHandlerBody_payload m hb pl rest hrx hlen hsize hmax] at h
    split_ifs at h with hsum
    · cases h
      simp [hrx, hlen, ReadEvent.payloadFor]
      omega
    · split at h
      · cases h
        simp [hrx, hlen, ReadEvent.payloadFor]
        omega
      · cases h
        have hp : (ReadEvent.payloadFor q
            (ReadEvent.received (toInt32 (AosProtocolHeader.ofBytes hb).mPort)
              (AosProtocolHeader.ofBytes hb) pl)).length ≤ pl.length := by
          simp only [ReadEvent.payloadFor]
          split_ifs <;> simp
        simp only [hrx, List.length_append, hlen]
        omega

/-- The bytes that a run of the reader loop passes to a port, and 40 bytes for each of its
iterations that went on, were on the stream. -/
theorem ReadHandler_delivered_length (n : Nat) :
    ∀ m : CommunicationManager, m.mTransport.rx.length = n → ∀ q,
      (deliveredTo q m.ReadHandler.events).length + 40 * m.ReadHandler.events.length ≤ n := by
  induction n using Nat.strong_induction_on with
  | _ n ih =>
    intro m hn q
    rw [ReadHandler_unfold]
    by_cases hs : m.mShutdown = true
    · rw [if_pos hs]
      simp [deliveredTo]
    · rw [if_neg hs]
      cases hbody : m.ReadHandlerBody with
      | ret err m1 => simp [deliveredTo]
      | next event m1 =>
        have hstep := ReadHandlerBody_next_length m m1 event hbody q
        have h2 := ih m1.mTransport.rx.length (by omega) m1 rfl q
        simp only [deliveredTo, List.foldr_cons, List.length_append, List.length_cons] at h2 ⊢
        omega

/-- What a run of the reader loop passes to a port is shorter than the stream, unless it is
nothing. -/
theorem ReadHandler_delivered_ne (m : CommunicationManager) (q : Int) (x : List Byte)
    (hx : x ≠ []) (hle : m.mTransport.rx.length ≤ x.length) :
    deliveredTo q m.ReadHandler.events ≠ x := by
  intro heq
  have h := ReadHandler_delivered_length _ m rfl q
  rw [heq] at h
  have hev : m.ReadHandler.events = [] := by
    cases hevs : m.ReadHandler.events with
    | nil => rfl
    | cons e es =>
      rw [hevs] at h
      simp only [List.length_cons] at h
      omega
  rw [hev] at heq
  exact hx heq.symm

theorem PrepareHeader_isEmpty (port : Nat) (x : List Byte) :
    (PrepareHeader port x).isEmpty = false := by
  cases h : PrepareHeader port x with
  | nil =>
    have := PrepareHeader_length port x
    rw [h] at this
    cases this
  | cons b bs => rfl

/-- `CommunicationChannel::Write` on an open channel over a connected Mux whose transport
accepts the two writes. -/
theorem Channel_Write_Mux (m : CommunicationManager) (ch : CommunicationChannel)
    (x : List Byte) (hopen : ch.mShutdown = false) (hconn : m.mIsConnected = true)
    (hacc : ∀ e ∈ m.mTransport.writeResults.take 2, e = Error.eNone) :
    (CommunicationChannel.Write CommunicationManager.itf m ch x).1 = Error.eNone ∧
    (CommunicationChannel.Write CommunicationManager.itf m ch x).2.mTransport.tx =
      m.mTransport.tx ++ [PrepareHeader (toUInt32 ch.mPort) x, x] := by
  rcases hw : m.mTransport.writeResults with _ | ⟨e, _ | ⟨e2, es⟩⟩
  · simp [CommunicationChannel.Write, hopen, PrepareHeader_isEmpty, CommunicationManager.itf,
      CommunicationManager.Write, hconn, Transport.Write, hw, Error.IsNone]
  · rw [hw] at hacc
    have he : e = Error.eNone := hacc e (by simp)
    subst he
    simp [CommunicationChannel.Write, hopen, PrepareHeader_isEmpty, CommunicationManager.itf,
      CommunicationManager.Write, hconn, Transport.Write, hw, Error.IsNone]
  · rw [hw] at hacc
    have he : e = Error.eNone := hacc e (by simp)
    have he2 : e2 = Error.eNone := hacc e2 (by simp)
    subst he
    subst he2
    simp [CommunicationChannel.Write, hopen, PrepareHeader_isEmpty, CommunicationManager.itf,
      CommunicationManager.Write, hconn, Transport.Write, hw, Error.IsNone]

end aos.mp.communication

/-! ## Replay of the cache, connected flag, growth of the cache -/

namespace aos.mp

theorem Stream_Write_true {Msg : Type} (written : List Msg) (rest : List Bool) (message : Msg) :
    Stream.Write ⟨written, true :: rest⟩ message = (true, ⟨written ++ [message], rest⟩) := rfl

theorem Stream_Write_false {Msg : Type} (written : List Msg) (rest : List Bool) (message : Msg) :
    Stream.Write ⟨written, false :: rest⟩ message = (false, ⟨written, rest⟩) := rfl

theorem Stream_Write_nil {Msg : Type} (written : List Msg) (message : Msg) :
    Stream.Write ⟨written, []⟩ message = (true, ⟨written ++ [message], []⟩) := rfl

end aos.mp

namespace aos.mp.cmclient

open aos.mp.communication (Byte Error)
open servicemanager.v4 (SMOutgoingMessages SMOutgoingMessageCase)

/-- The loop of `CMClient::SendCachedMessages` when every write succeeds. -/
theorem SendCachedMessages_loop_ok (cache : List SMOutgoingMessages) :
    ∀ (written : List SMOutgoingMessages) (results : List Bool),
      (∀ b ∈ results.take cache.length, b = true) →
      CMClient.SendCachedMessages.loop cache ⟨written, results⟩ =
        (true, [], ⟨written ++ cache, results.drop cache.length⟩) := by
  induction cache with
  | nil =>
    intro written results _
    simp [CMClient.SendCachedMessages.loop]
  | cons message rest ih =>
    intro written results h
    cases results with
    | nil =>
      rw [CMClient.SendCachedMessages.loop, Stream_Write_nil]
      simp only [Bool.not_true, Bool.false_eq_true, if_false]
      rw [ih _ _ (by simp)]
      simp
    | cons b bs =>
      have hb : b = true := h b (by simp)
      subst hb
      rw [CMClient.SendCachedMessages.loop, Stream_Write_true]
      simp only [Bool.not_true, Bool.false_eq_true, if_false]
      rw [ih _ _ (fun b hb => h b (by simp [hb]))]
      simp

/-- The loop of `CMClient::SendCachedMessages` when `k` writes succeed and the next fails. -/
theorem SendCachedMessages_loop_fail (k : Nat) :
    ∀ (cache : List SMOutgoingMessages) (written : List SMOutgoingMessages) (rest : List Bool),
      k < cache.length →
      CMClient.SendCachedMessages.loop cache ⟨written, List.replicate k true ++ false :: rest⟩ =
        (false, cache.drop k, ⟨written ++ cache.take k, rest⟩) := by
  induction k with
  | zero =>
    intro cache written rest hk
    cases cache with
    | nil => simp at hk
    | cons message cs =>
      simp only [List.replicate_zero, List.nil_append]
      rw [CMClient.SendCachedMessages.loop, Stream_Write_false]
      simp
  | succ k ih =>
    intro cache written rest hk
    cases cache with
    | nil => simp at hk
    | cons message cs =>
      simp only [List.replicate_succ, List.cons_append]
      rw [CMClient.SendCachedMessages.loop, Stream_Write_true]
      simp only [Bool.not_true, Bool.false_eq_true, if_false]
      rw [ih cs _ rest (by simpa using hk)]
      simp

/-- `CMClient::CacheMessage` appends a `NodeConfigStatus` message and drops any other. -/
theorem CacheMessage_mMessageCache (c : CMClient) (message : SMOutgoingMessages) :
    (c.CacheMessage message).mMessageCache =
      c.mMessageCache ++
        [message].filter
          (fun sm => sm.SMOutgoingMessage_case = SMOutgoingMessageCase.kNodeConfigStatus) := by
  unfold CMClient.CacheMessage
  cases h : message.SMOutgoingMessage_case <;> simp [h]

end aos.mp.cmclient

namespace aos.mp.iamclient

open aos.mp.communication (Byte Error)

/-- The loop of `PublicNodeClient::SendCachedMessages` when every write succeeds. -/
theorem IAM_SendCachedMessages_loop_ok (cache : List IAMOutgoingMessages) :
    ∀ (written : List IAMOutgoingMessages) (results : List Bool),
      (∀ b ∈ results.take cache.length, b = true) →
      PublicNodeClient.SendCachedMessages.loop cache ⟨written, results⟩ =
        (Error.eNone, [], ⟨written ++ cache, results.drop cache.length⟩) := by
  induction cache with
  | nil =>
    intro written results _
    simp [PublicNodeClient.SendCachedMessages.loop]
  | cons message rest ih =>
    intro written results h
    cases results with
    | nil =>
      rw [PublicNodeClient.SendCachedMessages.loop, Stream_Write_nil]
      simp only [Bool.not_true, Bool.false_eq_true, if_false]
      rw [ih _ _ (by simp)]
      simp
    | cons b bs =>
      have hb : b = true := h b (by simp)
      subst hb
      rw [PublicNodeClient.SendCachedMessages.loop, Stream_Write_true]
      simp only [Bool.not_true, Bool.false_eq_true, if_false]
      rw [ih _ _ (fun b hb => h b (by simp [hb]))]
      simp

/-- The loop of `PublicNodeClient::SendCachedMessages` when `k` writes succeed and the next
fails. -/
theorem IAM_SendCachedMessages_loop_fail (k : Nat) :
    ∀ (cache : List IAMOutgoingMessages) (written : List IAMOutgoingMessages)
      (rest : List Bool), k < cache.length →
      PublicNodeClient.SendCachedMessages.loop cache
          ⟨written, List.replicate k true ++ false :: rest⟩ =
        (Error.eRuntime, cache.drop k, ⟨written ++ cache.take k, rest⟩) := by
  induction k with
  | zero =>
    intro cache written rest hk
    cases cache with
    | nil => simp at hk
    | cons message cs =>
      simp only [List.replicate_zero, List.nil_append]
      rw [PublicNodeClient.SendCachedMessages.loop, Stream_Write_false]
      simp
  | succ k ih =>
    intro cache written rest hk
    cases cache with
    | nil => simp at hk
    | cons message cs =>
      simp only [List.replicate_succ, List.cons_append]
      rw [PublicNodeClient.SendCachedMessages.loop, Stream_Write_true]
      simp only [Bool.not_true, Bool.false_eq_true, if_false]
      rw [ih cs _ rest (by simpa using hk)]
      simp

theorem IAM_SendCachedMessages_mConnected (c : PublicNodeClient) :
    c.SendCachedMessages.2.mConnected = c.mConnected := rfl

theorem IAM_SendCachedMessages_mShutdown (c : PublicNodeClient) :
    c.SendCachedMessages.2.mShutdown = c.mShutdown := rfl

/-- `PublicNodeClient::RegisterNode` never clears `mConnected`. -/
theorem RegisterNode_keeps_mConnected (credentialList : List Attempt) :
    ∀ c : PublicNodeClient, c.mConnected = true →
      (c.RegisterNode credentialList).2.mConnected = true := by
  induction credentialList with
  | nil =>
    intro c h
    exact h
  | cons credentials rest ih =>
    intro c h
    unfold PublicNodeClient.RegisterNode
    split_ifs
    · exact h
    · exact ih c h
    · exact ih c h
    · split
      · exact ih c h
      · dsimp only
        split_ifs
        · exact ih _ (by rw [IAM_SendCachedMessages_mConnected])
        · exact ih _ (by rw [IAM_SendCachedMessages_mConnected])

/-- Once an entry of the credential list has given a stream, `mConnected` is set when
`RegisterNode` returns. -/
theorem RegisterNode_sets_mConnected (credentials : Attempt) (rest : List Attempt)
    (c : PublicNodeClient) (writeResults : List Bool) (hs : c.mShutdown = false)
    (h1 : credentials.channel = true) (h2 : credentials.stub = true)
    (h3 : credentials.stream = some writeResults) :
    (c.RegisterNode (credentials :: rest)).2.mConnected = true := by
  unfold PublicNodeClient.RegisterNode
  simp only [hs, h1, h2, h3, Bool.false_eq_true, if_false, Bool.not_true]
  split_ifs
  · exact RegisterNode_keeps_mConnected rest _ (by rw [IAM_SendCachedMessages_mConnected])
  · exact RegisterNode_keeps_mConnected rest _ (by rw [IAM_SendCachedMessages_mConnected])

end aos.mp.iamclient

/-! ## Service image without layers -/

namespace aos.mp.imageunpacker

open aos.mp.communication (Error)

/-- `ValidateImage` on a manifest without layers, with a valid config digest and no
`aosService`: the evaluation reaches `mLayers[0]`. -/
theorem ValidateImage_no_layers {φ J : Type} (env : Env φ J) (fs : φ) (imagePath : String)
    (serviceManifest : ServiceManifest) (hl : serviceManifest.mManifest.mLayers = [])
    (hc : (env.ValidateDigest serviceManifest.mManifest.mConfig.mDigest).IsNone = true)
    (ha : serviceManifest.mAosService = none) :
    ValidateImage env fs imagePath serviceManifest = Outcome.undefined := by
  simp [ValidateImage, hc, ha, hl, Outcome.bind, vectorAt]

/-- `GetImageParts` on a manifest without layers. -/
theorem GetImageParts_no_layers {φ J : Type} (env : Env φ J) (imagePath : String)
    (manifest : ServiceManifest) (hl : manifest.mManifest.mLayers = []) :
    GetImageParts env imagePath manifest = Outcome.undefined := by
  simp [GetImageParts, hl, Outcome.bind, vectorAt]

/-- `UpdateRootFSDigestInManifest` on a manifest without layers. -/
theorem UpdateRootFSDigestInManifest_no_layers {φ J : Type} (env : Env φ J) (fs : φ)
    (manifestPath rootFSDigest : String) (serviceManifest : ServiceManifest)
    (hl : serviceManifest.mManifest.mLayers = []) :
    UpdateRootFSDigestInManifest env fs manifestPath rootFSDigest serviceManifest =
      Outcome.undefined := by
  simp [UpdateRootFSDigestInManifest, hl, Outcome.bind, vectorSet]

/-- `ParseManifest` on an object whose `layers` array has no element. -/
theorem ParseManifest_no_layers {φ J : Type} (env : Env φ J) (object config : J)
    (digest : String) (h1 : env.GetObject object "config" = Outcome.value config)
    (h2 : env.GetString config "digest" = Outcome.value digest)
    (h3 : env.GetArrayValue object "layers" = Outcome.value []) :
    ParseManifest env object =
      Outcome.value { mConfig := { mDigest := digest }, mLayers := [] } := by
  simp [ParseManifest, h1, h2, h3, Outcome.bind, mapOutcome]

end aos.mp.imageunpacker

/-! ## Claims C21 to C30 -/

namespace aos.mp.communication

/-- C21 (the code at the failing input): a four-byte buffer is read from a session whose next
record holds the two bytes 1, 2. The one call of `SSL_read` returns 2, with the first two
bytes of the buffer filled; `SecureChannel::Read` reports `eNone` with the buffer in that
state; and the record 3, 4 that follows is still in the session, where the next `Read` finds
it. -/
theorem SecureChannel_Read_succeeds_on_short_read :
    (SslItf.sample CommChannelItf.scripted).SSL_read [[1, 2], [3, 4]] [] [0, 0, 0, 0] =
      some (2, [1, 2, 0, 0], [[3, 4]], []) ∧
    SecureChannel.Read (SslItf.sample CommChannelItf.scripted) [[1, 2], [3, 4]] []
      [0, 0, 0, 0] = some (Error.eNone, [1, 2, 0, 0], [[3, 4]], []) ∧
    SecureChannel.Read (SslItf.sample CommChannelItf.scripted) [[3, 4]] [] [0, 0] =
      some (Error.eNone, [3, 4], [], []) := by
  have hread := sample_SSL_read_short CommChannelItf.scripted [1, 2] [[3, 4]] []
    [0, 0, 0, 0] (by decide)
  refine ⟨hread, ?_, ?_⟩
  · exact SecureChannel_Read_of_SSL_read _ _ _ _ _ _ _ 2 (by decide) hread (by decide)
  · decide

/-- C22 (the code at the failing input): `Close` on a connected secure channel. On a traced
channel the calls are `Close` first and the write of the close_notify alert after it. Over a
channel of a connected Mux, `Close` returns `eNone`, leaves channel and Mux shut down, and the
alert never reaches the transport: its `tx` stays empty. -/
theorem SecureChannel_Close_closes_channel_before_TLS_shutdown :
    (SecureChannel.Close CommChannelItf.scripted.traced
      (SslItf.sample CommChannelItf.scripted.traced) (some []) ([], [])).2.2.2 =
        [ItfCall.Close, ItfCall.Write closeNotify] ∧
    (SecureChannel.Close (CommunicationChannel.itf CommunicationManager.itf)
      (SslItf.sample (CommunicationChannel.itf CommunicationManager.itf)) (some [])
      ({ mTransport := ⟨[], [], [], false⟩, mChannels := fun _ => none, mShutdown := false,
         mIsConnected := true }, CommunicationChannel.create 8080)).1 = Error.eNone ∧
    (SecureChannel.Close (CommunicationChannel.itf CommunicationManager.itf)
      (SslItf.sample (CommunicationChannel.itf CommunicationManager.itf)) (some [])
      ({ mTransport := ⟨[], [], [], false⟩, mChannels := fun _ => none, mShutdown := false,
         mIsConnected := true }, CommunicationChannel.create 8080)).2.2.1.mTransport =
        ⟨[], [], [], true⟩ ∧
    (SecureChannel.Close (CommunicationChannel.itf CommunicationManager.itf)
      (SslItf.sample (CommunicationChannel.itf CommunicationManager.itf)) (some [])
      ({ mTransport := ⟨[], [], [], false⟩, mChannels := fun _ => none, mShutdown := false,
         mIsConnected := true }, CommunicationChannel.create 8080)).2.2.2.mShutdown = true := by
  refine ⟨?_, ?_, ?_, ?_⟩
  · exact SecureChannel_Close_trace CommChannelItf.scripted [] [] []
  · rfl
  · rfl
  · rfl

/-- C23: on an open channel, `Close` marks the channel closed, calls `Close` of the object
beneath it once and returns its result; on a closed channel, which is what the first `Close`
leaves, `Close` returns `eFailed`, makes no call on the object beneath and leaves the channel
closed. The calls are read off the record kept by `traced`. -/
theorem Channel_Close_first_and_later {σ : Type} (itf : CommChannelItf σ) (s : σ)
    (log : List ItfCall) (ch : CommunicationChannel) :
    (ch.mShutdown = false →
      CommunicationChannel.Close itf.traced (s, log) ch =
        ((itf.Close s).1, ((itf.Close s).2, log ++ [ItfCall.Close]),
          { ch with mShutdown := true })) ∧
    (ch.mShutdown = true →
      CommunicationChannel.Close itf.traced (s, log) ch = (Error.eFailed, (s, log), ch)) ∧
    (ch.mShutdown = false →
      CommunicationChannel.Close itf.traced
          (CommunicationChannel.Close itf.traced (s, log) ch).2.1
          (CommunicationChannel.Close itf.traced (s, log) ch).2.2 =
        (Error.eFailed, ((itf.Close s).2, log ++ [ItfCall.Close]),
          { ch with mShutdown := true })) := by
  refine ⟨?_, ?_, ?_⟩
  · intro h
    simp [CommunicationChannel.Close, h, CommChannelItf.traced]
  · intro h
    simp [CommunicationChannel.Close, h]
  · intro h
    simp [CommunicationChannel.Close, h, CommChannelItf.traced]

/-- Witness of C23: two calls of `Close` on the channel of port 8080 over a connected Mux. The
first returns `eNone` and shuts the Mux down, the second returns `eFailed`; the Mux has been
closed once. -/
theorem Channel_Close_first_and_later_witness :
    CommunicationChannel.Close CommunicationManager.itf.traced
        ({ mTransport := ⟨[], [], [], false⟩, mChannels := fun _ => none, mShutdown := false,
           mIsConnected := true }, []) (CommunicationChannel.create 8080) =
      ((CommunicationManager.itf.Close
          { mTransport := ⟨[], [], [], false⟩, mChannels := fun _ => none, mShutdown := false,
            mIsConnected := true }).1,
        ((CommunicationManager.itf.Close
          { mTransport := ⟨[], [], [], false⟩, mChannels := fun _ => none, mShutdown := false,
            mIsConnected := true }).2, [] ++ [ItfCall.Close]),
        { CommunicationChannel.create 8080 with mShutdown := true }) ∧
    CommunicationChannel.Close CommunicationManager.itf.traced
        (CommunicationChannel.Close CommunicationManager.itf.traced
          ({ mTransport := ⟨[], [], [], false⟩, mChannels := fun _ => none, mShutdown := false,
             mIsConnected := true }, []) (CommunicationChannel.create 8080)).2.1
        (CommunicationChannel.Close CommunicationManager.itf.traced
          ({ mTransport := ⟨[], [], [], false⟩, mChannels := fun _ => none, mShutdown := false,
             mIsConnected := true }, []) (CommunicationChannel.create 8080)).2.2 =
      (Error.eFailed,
        ((CommunicationManager.itf.Close
          { mTransport := ⟨[], [], [], false⟩, mChannels := fun _ => none, mShutdown := false,
            mIsConnected := true }).2, [] ++ [ItfCall.Close]),
        { CommunicationChannel.create 8080 with mShutdown := true }) :=
  ⟨(Channel_Close_first_and_later CommunicationManager.itf
      { mTransport := ⟨[], [], [], false⟩, mChannels := fun _ => none, mShutdown := false,
        mIsConnected := true } [] (CommunicationChannel.create 8080)).1 rfl,
   (Channel_Close_first_and_later CommunicationManager.itf
      { mTransport := ⟨[], [], [], false⟩, mChannels := fun _ => none, mShutdown := false,
        mIsConnected := true } [] (CommunicationChannel.create 8080)).2.2 rfl⟩

/-- C24: a frame on the stream whose header `hb` announces the size of the payload `pl`, not
above the limit, and carries its SHA-256. If a channel `ch` is registered for the port of the
header, the iteration passes `pl` to it: afterwards the registry holds for that port `ch` with
`pl` appended to its receive buffer, port and closed mark as they were, and for every other
port what it held. If no channel is registered for the port, the registry is unchanged, so no
entry is created and no buffer changes. In both cases the iteration ends by going on to the
next iteration, with the stream at the byte after the payload, and not by a `return`; the
shutdown and connection marks are unchanged. -/
theorem ReadHandler_frame_effect (m : CommunicationManager) (hb pl rest : List Byte)
    (hrx : m.mTransport.rx = hb ++ pl ++ rest) (hlen : hb.length = 40)
    (hsize : (AosProtocolHeader.ofBytes hb).mDataSize = pl.length)
    (hmax : pl.length ≤ cMaxMessageSize)
    (hsum : SHA256 pl = (AosProtocolHeader.ofBytes hb).mCheckSum) :
    (∀ ch, m.mChannels (toInt32 (AosProtocolHeader.ofBytes hb).mPort) = some ch →
      ∃ m1, m.ReadHandlerBody =
          ReadStep.next (ReadEvent.received (toInt32 (AosProtocolHeader.ofBytes hb).mPort)
            (AosProtocolHeader.ofBytes hb) pl) m1 ∧
        m1.mChannels (toInt32 (AosProtocolHeader.ofBytes hb).mPort) =
          some { ch with mReceivedMessage := ch.mReceivedMessage ++ pl } ∧
        (∀ q, q ≠ toInt32 (AosProtocolHeader.ofBytes hb).mPort →
          m1.mChannels q = m.mChannels q) ∧
        m1.mTransport.rx = rest ∧ m1.mShutdown = m.mShutdown ∧
        m1.mIsConnected = m.mIsConnected) ∧
    (m.mChannels (toInt32 (AosProtocolHeader.ofBytes hb).mPort) = none →
      ∃ m1, m.ReadHandlerBody =
          ReadStep.next (ReadEvent.channelNotFound (AosProtocolHeader.ofBytes hb) pl) m1 ∧
        m1.mChannels = m.mChannels ∧ m1.mTransport.rx = rest ∧
        m1.mShutdown = m.mShutdown ∧ m1.mIsConnected = m.mIsConnected) := by
  have hbody := ReadHandlerBody_payload m hb pl rest hrx hlen hsize hmax
  have hn : ¬ SHA256 pl ≠ (AosProtocolHeader.ofBytes hb).mCheckSum := fun h => h hsum
  rw [if_neg hn] at hbody
  constructor
  · intro ch hch
    rw [hch] at hbody
    refine ⟨_, hbody, ?_, ?_, rfl, rfl, rfl⟩
    · simp
    · intro q hq
      simp [Function.update_noteq hq]
  · intro hnone
    rw [hnone] at hbody
    exact ⟨_, hbody, rfl, rfl, rfl, rfl⟩

end aos.mp.communication

namespace aos.mp.communication

/-- Witness of C24: a valid frame for port 1 read by a Mux without any channel: the payload is
dropped, the registry stays empty and the loop goes on. -/
theorem ReadHandler_frame_effect_witness :
    ∃ m1, (CommunicationManager.Init
          ⟨PrepareHeader (toUInt32 1) [7] ++ [7] ++ [], [], [], false⟩).ReadHandlerBody =
        ReadStep.next
          (ReadEvent.channelNotFound
            (AosProtocolHeader.ofBytes (PrepareHeader (toUInt32 1) [7])) [7]) m1 ∧
      m1.mChannels = (CommunicationManager.Init
          ⟨PrepareHeader (toUInt32 1) [7] ++ [7] ++ [], [], [], false⟩).mChannels ∧
      m1.mTransport.rx = [] ∧
      m1.mShutdown = (CommunicationManager.Init
          ⟨PrepareHeader (toUInt32 1) [7] ++ [7] ++ [], [], [], false⟩).mShutdown ∧
      m1.mIsConnected = (CommunicationManager.Init
          ⟨PrepareHeader (toUInt32 1) [7] ++ [7] ++ [], [], [], false⟩).mIsConnected :=
  (ReadHandler_frame_effect
    (CommunicationManager.Init ⟨PrepareHeader (toUInt32 1) [7] ++ [7] ++ [], [], [], false⟩)
    (PrepareHeader (toUInt32 1) [7]) [7] [] rfl (PrepareHeader_length _ _)
    (by rw [ofBytes_PrepareHeader_channel 1 [7] (by decide)])
    (by decide)
    (by rw [ofBytes_PrepareHeader_channel 1 [7] (by decide)])).2 rfl

/-- C29: the first `Close` of a channel of the Mux, plain or secure (here with the stand-in
session), runs `CommunicationManager::Close`: it leaves the Mux as that call leaves it, shut
down, with the transport closed by that call if the Mux was not shut down before. Every
`CommunicationManager::Close` after it, as made by the first `Close` of another channel,
returns at once and leaves the Mux and the transport as they are, so the transport is closed
once. Whatever bytes the transport holds afterwards, the reader loop passes nothing to any
channel: its run has no iteration and the registry is as it was. -/
theorem Channel_Close_closes_the_Mux (m : CommunicationManager) (ch : CommunicationChannel)
    (hopen : ch.mShutdown = false) :
    CommunicationChannel.Close CommunicationManager.itf m ch =
      (m.Close.1, m.Close.2, { ch with mShutdown := true }) ∧
    (∀ mSsl : Option (List (List Byte)),
      SecureChannel.Close (CommunicationChannel.itf CommunicationManager.itf)
          (SslItf.sample (CommunicationChannel.itf CommunicationManager.itf)) mSsl (m, ch) =
        (m.Close.1, mSsl, (m.Close.2, { ch with mShutdown := true }))) ∧
    m.Close.2.mShutdown = true ∧
    (m.mShutdown = false →
      m.Close.2.mTransport = m.mTransport.Close.2 ∧ m.Close.2.mTransport.mShutdown = true) ∧
    m.Close.2.Close = (Error.eNone, m.Close.2) ∧
    (∀ ch2 : CommunicationChannel, ch2.mShutdown = false →
      CommunicationChannel.Close CommunicationManager.itf m.Close.2 ch2 =
        (Error.eNone, m.Close.2, { ch2 with mShutdown := true })) ∧
    (∀ rx : List Byte,
      ({ m.Close.2 with mTransport := { m.Close.2.mTransport with rx := rx } } :
          CommunicationManager).ReadHandler.events = [] ∧
      ({ m.Close.2 with mTransport := { m.Close.2.mTransport with rx := rx } } :
          CommunicationManager).ReadHandler.manager.mChannels = m.mChannels) := by
  have hplain : CommunicationChannel.Close CommunicationManager.itf m ch =
      (m.Close.1, m.Close.2, { ch with mShutdown := true }) :=
    (Channel_Close_cases CommunicationManager.itf m ch).1 hopen
  refine ⟨hplain, ?_, Manager_Close_mShutdown m, ?_, Manager_Close_again m, ?_, ?_⟩
  · intro mSsl
    have hw : ∀ x : List Byte,
        CommunicationChannel.Write CommunicationManager.itf m.Close.2
          { ch with mShutdown := true } x = (Error.eRuntime, m.Close.2) :=
      fun x => Channel_Write_closed _ _ _ x rfl
    cases mSsl with
    | none => simp [SecureChannel.Close, CommunicationChannel.itf, hplain]
    | some session =>
      simp [SecureChannel.Close, CommunicationChannel.itf, hplain, SslItf.sample,
        SecureChannel.CustomBIOWrite, hw]
  · intro hs
    rw [Manager_Close_eq, if_neg (by simp [hs])]
    exact ⟨rfl, Transport_Close_mShutdown _⟩
  · intro ch2 h2
    rw [(Channel_Close_cases CommunicationManager.itf m.Close.2 ch2).1 h2]
    show (m.Close.2.Close.1, m.Close.2.Close.2, _) = _
    rw [Manager_Close_again]
  · intro rx
    have h := ReadHandler_shutdown
      ({ m.Close.2 with mTransport := { m.Close.2.mTransport with rx := rx } } :
        CommunicationManager) (Manager_Close_mShutdown m)
    rw [h]
    exact ⟨rfl, Manager_Close_mChannels m⟩

/-- Witness of C29: the channel of port 8080 of a connected Mux is closed while the transport
still holds 41 bytes. -/
theorem Channel_Close_closes_the_Mux_witness :
    CommunicationChannel.Close CommunicationManager.itf
        ((CommunicationManager.Init ⟨List.replicate 41 0, [], [], false⟩).CreateChannel 8080).2
        (CommunicationChannel.create 8080) =
      (((CommunicationManager.Init ⟨List.replicate 41 0, [], [], false⟩).CreateChannel
          8080).2.Close.1,
        ((CommunicationManager.Init ⟨List.replicate 41 0, [], [], false⟩).CreateChannel
          8080).2.Close.2,
        { CommunicationChannel.create 8080 with mShutdown := true }) ∧
    ((CommunicationManager.Init ⟨List.replicate 41 0, [], [], false⟩).CreateChannel
      8080).2.Close.2.mShutdown = true :=
  ⟨(Channel_Close_closes_the_Mux
      ((CommunicationManager.Init ⟨List.replicate 41 0, [], [], false⟩).CreateChannel 8080).2
      (CommunicationChannel.create 8080) rfl).1,
   (Channel_Close_closes_the_Mux
      ((CommunicationManager.Init ⟨List.replicate 41 0, [], [], false⟩).CreateChannel 8080).2
      (CommunicationChannel.create 8080) rfl).2.2.1⟩

/-- C30: a payload `x` of more than 65536 and fewer than 2^32 bytes written to an open channel
over a connected Mux whose transport accepts the two writes. `Write` returns `eNone` and the
transport has been handed `PrepareHeader(p, x)` and then `x`; the `data_size` of that header
is the length of `x`; a reader loop that finds this frame on its stream rejects it as too big
after the header; and a reader loop whose stream is this frame passes to no port a sequence
of bytes equal to `x`. -/
theorem Channel_Write_no_size_limit (m : CommunicationManager) (ch : CommunicationChannel)
    (x : List Byte) (hopen : ch.mShutdown = false) (hconn : m.mIsConnected = true)
    (hacc : ∀ e ∈ m.mTransport.writeResults.take 2, e = Error.eNone)
    (hbig : 65536 < x.length) (hlt : x.length < 4294967296) :
    (CommunicationChannel.Write CommunicationManager.itf m ch x).1 = Error.eNone ∧
    (CommunicationChannel.Write CommunicationManager.itf m ch x).2.mTransport.tx =
      m.mTransport.tx ++ [PrepareHeader (toUInt32 ch.mPort) x, x] ∧
    (AosProtocolHeader.ofBytes (PrepareHeader (toUInt32 ch.mPort) x)).mDataSize = x.length ∧
    (∀ (r : CommunicationManager) (rest : List Byte),
      r.mTransport.rx = PrepareHeader (toUInt32 ch.mPort) x ++ x ++ rest →
      r.ReadHandlerBody =
        ReadStep.next
          (ReadEvent.tooBig (AosProtocolHeader.ofBytes (PrepareHeader (toUInt32 ch.mPort) x)))
          { r with mTransport := { r.mTransport with rx := x ++ rest } }) ∧
    (∀ (r : CommunicationManager) (q : Int),
      r.mTransport.rx = PrepareHeader (toUInt32 ch.mPort) x ++ x →
      deliveredTo q r.ReadHandler.events ≠ x) := by
  have hsize : (AosProtocolHeader.ofBytes (PrepareHeader (toUInt32 ch.mPort) x)).mDataSize =
      x.length := by
    rw [ofBytes_PrepareHeader_channel ch.mPort x hlt]
  have hmaxv : cMaxMessageSize = 65536 := rfl
  have htoo : ∀ (r : CommunicationManager) (rest : List Byte),
      r.mTransport.rx = PrepareHeader (toUInt32 ch.mPort) x ++ x ++ rest →
      r.ReadHandlerBody =
        ReadStep.next
          (ReadEvent.tooBig (AosProtocolHeader.ofBytes (PrepareHeader (toUInt32 ch.mPort) x)))
          { r with mTransport := { r.mTransport with rx := x ++ rest } } := by
    intro r rest hrx
    exact ReadHandlerBody_tooBig r _ (x ++ rest) (by rw [hrx, List.append_assoc])
      (PrepareHeader_length _ _) (by rw [hsize, hmaxv]; exact hbig)
  have hx : x ≠ [] := by
    intro h
    rw [h] at hbig
    simp at hbig
  refine ⟨(Channel_Write_Mux m ch x hopen hconn hacc).1,
    (Channel_Write_Mux m ch x hopen hconn hacc).2, hsize, htoo, ?_⟩
  intro r q hrx
  by_cases hs : r.mShutdown = true
  · rw [ReadHandler_shutdown r hs]
    exact fun h => hx h.symm
  · have hs2 : r.mShutdown = false := by simpa using hs
    have hbody := htoo r [] (by rw [hrx, List.append_nil])
    rw [ReadHandler_next r _ _ hs2 hbody]
    have h := ReadHandler_delivered_ne
      ({ r with mTransport := { r.mTransport with rx := x ++ [] } } : CommunicationManager) q x hx
      (by simp)
    simpa [deliveredTo, ReadEvent.payloadFor] using h

/-- Witness of C30: 65537 zero bytes written to the channel of port 8080 over a connected Mux
whose transport accepts every write. -/
theorem Channel_Write_no_size_limit_witness :
    (CommunicationChannel.Write CommunicationManager.itf
      { mTransport := ⟨[], [], [], false⟩, mChannels := fun _ => none, mShutdown := false,
        mIsConnected := true }
      (CommunicationChannel.create 8080) (List.replicate 65537 0)).1 = Error.eNone ∧
    (AosProtocolHeader.ofBytes
      (PrepareHeader (toUInt32 (CommunicationChannel.create 8080).mPort)
        (List.replicate 65537 0))).mDataSize = (List.replicate 65537 (0 : Byte)).length :=
  ⟨(Channel_Write_no_size_limit
      { mTransport := ⟨[], [], [], false⟩, mChannels := fun _ => none, mShutdown := false,
        mIsConnected := true }
      (CommunicationChannel.create 8080) (List.replicate 65537 0) rfl rfl
      (fun e he => absurd he (List.not_mem_nil e))
      (by rw [List.length_replicate]; decide) (by rw [List.length_replicate]; decide)).1,
   (Channel_Write_no_size_limit
      { mTransport := ⟨[], [], [], false⟩, mChannels := fun _ => none, mShutdown := false,
        mIsConnected := true }
      (CommunicationChannel.create 8080) (List.replicate 65537 0) rfl rfl
      (fun e he => absurd he (List.not_mem_nil e))
      (by rw [List.length_replicate]; decide) (by rw [List.length_replicate]; decide)).2.2.1⟩

end aos.mp.communication

namespace aos.mp.cmclient

open aos.mp.communication (Byte Error)
open servicemanager.v4 (SMOutgoingMessages SMOutgoingMessageCase)

/-- C25: `SendCachedMessages` of the CM client (`c`) and of the IAM client (`i`). If every
write succeeds, it succeeds, the stream has been given the whole cache in its order and the
cache is empty. If the first `k` writes succeed and the next fails, with `k` less than the
number of cached messages, it fails (the CM client throws, the IAM client returns
`eRuntime`), the stream has been given the first `k` messages in order and nothing else, and
the cache holds the message whose write failed and all later ones, in their order. -/
theorem SendCachedMessages_replays_in_order (c : CMClient) (i : iamclient.PublicNodeClient) :
    ((∀ b ∈ c.mStream.writeResults.take c.mMessageCache.length, b = true) →
      c.SendCachedMessages.1 = true ∧ c.SendCachedMessages.2.mMessageCache = [] ∧
      c.SendCachedMessages.2.mStream.written = c.mStream.written ++ c.mMessageCache) ∧
    (∀ (k : Nat) (rest : List Bool), k < c.mMessageCache.length →
      c.mStream.writeResults = List.replicate k true ++ false :: rest →
      c.SendCachedMessages.1 = false ∧
      c.SendCachedMessages.2.mMessageCache = c.mMessageCache.drop k ∧
      c.SendCachedMessages.2.mStream.written = c.mStream.written ++ c.mMessageCache.take k) ∧
    ((∀ b ∈ i.mStream.writeResults.take i.mMessageCache.length, b = true) →
      i.SendCachedMessages.1 = Error.eNone ∧ i.SendCachedMessages.2.mMessageCache = [] ∧
      i.SendCachedMessages.2.mStream.written = i.mStream.written ++ i.mMessageCache) ∧
    (∀ (k : Nat) (rest : List Bool), k < i.mMessageCache.length →
      i.mStream.writeResults = List.replicate k true ++ false :: rest →
      i.SendCachedMessages.1 = Error.eRuntime ∧
      i.SendCachedMessages.2.mMessageCache = i.mMessageCache.drop k ∧
      i.SendCachedMessages.2.mStream.written = i.mStream.written ++ i.mMessageCache.take k) := by
  refine ⟨?_, ?_, ?_, ?_⟩
  · intro h
    have hl := SendCachedMessages_loop_ok c.mMessageCache c.mStream.written
      c.mStream.writeResults h
    simp only [CMClient.SendCachedMessages]
    rw [hl]
    exact ⟨rfl, rfl, rfl⟩
  · intro k rest hk hres
    have hl := SendCachedMessages_loop_fail k c.mMessageCache c.mStream.written rest hk
    have hst : c.mStream = ⟨c.mStream.written, List.replicate k true ++ false :: rest⟩ := by
      rw [← hres]
    simp only [CMClient.SendCachedMessages]
    rw [hst, hl]
    exact ⟨rfl, rfl, rfl⟩
  · intro h
    have hl := iamclient.IAM_SendCachedMessages_loop_ok i.mMessageCache i.mStream.written
      i.mStream.writeResults h
    simp only [iamclient.PublicNodeClient.SendCachedMessages]
    rw [hl]
    exact ⟨rfl, rfl, rfl⟩
  · intro k rest hk hres
    have hl := iamclient.IAM_SendCachedMessages_loop_fail k i.mMessageCache i.mStream.written
      rest hk
    have hst : i.mStream = ⟨i.mStream.written, List.replicate k true ++ false :: rest⟩ := by
      rw [← hres]
    simp only [iamclient.PublicNodeClient.SendCachedMessages]
    rw [hst, hl]
    exact ⟨rfl, rfl, rfl⟩

/-- Witness of C25: both clients hold three cached messages and a stream whose second write
fails: the first message is written and the cache keeps the second and the third. -/
theorem SendCachedMessages_replays_in_order_witness :
    (CMClient.SendCachedMessages
      { mStream := ⟨[], [true, false]⟩
        mMessageCache :=
          [⟨SMOutgoingMessageCase.kNodeConfigStatus, "", 0, "", [1]⟩,
           ⟨SMOutgoingMessageCase.kNodeConfigStatus, "", 0, "", [2]⟩,
           ⟨SMOutgoingMessageCase.kNodeConfigStatus, "", 0, "", [3]⟩]
        mOutgoingMsgChannel := [], mCMConnected := true, mShutdown := false }).2.mMessageCache =
      List.drop 1
        [⟨SMOutgoingMessageCase.kNodeConfigStatus, "", 0, "", [1]⟩,
         ⟨SMOutgoingMessageCase.kNodeConfigStatus, "", 0, "", [2]⟩,
         ⟨SMOutgoingMessageCase.kNodeConfigStatus, "", 0, "", [3]⟩] ∧
    (iamclient.PublicNodeClient.SendCachedMessages
      { mStream := ⟨[], [true, false]⟩
        mMessageCache := [⟨3, [1]⟩, ⟨3, [2]⟩, ⟨3, [3]⟩]
        mOutgoingMsgChannel := [], mConnected := true, mShutdown := false }).1 =
      Error.eRuntime :=
  ⟨((SendCachedMessages_replays_in_order
      { mStream := ⟨[], [true, false]⟩
        mMessageCache :=
          [⟨SMOutgoingMessageCase.kNodeConfigStatus, "", 0, "", [1]⟩,
           ⟨SMOutgoingMessageCase.kNodeConfigStatus, "", 0, "", [2]⟩,
           ⟨SMOutgoingMessageCase.kNodeConfigStatus, "", 0, "", [3]⟩]
        mOutgoingMsgChannel := [], mCMConnected := true, mShutdown := false }
      { mStream := ⟨[], [true, false]⟩
        mMessageCache := [⟨3, [1]⟩, ⟨3, [2]⟩, ⟨3, [3]⟩]
        mOutgoingMsgChannel := [], mConnected := true, mShutdown := false }).2.1
      1 [] (by decide) rfl).2.1,
   ((SendCachedMessages_replays_in_order
      { mStream := ⟨[], [true, false]⟩
        mMessageCache :=
          [⟨SMOutgoingMessageCase.kNodeConfigStatus, "", 0, "", [1]⟩,
           ⟨SMOutgoingMessageCase.kNodeConfigStatus, "", 0, "", [2]⟩,
           ⟨SMOutgoingMessageCase.kNodeConfigStatus, "", 0, "", [3]⟩]
        mOutgoingMsgChannel := [], mCMConnected := true, mShutdown := false }
      { mStream := ⟨[], [true, false]⟩
        mMessageCache := [⟨3, [1]⟩, ⟨3, [2]⟩, ⟨3, [3]⟩]
        mOutgoingMsgChannel := [], mConnected := true, mShutdown := false }).2.2.2
      1 [] (by decide) rfl).1⟩

/-- C26 (the code at the failing input): an IAM client, not connected, whose credential list
has one entry, for which gRPC gives a stream that ends without a message. When
`ConnectionLoop` starts its reconnect wait, `mConnected` is `true`, the predicate of the
pump's wait holds, and the pump, given a message, writes it to the stream that has ended
(the write fails and the message goes to the cache). In the CM client, the step of `RunCM`
that follows the return of `ProcessIncomingSMMessage` clears `mCMConnected`, and the pump,
holding a message, cannot move. -/
theorem IAM_client_stays_connected_after_stream_end :
    (iamclient.PublicNodeClient.ConnectionLoopBody
      { mStream := ⟨[], []⟩, mMessageCache := [], mOutgoingMsgChannel := [],
        mConnected := false, mShutdown := false }
      [⟨true, true, some [false], []⟩]).mConnected = true ∧
    (iamclient.PublicNodeClient.ConnectionLoopBody
      { mStream := ⟨[], []⟩, mMessageCache := [], mOutgoingMsgChannel := [],
        mConnected := false, mShutdown := false }
      [⟨true, true, some [false], []⟩]).PumpMayProceed = true ∧
    ((iamclient.PublicNodeClient.ConnectionLoopBody
      { mStream := ⟨[], []⟩, mMessageCache := [], mOutgoingMsgChannel := [],
        mConnected := false, mShutdown := false }
      [⟨true, true, some [false], []⟩]).SendOutgoing (fun bytes => some ⟨3, bytes⟩)
        [66]).mStream.writeResults = [] ∧
    ((System.step (fun bytes => some ⟨SMOutgoingMessageCase.kOther 7, "", 0, "", bytes⟩)
      { client :=
          { mStream := ⟨[], [false]⟩, mMessageCache := [], mOutgoingMsgChannel := [],
            mCMConnected := true, mShutdown := false }
        connection := ConnectionPc.reconnect
        pump := PumpPc.wait [66]
        streams := [] } Task.connection).map fun sys => sys.client.mCMConnected) =
      some false ∧
    ((System.run (fun bytes => some ⟨SMOutgoingMessageCase.kOther 7, "", 0, "", bytes⟩)
      { client :=
          { mStream := ⟨[], [false]⟩, mMessageCache := [], mOutgoingMsgChannel := [],
            mCMConnected := true, mShutdown := false }
        connection := ConnectionPc.reconnect
        pump := PumpPc.wait [66]
        streams := [] } [Task.connection, Task.pump]).map fun sys => sys.client.mCMConnected) =
      none := by
  refine ⟨?_, ?_, ?_, ?_, ?_⟩ <;> rfl

/-- C27 (counterexample): the writes of two `NodeConfigStatus` messages fail one after the
other; the cache, empty before, holds both of them afterwards, the older one first. -/
theorem CMClient_cache_holds_two_messages :
    (CMClient.SendOutgoing (fun bytes => some ⟨SMOutgoingMessageCase.kNodeConfigStatus, "", 0, "", bytes⟩)
      (CMClient.SendOutgoing
        (fun bytes => some ⟨SMOutgoingMessageCase.kNodeConfigStatus, "", 0, "", bytes⟩)
        { mStream := ⟨[], [false, false]⟩, mMessageCache := [], mOutgoingMsgChannel := [],
          mCMConnected := true, mShutdown := false } [65]) [66]).mMessageCache =
      [⟨SMOutgoingMessageCase.kNodeConfigStatus, "", 0, "", [65]⟩,
       ⟨SMOutgoingMessageCase.kNodeConfigStatus, "", 0, "", [66]⟩] := by
  rfl

/-- C27 (amended): the cache of the CM client is a queue without bound. After the pump has
taken any sequence of outgoing messages whose writes all fail, the cache holds what it held
before followed by every `NodeConfigStatus` message of the sequence, in the order of the
sequence; messages of other kinds, and payloads that do not parse, are not kept. -/
theorem CMClient_cache_keeps_every_NodeConfigStatus
    (parse : List Byte → Option SMOutgoingMessages) (msgs : List (List Byte)) (c : CMClient)
    (k : Nat) (hk : msgs.length ≤ k) (hres : c.mStream.writeResults = List.replicate k false) :
    (msgs.foldl (fun client msg => client.SendOutgoing parse msg) c).mMessageCache =
      c.mMessageCache ++
        (msgs.filterMap parse).filter
          (fun sm => sm.SMOutgoingMessage_case = SMOutgoingMessageCase.kNodeConfigStatus) := by
  revert c k
  induction msgs with
  | nil =>
    intro c k _ _
    simp
  | cons msg rest ih =>
    intro c k hk hres
    simp only [List.foldl_cons]
    cases k with
    | zero => simp at hk
    | succ k =>
      have hk2 : rest.length ≤ k := by simpa using hk
      cases hp : parse msg with
      | none =>
        have hc : c.SendOutgoing parse msg = c := by simp [CMClient.SendOutgoing, hp]
        rw [hc, ih c (k + 1) (by omega) hres]
        simp [hp]
      | some sm =>
        have hw : c.mStream.Write sm = (false, ⟨c.mStream.written, List.replicate k false⟩) := by
          simp [Stream.Write, hres, List.replicate_succ]
        have hc : c.SendOutgoing parse msg =
            ({ c with mStream := ⟨c.mStream.written, List.replicate k false⟩ } :
              CMClient).CacheMessage sm := by
          simp [CMClient.SendOutgoing, hp, hw]
        rw [hc, ih _ k hk2]
        · rw [CacheMessage_mMessageCache]
          simp [hp, List.filter_cons]
          split_ifs <;> simp
        · unfold CMClient.CacheMessage
          cases sm.SMOutgoingMessage_case <;> rfl

/-- Witness of C27 (amended): three failed writes, of a `NodeConfigStatus`, an alert and a
`NodeConfigStatus`, on a client whose cache is empty. -/
theorem CMClient_cache_keeps_every_NodeConfigStatus_witness :
    ([[1, 65], [7, 66], [1, 67]].foldl
      (fun client msg => CMClient.SendOutgoing
        communication.Codec.sample.ParseFromArray client msg)
      { mStream := ⟨[], List.replicate 3 false⟩, mMessageCache := [], mOutgoingMsgChannel := [],
        mCMConnected := true, mShutdown := false }).mMessageCache =
      [] ++
        (([[1, 65], [7, 66], [1, 67]] : List (List Byte)).filterMap
            communication.Codec.sample.ParseFromArray).filter
          (fun sm => sm.SMOutgoingMessage_case = SMOutgoingMessageCase.kNodeConfigStatus) :=
  CMClient_cache_keeps_every_NodeConfigStatus communication.Codec.sample.ParseFromArray
    [[1, 65], [7, 66], [1, 67]]
    { mStream := ⟨[], List.replicate 3 false⟩, mMessageCache := [], mOutgoingMsgChannel := [],
      mCMConnected := true, mShutdown := false } 3 (by decide) rfl

end aos.mp.cmclient

namespace aos.mp.imageunpacker

open aos.mp.communication (Error)

/-- C28 (the code at the failing input): the image store holds, after extraction, a
`manifest.json` with a valid `config` digest, no `aosService` and an empty `layers` array.
`ParseServiceManifest` accepts it, with no layer. `ValidateImage`, `GetImageParts` and
`UpdateRootFSDigestInManifest` each access `mLayers[0]` of that manifest, out of range, and
`UnpackService` does so in `ValidateImage` instead of returning an error. With one layer in
the manifest and its blob in place, `UnpackService` returns the image path. -/
theorem UnpackService_reads_first_layer_of_empty_manifest :
    ParseServiceManifest Env.sample
        [("store/tmp/manifest.json", SampleJson.manifest "sha256:c" [] none)]
        "store/tmp/manifest.json" =
      Outcome.value
        { mAosService := none, mManifest := { mConfig := ⟨"sha256:c"⟩, mLayers := [] } } ∧
    ValidateImage Env.sample
        [("store/tmp/manifest.json", SampleJson.manifest "sha256:c" [] none)] "store/tmp"
        { mAosService := none, mManifest := { mConfig := ⟨"sha256:c"⟩, mLayers := [] } } =
      Outcome.undefined ∧
    GetImageParts Env.sample "store/tmp"
        { mAosService := none, mManifest := { mConfig := ⟨"sha256:c"⟩, mLayers := [] } } =
      Outcome.undefined ∧
    UpdateRootFSDigestInManifest Env.sample
        [("store/tmp/manifest.json", SampleJson.manifest "sha256:c" [] none)]
        "store/tmp/manifest.json" "sha256:r"
        { mAosService := none, mManifest := { mConfig := ⟨"sha256:c"⟩, mLayers := [] } } =
      Outcome.undefined ∧
    UnpackService Env.sample
        [("store/tmp/manifest.json", SampleJson.manifest "sha256:c" [] none)]
        "image.tar" "store" = none ∧
    UnpackService Env.sample
        [("store/tmp/manifest.json", SampleJson.manifest "sha256:c" ["sha256:l"] none),
         ("store/tmp/blobs/sha256/sha256:l", SampleJson.descriptor "")]
        "image.tar" "store" = some ("store/tmp", Error.eNone) := by
  refine ⟨?_, ?_, ?_, ?_, ?_, ?_⟩
  · decide
  · exact ValidateImage_no_layers _ _ _ _ rfl rfl rfl
  · exact GetImageParts_no_layers _ _ _ rfl
  · exact UpdateRootFSDigestInManifest_no_layers _ _ _ _ _ rfl
  · decide
  · decide

end aos.mp.imageunpacker
